import Mathlib

/-! Far Horizons: the production-order controller (`src/fhprod.c`).

A shallow embedding of `main` of `fhprod.c`.  The process state is split into the
globals (`Mem`), the files (`Disk`) and the sequence of observable actions
(`trace`).  Functions of the repository that `main` calls but that live in other
files (lexer, production engine, intercept resolver, loaders, savers, operator
prompt) are fields of `Env`.
-/

namespace FarHorizons

/-! ## Lexer tokens and the order scanner -/

/-- One order line as the lexer delivers it: the command code returned by
`get_command ()` and the characters of the line after the command word (what
`input_line_pointer` points at when `get_command` returns). -/
structure Token where
  command : Nat
  line : List Char
deriving DecidableEq, Repr

/-- Command codes of `command.h` that `main` compares against; the header is not
part of the translated file, so the three values are parameters. -/
structure CommandCodes where
  MESSAGE : Nat
  START : Nat
  ZZZ : Nat
deriving DecidableEq, Repr

/-- Modelled from the spec: the lexer `get_command`, of which only the contract is
known ("returns a token identifying a message marker, a start marker, a block
terminator marker, or a negative sentinel for end-of-stream").  An open order
script is the list of its remaining tokens; reading past the last one yields `-1`. -/
def get_command (input_file : List Token) : Int × List Char × List Token :=
  match input_file with
  | [] => (-1, [], [])
  | t :: rest => ((t.command : Int), t.line, rest)

/-- C `toupper` in the "C" locale. -/
def toupper (c : Char) : Char := c.toUpper

/-- Character under a C string pointer: past the terminator the model reads NUL. -/
def deref (p : List Char) : Char := p.getD 0 (Char.ofNat 0)

/-- Lines 175-181: `skip_whitespace ()` followed by the three-character read
`keyword[i] = toupper (*input_line_pointer); ++input_line_pointer`.
Returns the keyword and the advanced pointer. -/
def read_keyword (skip_whitespace : List Char → List Char) (p : List Char) :
    List Char × List Char :=
  let p0 := skip_whitespace p
  let p1 := p0.drop 1
  let p2 := p1.drop 1
  ([toupper (deref p0), toupper (deref p1), toupper (deref p2)], p2.drop 1)

/-- Result of the search loop of lines 145-186. -/
structure ScanResult where
  found : Bool
  input_file : List Token
  input_line_pointer : List Char
  stderr : List String
deriving DecidableEq, Repr

/-- Warning of line 156. -/
def unterminated_warning (filename : String) : String :=
  "WARNING: Unterminated MESSAGE command in file " ++ filename ++ "!\n"

/-- Lines 145-186, the search for START PRODUCTION.  Each step performs one
`get_command ()`: the empty list is the negative result.  `in_message = true` is
the inner `while (TRUE)` loop of lines 153-162 (entered on MESSAGE, left by
`goto find_start` on ZZZ); `in_message = false` is the outer `while (!found)`. -/
def find_start (c : CommandCodes) (skip_whitespace : List Char → List Char)
    (filename : String) : Bool → List Char → List Token → ScanResult
  | in_message, p, [] =>
    if in_message then
      -- line 155: command < 0 inside MESSAGE: warn, break, then line 165 breaks
      ⟨false, [], p, [unterminated_warning filename]⟩
    else
      -- line 165: end of file
      ⟨false, [], p, []⟩
  | in_message, _, t :: rest =>
    if in_message then
      if ((t.command : Int) < 0) then ⟨false, rest, t.line, [unterminated_warning filename]⟩
      else if t.command = c.ZZZ then find_start c skip_whitespace filename false t.line rest
      else find_start c skip_whitespace filename true t.line rest
    else if t.command = c.MESSAGE then
      find_start c skip_whitespace filename true t.line rest
    else if ((t.command : Int) < 0) then ⟨false, rest, t.line, []⟩
    else if t.command ≠ c.START then
      find_start c skip_whitespace filename false t.line rest
    else
      let k := read_keyword skip_whitespace t.line
      if k.1 = ['P', 'R', 'O'] then ⟨true, rest, k.2, []⟩
      else find_start c skip_whitespace filename false k.2 rest

/-! ## Process state -/

/-- The members of `struct species_data` that `main` touches; `rest` stands for
the other members. -/
structure species_data where
  name : String
  num_namplas : Int
  tech_level : Nat → Int
  econ_units : Int
  rest : List Int

/-- The members of `struct nampla_data` that `main` touches; `rest` stands for
the other members. -/
structure nampla_data where
  planet_index : Int
  auto_IUs : Int
  auto_AUs : Int
  IUs_needed : Int
  AUs_needed : Int
  rest : List Int
deriving DecidableEq, Repr

/-- Value of the global `log_file`. -/
inductive LogTarget where
  | null
  | stdout
  | file (filename : String)
deriving DecidableEq, Repr

/-- Globals that the production engine and the intercept resolver may write:
the galaxy data, the transient production state and the open order stream. -/
structure Frame where
  spec_data : Int → species_data
  namp_data : Int → Nat → nampla_data
  ship_data : Int → Nat → List Int
  planet_base : Nat → List Int
  star_base : Nat → List Int
  transaction : List (List Int)
  data_modified : Int → Bool
  planet_data_modified : Bool
  production_done : Nat → Bool
  sp_tech_level : Nat → Int
  num_intercepts : Int
  intercept : Nat → List Int
  input_file : List Token
  input_line_pointer : List Char

/-- All globals that `main` reads or writes.  The fields outside `fr` are written
by `main` and the loaders only.  Pointers are kept as indices: `species`,
`nampla_base` and `ship_base` hold the index into `spec_data`, `namp_data`,
`ship_data`; `home_planet` the index into `planet_base`. -/
structure Mem where
  fr : Frame
  galaxy_num_species : Int
  data_in_memory : Int → Bool
  ignore_field_distorters : Bool
  first_pass : Bool
  test_mode : Bool
  verbose_mode : Bool
  species_number : Int
  species_index : Int
  species : Int
  nampla_base : Int
  ship_base : Int
  home_planet : Int
  end_of_file : Bool
  just_opened_file : Bool
  log_stdout : Bool
  log_file : LogTarget

/-- Files of the game directory: binary data files, order scripts that can be
opened for reading, and log files that can be opened for appending (with the
lines they hold). -/
structure Disk where
  dat : String → Option (List Int)
  ord : String → Option (List Token)
  log : String → Option (List String)

/-- Observable actions of a run, in program order. -/
inductive Event where
  | printf (s : String)
  | eprintf (s : String)
  | get_galaxy_data
  | get_transaction_data
  | get_species_data
  | get_star_data
  | get_planet_data
  | fopen (filename : String) (mode : String) (ok : Bool)
  | fclose_input_file
  | fclose_log_file
  | fprintf (target : LogTarget) (s : String)
  | do_production_orders (at_call : Mem)
  | handle_intercept (i : Int)
  | gamemaster_abort_option
  | free_species_data
  | free_star_base
  | free_planet_base
  | save_species_data
  | save_planet_data
  | save_transaction_data

/-- What a call of the engine or of the resolver leaves behind: the writable
globals, the text it sent to `log_file`, and the exit status when it ended the
process itself. -/
structure CallResult where
  fr : Frame
  log : List String
  exit : Option Int

/-- What `get_species_data` fills in. -/
structure SpeciesStore where
  data_in_memory : Int → Bool
  data_modified : Int → Bool
  spec_data : Int → species_data
  namp_data : Int → Nat → nampla_data
  ship_data : Int → Nat → List Int

/-- Modelled from the spec: the collaborators of `main` that are defined in other
files of the repository.  Loaders are functions of the files ("discarding and
reloading all mutable galaxy data"); the engine and the resolver see all globals
and return the ones they may write ("may mutate planet records, the tech-level
vector, the economic-unit balance, and may append entries to the
InterceptQueue"); `gamemaster_abort_option` is the operator's answer, `some code`
when the operator aborts and the prompt ends the process. -/
structure Env where
  codes : CommandCodes
  skip_whitespace : List Char → List Char
  get_galaxy_data : Disk → Int
  get_transaction_data : Disk → List (List Int)
  get_species_data : Disk → SpeciesStore
  get_star_data : Disk → Nat → List Int
  get_planet_data : Disk → Nat → List Int
  do_production_orders : Mem → CallResult
  handle_intercept : Int → Mem → CallResult
  gamemaster_abort_option : Option Int
  save_species_data : Mem → Disk → Disk
  save_planet_data : Mem → Disk → Disk
  save_transaction_data : Mem → Disk → Disk

/-- Globals, files and the actions performed so far. -/
structure World where
  mem : Mem
  disk : Disk
  trace : List Event

/-- Result of one iteration of the species loop: fall through to the next
iteration, or the process has ended with an exit status. -/
inductive Step where
  | next (w : World)
  | exit (code : Int) (w : World)

/-- World a step ended in. -/
def Step.world : Step → World
  | .next w => w
  | .exit _ w => w

/-- Record an action. -/
def World.emit (w : World) (e : Event) : World :=
  { w with trace := w.trace ++ [e] }

/-- Replace the globals. -/
def World.put (w : World) (m : Mem) : World :=
  { w with mem := m }

/-- C loop `for (i = 0; i < n; i++) body (i)`. -/
def for_loop {σ : Type} : Nat → (Nat → σ → σ) → σ → σ
  | 0, _, s => s
  | n + 1, body, s => body n (for_loop n body s)

/-- Array store `a[i] = v`. -/
def store {ι α : Type} [DecidableEq ι] (a : ι → α) (i : ι) (v : α) : ι → α :=
  fun j => if j = i then v else a j

/-- Format `%02d`. -/
def fmt_02d (n : Int) : String :=
  if 0 ≤ n ∧ n < 10 then "0" ++ toString n else toString n

/-- Line 130: `sprintf (filename, "sp%02d.ord", species_number)`. -/
def ord_filename (species_number : Int) : String :=
  "sp" ++ fmt_02d species_number ++ ".ord"

/-- Line 201: `sprintf (filename, "sp%02d.log", species_number)`. -/
def log_filename (species_number : Int) : String :=
  "sp" ++ fmt_02d species_number ++ ".log"

/-- Text written through `log_file`: to the console when it is `stdout`, appended
to the file when it is an open log file. -/
def World.log_write (w : World) (s : String) : World :=
  match w.mem.log_file with
  | .file name =>
    { w with
      disk := { w.disk with log := store w.disk.log name ((w.disk.log name).map (fun l => l ++ [s])) },
      trace := w.trace ++ [Event.fprintf (.file name) s] }
  | t => { w with trace := w.trace ++ [Event.fprintf t s] }

/-- Write several texts through `log_file`, in order. -/
def World.log_writes (w : World) : List String → World
  | [] => w
  | s :: rest => (w.log_write s).log_writes rest

/-- Return from a call of the engine or of the resolver: its writes to the
globals and to `log_file` take effect; when it ended the process, so does the
run. -/
def World.returned (w : World) (r : CallResult) : Step :=
  let w1 := ({ w with mem := { w.mem with fr := r.fr } } : World).log_writes r.log
  match r.exit with
  | some code => .exit code w1
  | none => .next w1

/-! ## The production driver (lines 195-256) -/

/-- Lines 218-220: clear the "done" flags of the species' planets. -/
def reset_production_done (m : Mem) : Mem :=
  for_loop (m.fr.spec_data m.species).num_namplas.toNat
    (fun i m => { m with fr := { m.fr with production_done := store m.fr.production_done i false } }) m

/-- Lines 223-229: clear the four accumulators of every planet of the species. -/
def reset_namplas (m : Mem) : Mem :=
  for_loop (m.fr.spec_data m.species).num_namplas.toNat
    (fun i m =>
      let nampla := m.fr.namp_data m.nampla_base i
      { m with fr := { m.fr with
          namp_data := store m.fr.namp_data m.nampla_base
            (store (m.fr.namp_data m.nampla_base) i
              { nampla with auto_IUs := 0, auto_AUs := 0, IUs_needed := 0, AUs_needed := 0 }) } }) m

/-- Lines 233-235: `sp_tech_level[i] = species->tech_level[i]` for the six levels. -/
def snapshot_tech_level (m : Mem) : Mem :=
  for_loop 6
    (fun i m =>
      let level := (m.fr.spec_data m.species).tech_level i
      { m with fr := { m.fr with sp_tech_level := store m.fr.sp_tech_level i level } }) m

/-- Lines 239-241: `species->tech_level[i] = sp_tech_level[i]` for the six levels. -/
def copy_back_tech_level (m : Mem) : Mem :=
  for_loop 6
    (fun i m =>
      let sp := m.fr.spec_data m.species
      let level := m.fr.sp_tech_level i
      { m with fr := { m.fr with
          spec_data := store m.fr.spec_data m.species
            { sp with tech_level := store sp.tech_level i level } } }) m

/-- Lines 218-235: everything the driver initialises before the engine call. -/
def driver_init (m : Mem) : Mem :=
  let m1 := reset_production_done m
  let m2 := reset_namplas m1
  let m3 : Mem := { m2 with fr := { m2.fr with num_intercepts := 0 } }
  snapshot_tech_level m3

/-- Lines 243-245: `for (i = 0; i < num_intercepts; i++) handle_intercept (i)`.
The bound is re-read on every iteration.  `i` and `num_intercepts` are C ints, so
`i < num_intercepts` keeps `i` below `2^31 - 1`: the loop makes fewer than `2^31`
iterations and `fuel = 2^31` is never used up for representable values. -/
def drain_intercepts (env : Env) : Nat → Int → World → Step
  | 0, _, w => .next w
  | fuel + 1, i, w =>
    if i < w.mem.fr.num_intercepts then
      match (w.emit (.handle_intercept i)).returned (env.handle_intercept i w.mem) with
      | .exit code w1 => .exit code w1
      | .next w1 => drain_intercepts env fuel (i + 1) w1
    else .next w

/-- Lines 247-256: mark the species modified, close the log file on the second
pass, close the order file. -/
def driver_finish (w : World) : World :=
  let m := w.mem
  let w1 := w.put { m with fr := { m.fr with data_modified := store m.fr.data_modified m.species_index true } }
  let w2 := if !w1.mem.first_pass then w1.emit .fclose_log_file else w1
  w2.emit .fclose_input_file

/-- Lines 211-256: the production driver, entered with the order stream
positioned behind START PRODUCTION and `log_file` selected. -/
def driver (env : Env) (w : World) : Step :=
  if (w.mem.fr.spec_data w.mem.species).num_namplas > 1000 then
    .exit (-1) (w.emit (.eprintf "\n\n\tInternal error. xxx_done array overflow!/n/n"))
  else
    let w1 := w.put (driver_init w.mem)
    match (w1.emit (.do_production_orders w1.mem)).returned (env.do_production_orders w1.mem) with
    | .exit code w2 => .exit code w2
    | .next w2 =>
      let w3 := w2.put (copy_back_tech_level w2.mem)
      match drain_intercepts env 2147483648 0 w3 with
      | .exit code w4 => .exit code w4
      | .next w4 => .next (driver_finish w4)

/-- Lines 195-209: choose `log_file`: the console on the first pass, the species'
log file opened for appending otherwise. -/
def open_log (w : World) : Step :=
  let w0 := w.put { w.mem with log_stdout := false }
  if w0.mem.first_pass then
    .next (w0.put { w0.mem with log_file := .stdout })
  else
    let filename := log_filename w0.mem.species_number
    match w0.disk.log filename with
    | none =>
      .exit (-1) (((w0.put { w0.mem with log_file := .null }).emit (.fopen filename "a" false)).emit
        (.eprintf ("\n\tCannot open '" ++ filename ++ "' for appending!\n\n")))
    | some _ =>
      let w1 := (w0.put { w0.mem with log_file := .file filename }).emit (.fopen filename "a" true)
      let w2 := w1.log_write "\nProduction orders:\n"
      .next (w2.log_write ("\n  Number of economic units at start of production: "
        ++ toString (w2.mem.fr.spec_data w2.mem.species).econ_units ++ "\n\n"))

/-! ## One iteration of the species loop (lines 109-256) -/

/-- State after the search loop of lines 145-186: the order stream stands where
the scanner left it and its warnings have gone to stderr. -/
def World.scanned (w : World) (r : ScanResult) : World :=
  { w with
    mem := { w.mem with fr := { w.mem.fr with
      input_file := r.input_file, input_line_pointer := r.input_line_pointer } },
    trace := w.trace ++ r.stderr.map Event.eprintf }

/-- Lines 195-256: a production block was found: select `log_file`, then run the
driver. -/
def production (env : Env) (w : World) : Step :=
  match open_log w with
  | .exit code w1 => .exit code w1
  | .next w1 => driver env w1

/-- Lines 142-256: the order file `filename` has been opened and holds `tokens`. -/
def process_orders (env : Env) (filename : String) (tokens : List Token) (w : World) : Step :=
  -- lines 142-144
  let w := w.put { w.mem with end_of_file := false, just_opened_file := true }
  -- lines 145-186
  let r := find_start env.codes env.skip_whitespace filename false w.mem.fr.input_line_pointer tokens
  let w := w.scanned r
  -- lines 188-193
  if !r.found then
    let w := if w.mem.first_pass then
      w.emit (.printf ("\nNo production orders for species #" ++ toString w.mem.species_number
        ++ ", SP " ++ (w.mem.fr.spec_data w.mem.species).name ++ ".\n")) else w
    .next (w.emit .fclose_input_file)
  else production env w

/-- Lines 109-256 for one `sp_index`: `species_number` is `sp_num[sp_index]`. -/
def species_step (env : Env) (do_all_species : Bool) (species_number : Int) (w : World) : Step :=
  let species_index := species_number - 1
  let w := w.put { w.mem with species_number := species_number, species_index := species_index }
  -- line 112
  if !(w.mem.data_in_memory species_index) then
    if do_all_species then
      .next (if w.mem.first_pass then
        w.emit (.printf ("\n    Skipping species #" ++ toString species_number ++ ".\n")) else w)
    else
      .exit (-1) (w.emit (.eprintf ("\n    Cannot get data for species #" ++ toString species_number ++ "!\n")))
  else
    -- lines 123-127
    let w := w.put { w.mem with
      species := species_index, nampla_base := species_index, ship_base := species_index,
      home_planet := (w.mem.fr.namp_data species_index 0).planet_index }
    -- lines 130-140
    let filename := ord_filename species_number
    match w.disk.ord filename with
    | none =>
      let w := w.emit (.fopen filename "r" false)
      if do_all_species then
        .next (if w.mem.first_pass then
          w.emit (.printf ("\n    No orders for species #" ++ toString species_number ++ ".\n")) else w)
      else
        .exit (-1) (w.emit (.eprintf ("\n\tCannot open '" ++ filename ++ "' for reading!\n\n")))
    | some tokens => process_orders env filename tokens (w.emit (.fopen filename "r" true))

/-- Lines 108-257: the loop over `sp_num[0 .. num_species - 1]`. -/
def species_loop (env : Env) (do_all_species : Bool) : List Int → World → Step
  | [], w => .next w
  | n :: rest, w =>
    match species_step env do_all_species n w with
    | .exit code w1 => .exit code w1
    | .next w1 => species_loop env do_all_species rest w1

/-! ## Argument parsing (lines 64-93) -/

/-- C `isspace` in the "C" locale. -/
def isspace (c : Char) : Bool :=
  c = ' ' || (9 ≤ c.toNat && c.toNat ≤ 13)

/-- Value of the leading run of decimal digits, accumulated left to right. -/
def atoi_digits : Int → List Char → Int
  | acc, [] => acc
  | acc, c :: cs => if c.isDigit then atoi_digits (acc * 10 + ((c.toNat : Int) - 48)) cs else acc

/-- After the leading white space: an optional sign, then the digits. -/
def atoi_signed : List Char → Int
  | [] => 0
  | c :: cs =>
    if c = '-' then - atoi_digits 0 cs
    else if c = '+' then atoi_digits 0 cs
    else atoi_digits 0 (c :: cs)

/-- Skip leading white space, then read the signed number. -/
def atoi_chars : List Char → Int
  | [] => 0
  | c :: cs => if isspace c then atoi_chars cs else atoi_signed (c :: cs)

/-- Largest value of a C `long` (64 bits). -/
def LONG_MAX : Int := 9223372036854775807

/-- Smallest value of a C `long` (64 bits). -/
def LONG_MIN : Int := -9223372036854775808

/-- C library `strtol (s, NULL, 10)`: leading white space, an optional sign, the
longest run of decimal digits; what follows is ignored and no digits give 0.  A
value outside the range of `long` is replaced by the nearest bound. -/
def strtol (s : String) : Int :=
  let v := atoi_chars s.toList
  if v > LONG_MAX then LONG_MAX else if v < LONG_MIN then LONG_MIN else v

/-- The conversion `(int) v` of a `long`: the low 32 bits, read in two's
complement. -/
def to_int (v : Int) : Int :=
  (v + 2147483648) % 4294967296 - 2147483648

/-- C library `atoi`, which is `(int) strtol (s, NULL, 10)`: the result is the
32-bit `int` that line 76 stores in `n`, so `atoi ("4294967297")` is 1 and
`atoi ("2147483648")` is -2147483648. -/
def atoi (s : String) : Int := to_int (strtol s)

/-- The variables set by the argument loop; `num_species` is the length of `sp_num`. -/
structure Args where
  first_pass : Bool
  test_mode : Bool
  verbose_mode : Bool
  sp_num : List Int

/-- Lines 68-83: the loop over `argv[1 ..]`.  `Except.error arg` is the
`exit (-1)` of line 79, with the offending argument. -/
def parse_args (galaxy_num_species : Int) : List String → Args → Except String Args
  | [], a => .ok a
  | arg :: rest, a =>
    if arg = "-p" then parse_args galaxy_num_species rest { a with first_pass := true }
    else if arg = "-t" then parse_args galaxy_num_species rest { a with test_mode := true }
    else if arg = "-v" then parse_args galaxy_num_species rest { a with verbose_mode := true }
    else
      let n := atoi arg
      if n < 1 ∨ n > galaxy_num_species then .error arg
      else parse_args galaxy_num_species rest { a with sp_num := a.sp_num ++ [n] }

/-- Lines 87-89: `sp_num[i] = i + 1` for `i < num_species`. -/
def all_species (num_species : Int) : List Int :=
  for_loop num_species.toNat (fun i l => l ++ [(i : Int) + 1]) []

/-- Result of the Selector (lines 64-93): the list to process, the process-all
flag and the three mode flags. -/
structure Selection where
  sp_num : List Int
  do_all_species : Bool
  first_pass : Bool
  test_mode : Bool
  verbose_mode : Bool

/-- Lines 64-93: parse the arguments and select the species. -/
def select (galaxy_num_species : Int) (argv : List String) : Except String Selection :=
  match parse_args galaxy_num_species argv.tail ⟨false, false, false, []⟩ with
  | .error arg => .error arg
  | .ok a =>
    if a.sp_num.length = 0 then
      .ok ⟨all_species galaxy_num_species, true, a.first_pass, a.test_mode, a.verbose_mode⟩
    else
      .ok ⟨a.sp_num, false, a.first_pass, a.test_mode, a.verbose_mode⟩

/-! ## The passes and the persistence gate (lines 99-288) -/

/-- State of the globals when `main` is entered: static storage is zeroed. -/
def Mem.zero : Mem :=
  { fr :=
      { spec_data := fun _ => ⟨"", 0, fun _ => 0, 0, []⟩
        namp_data := fun _ _ => ⟨0, 0, 0, 0, 0, []⟩
        ship_data := fun _ _ => []
        planet_base := fun _ => []
        star_base := fun _ => []
        transaction := []
        data_modified := fun _ => false
        planet_data_modified := false
        production_done := fun _ => false
        sp_tech_level := fun _ => 0
        num_intercepts := 0
        intercept := fun _ => []
        input_file := []
        input_line_pointer := [] }
    galaxy_num_species := 0
    data_in_memory := fun _ => false
    ignore_field_distorters := false
    first_pass := false
    test_mode := false
    verbose_mode := false
    species_number := 0
    species_index := 0
    species := 0
    nampla_base := 0
    ship_base := 0
    home_planet := 0
    end_of_file := false
    just_opened_file := false
    log_stdout := false
    log_file := .null }

/-- Lines 101-105: the head of a pass: announce the first pass and load the
species, star and planet data from the files. -/
def start_pass (env : Env) (w : World) : World :=
  let w := if w.mem.first_pass then w.emit (.printf "\nStarting first pass...\n\n") else w
  let sp := env.get_species_data w.disk
  let w := (w.put { w.mem with
    data_in_memory := sp.data_in_memory
    fr := { w.mem.fr with
      data_modified := sp.data_modified, spec_data := sp.spec_data,
      namp_data := sp.namp_data, ship_data := sp.ship_data } }).emit .get_species_data
  let w := (w.put { w.mem with fr := { w.mem.fr with star_base := env.get_star_data w.disk } }).emit
    .get_star_data
  (w.put { w.mem with fr := { w.mem.fr with planet_base := env.get_planet_data w.disk } }).emit
    .get_planet_data

/-- Lines 276-288: the persistence gate. -/
def persist (env : Env) (w : World) : World :=
  let w := ({ w with disk := env.save_species_data w.mem w.disk } : World).emit .save_species_data
  let w := w.emit .free_species_data
  let w := if w.mem.fr.planet_data_modified then
    ({ w with disk := env.save_planet_data w.mem w.disk } : World).emit .save_planet_data else w
  let w := w.emit .free_planet_base
  ({ w with disk := env.save_transaction_data w.mem w.disk } : World).emit .save_transaction_data

/-- Lines 99-288 once `first_pass` is FALSE: load, loop, persist, `return 0`. -/
def commit_pass (env : Env) (do_all_species : Bool) (sp_num : List Int) (w : World) : Step :=
  match species_loop env do_all_species sp_num (start_pass env w) with
  | .exit code w1 => .exit code w1
  | .next w1 => .exit 0 (persist env w1)

/-- Lines 259-273: the end of the first pass: the operator's last chance to
abort, then the loaded data is freed and control returns to `start_pass`. -/
def abort_gate (env : Env) (w : World) : Step :=
  let w := (w.emit (.printf "\nFinal chance to abort safely!\n")).emit .gamemaster_abort_option
  match env.gamemaster_abort_option with
  | some code => .exit code w
  | none =>
    let w := w.put { w.mem with first_pass := false }
    let w := ((w.emit .free_species_data).emit .free_star_base).emit .free_planet_base
    .next (w.emit (.printf "\nStarting second pass...\n\n"))

/-- Lines 99-288: with `first_pass` set the loop runs, the abort gate follows and
the `goto start_pass` starts the pass that commits; without it only that pass runs. -/
def passes (env : Env) (do_all_species : Bool) (sp_num : List Int) (w : World) : Step :=
  if w.mem.first_pass then
    match species_loop env do_all_species sp_num (start_pass env w) with
    | .exit code w1 => .exit code w1
    | .next w1 =>
      match abort_gate env w1 with
      | .exit code w2 => .exit code w2
      | .next w2 => commit_pass env do_all_species sp_num w2
  else commit_pass env do_all_species sp_num w

/-- Lines 55-57: the data loaded once, before the arguments are looked at. -/
def startup (env : Env) (disk : Disk) : World :=
  { mem := { Mem.zero with
      galaxy_num_species := env.get_galaxy_data disk
      fr := { Mem.zero.fr with transaction := env.get_transaction_data disk }
      ignore_field_distorters := true }
    disk := disk
    trace := [.get_galaxy_data, .get_transaction_data] }

/-- The program `main (argc, argv)` run on the files `disk`; `argv` includes the
program name.  The result is the exit status with the final state.  (The seeding
of the random number generator, lines 48-52, touches no state of this model.) -/
def main (env : Env) (argv : List String) (disk : Disk) : Step :=
  let w := startup env disk
  match select w.mem.galaxy_num_species argv with
  | .error arg => .exit (-1) (w.emit (.eprintf ("\n    '" ++ arg ++ "' is not a valid argument!\n")))
  | .ok sel =>
    passes env sel.do_all_species sel.sp_num
      (w.put { w.mem with
        first_pass := sel.first_pass, test_mode := sel.test_mode, verbose_mode := sel.verbose_mode })

/-- Exit status of a finished run (`none` is not produced by `main`). -/
def Step.code : Step → Option Int
  | .next _ => none
  | .exit code _ => some code

/-! ## Vocabulary of the specification and sample data -/

/-- Message blocks as the specification describes them: is a message block open
after the tokens `ts` have gone by, when `open_before` tells whether one was open
before them?  A MESSAGE token opens a block, the next ZZZ token closes it. -/
def message_open (c : CommandCodes) : Bool → List Token → Bool
  | open_before, [] => open_before
  | true, t :: ts => if t.command = c.ZZZ then message_open c false ts else message_open c true ts
  | false, t :: ts => if t.command = c.MESSAGE then message_open c true ts else message_open c false ts

/-- The tokens of `ts` that lie outside every message block (the MESSAGE token
and the terminating ZZZ belong to their block). -/
def outside_message (c : CommandCodes) : Bool → List Token → List Token
  | _, [] => []
  | true, t :: ts => if t.command = c.ZZZ then outside_message c false ts else outside_message c true ts
  | false, t :: ts =>
    if t.command = c.MESSAGE then outside_message c true ts else t :: outside_message c false ts

/-- A start marker whose keyword reads PRO. -/
def is_PRO_start (c : CommandCodes) (skip_whitespace : List Char → List Char) (t : Token) : Prop :=
  t.command = c.START ∧ (read_keyword skip_whitespace t.line).1 = ['P', 'R', 'O']

instance (c : CommandCodes) (skip_whitespace : List Char → List Char) (t : Token) :
    Decidable (is_PRO_start c skip_whitespace t) :=
  inferInstanceAs (Decidable (_ ∧ _))

/-- Sample command codes. -/
def demo_codes : CommandCodes := ⟨26, 39, 53⟩

/-- Sample `skip_whitespace`: blanks and tabs. -/
def demo_skip_whitespace : List Char → List Char
  | [] => []
  | c :: cs => if c = ' ' ∨ c = '\t' then demo_skip_whitespace cs else c :: cs

/-- Sample order script: START PRODUCTION inside a terminated message and again
inside a message that is never terminated. -/
def demo_message_only : List Token :=
  [⟨26, []⟩, ⟨39, " PRODUCTION".toList⟩, ⟨53, []⟩, ⟨7, []⟩, ⟨26, []⟩, ⟨39, " PRO".toList⟩]

/-- Sample order script with two production blocks, the first behind a message
that mentions START PRODUCTION and a start marker for another section. -/
def demo_two_blocks : List Token :=
  [⟨26, []⟩, ⟨39, " PRODUCTION".toList⟩, ⟨53, []⟩, ⟨39, " COMBAT".toList⟩,
   ⟨39, "pro".toList⟩, ⟨7, []⟩, ⟨39, " PRODUCTION".toList⟩, ⟨7, []⟩]

/-- The three mode flags. -/
def is_flag (arg : String) : Bool :=
  arg = "-p" || arg = "-t" || arg = "-v"

/-- The positional arguments: the members of `argv[1 ..]` that are not flags. -/
def positional (argv : List String) : List String :=
  argv.tail.filter (fun arg => !is_flag arg)

/-- A player identifier `n` is within the population `1 .. N`. -/
def in_population (N n : Int) : Prop := 1 ≤ n ∧ n ≤ N

instance (N n : Int) : Decidable (in_population N n) :=
  inferInstanceAs (Decidable (_ ∧ _))

/-- The text is a decimal integer: an optional sign, then digits and nothing else. -/
def is_decimal_integer (s : String) : Bool :=
  match s.toList with
  | [] => false
  | c :: cs =>
    if c = '-' ∨ c = '+' then !cs.isEmpty && cs.all Char.isDigit
    else (c :: cs).all Char.isDigit

/-- Sample engine: raises the first working tech level, queues two intercepts,
marks the planet data modified, sets the first "done" flag and logs one line. -/
def demo_engine (m : Mem) : CallResult :=
  { fr := { m.fr with
      sp_tech_level := store m.fr.sp_tech_level 0 (m.fr.sp_tech_level 0 + 1)
      num_intercepts := 2
      planet_data_modified := true
      production_done := store m.fr.production_done 0 true }
    log := ["built"]
    exit := none }

/-- Sample species data: species 1 and 3 exist, each with two planets whose
accumulators are non-zero on file. -/
def demo_store : SpeciesStore :=
  { data_in_memory := fun i => decide (i = 0 ∨ i = 2)
    data_modified := fun _ => false
    spec_data := fun _ => ⟨"X", 2, fun i => 10 + (i : Int), 100, []⟩
    namp_data := fun _ _ => ⟨0, 5, 6, 7, 8, []⟩
    ship_data := fun _ _ => [] }

/-- Sample collaborators for a population of three; the operator proceeds. -/
def demo_env : Env :=
  { codes := demo_codes
    skip_whitespace := demo_skip_whitespace
    get_galaxy_data := fun _ => 3
    get_transaction_data := fun _ => []
    get_species_data := fun _ => demo_store
    get_star_data := fun _ _ => []
    get_planet_data := fun _ _ => []
    do_production_orders := demo_engine
    handle_intercept := fun _ m => ⟨m.fr, [], none⟩
    gamemaster_abort_option := none
    save_species_data := fun _ d => { d with dat := store d.dat "sp01.dat" (some [1]) }
    save_planet_data := fun _ d => { d with dat := store d.dat "planets.dat" (some [2]) }
    save_transaction_data := fun _ d => { d with dat := store d.dat "interspecies.dat" (some [3]) } }

/-- Sample game directory: species 1 orders production, species 2 has no order
file, species 3 mentions START PRO only inside an unterminated message. -/
def demo_disk : Disk :=
  { dat := fun _ => none
    ord := fun f =>
      if f = "sp01.ord" then some [⟨39, " production".toList⟩, ⟨7, []⟩]
      else if f = "sp03.ord" then some [⟨26, []⟩, ⟨39, "PRO".toList⟩]
      else none
    log := fun _ => some [] }

/-- The planet entry with its four accumulators cleared (lines 225-228). -/
def cleared (nampla : nampla_data) : nampla_data :=
  { nampla with auto_IUs := 0, auto_AUs := 0, IUs_needed := 0, AUs_needed := 0 }

/-- A durable write: a save, an open for appending, or text sent to a log file. -/
def Event.durable : Event → Bool
  | .save_species_data => true
  | .save_planet_data => true
  | .save_transaction_data => true
  | .fopen _ mode _ => mode = "a"
  | .fprintf (.file _) _ => true
  | _ => false

/-- One of the three save calls of the persistence gate. -/
def Event.is_save : Event → Bool
  | .save_species_data => true
  | .save_planet_data => true
  | .save_transaction_data => true
  | _ => false

/-- State the driver hands to the engine for the species `species_index`: the
pointers address that species, the "done" flags and the four accumulators of
each of its planets are clear, the working tech levels equal the stored ones and
the intercept queue is empty. -/
def driver_ready (m : Mem) : Prop :=
  m.species = m.species_index ∧ m.nampla_base = m.species_index ∧
  (∀ i : Nat, (i : Int) < (m.fr.spec_data m.species_index).num_namplas →
    m.fr.production_done i = false ∧
    (m.fr.namp_data m.species_index i).auto_IUs = 0 ∧
    (m.fr.namp_data m.species_index i).auto_AUs = 0 ∧
    (m.fr.namp_data m.species_index i).IUs_needed = 0 ∧
    (m.fr.namp_data m.species_index i).AUs_needed = 0) ∧
  (∀ i : Nat, i < 6 → m.fr.sp_tech_level i = (m.fr.spec_data m.species_index).tech_level i) ∧
  m.fr.num_intercepts = 0

/-- What one iteration of the species loop may do in a pass: console output,
opening the order file, closing files, intercept calls, engine calls on a ready
state; on the first pass log text goes to the console only, and only on the
second pass a log file is opened, written and closed. -/
def step_event (first_pass : Bool) : Event → Prop
  | .printf _ => True
  | .eprintf _ => True
  | .fclose_input_file => True
  | .handle_intercept _ => True
  | .fclose_log_file => first_pass = false
  | .fopen _ mode _ => mode = "r" ∨ (mode = "a" ∧ first_pass = false)
  | .fprintf target _ => if first_pass then target = .stdout else ∃ f, target = .file f
  | .do_production_orders m => driver_ready m ∧ m.first_pass = first_pass
  | _ => False

/-- The world `w1` continues `w`: its trace is the trace of `w` followed by
actions that all satisfy `P`. -/
def Grow (P : Event → Prop) (w w1 : World) : Prop :=
  ∃ new, w1.trace = w.trace ++ new ∧ ∀ e ∈ new, P e

/-- The value of `log_file` fits the pass: the console on the first pass, an
open log file on the second. -/
def log_selected (m : Mem) : Prop :=
  if m.first_pass then m.log_file = .stdout else ∃ f, m.log_file = .file f

/-- The globals `m1` differ from `m` in the writable frame `fr` only. -/
def same_ctl (m m1 : Mem) : Prop :=
  ∃ fr, m1 = { m with fr := fr }

/-- A step that started in `w` on a pass with `first_pass = fp` ended in `r`: only
actions a pass may perform were added, the pass flag stands, and on the first
pass the files are untouched. -/
def StepOK (fp : Bool) (w : World) (r : Step) : Prop :=
  Grow (step_event fp) w r.world ∧ r.world.mem.first_pass = fp ∧
  (fp = true → r.world.disk = w.disk)

/-- The world `w1` continues `w` with the loaded-data flags, the order scripts and
the data files as they were. -/
def Kept (w w1 : World) : Prop :=
  (∃ new, w1.trace = w.trace ++ new) ∧ w1.mem.data_in_memory = w.mem.data_in_memory ∧
  w1.disk.ord = w.disk.ord ∧ w1.disk.dat = w.disk.dat

/-- Either the run-wide planet flag of `w1` is that of `w`, or the engine has
been called by the time of `w1`. -/
def flag_or_called (w w1 : World) : Prop :=
  w1.mem.fr.planet_data_modified = w.mem.fr.planet_data_modified ∨
  ∃ m, Event.do_production_orders m ∈ w1.trace

/-- Actions `main` performs outside the species loop: console output, loading,
the operator prompt, freeing and saving. -/
def controller_event : Event → Prop
  | .printf _ => True
  | .eprintf _ => True
  | .get_galaxy_data => True
  | .get_transaction_data => True
  | .get_species_data => True
  | .get_star_data => True
  | .get_planet_data => True
  | .gamemaster_abort_option => True
  | .free_species_data => True
  | .free_star_base => True
  | .free_planet_base => True
  | .save_species_data => True
  | .save_planet_data => True
  | .save_transaction_data => True
  | _ => False

/-- Any action of a run: one of the controller or one of an iteration of the
species loop in either pass. -/
def run_event (e : Event) : Prop :=
  controller_event e ∨ step_event true e ∨ step_event false e

/-- Sample run state at the first engine call of a trace. -/
def first_call (trace : List Event) : Mem :=
  match trace.find? (fun e => match e with | .do_production_orders _ => true | _ => false) with
  | some (.do_production_orders m) => m
  | _ => Mem.zero

/-- Sample two-pass run over the whole population. -/
def demo_run : Step := main demo_env ["fhprod", "-p"] demo_disk

/-- Sample state in which the driver is entered for species 1, with working
tech levels left over from elsewhere. -/
def demo_driver_world : World :=
  { mem := { Mem.zero with
      fr := { Mem.zero.fr with
        spec_data := demo_store.spec_data
        namp_data := demo_store.namp_data
        sp_tech_level := fun _ => 99
        num_intercepts := 7 }
      species_number := 1
      log_file := .stdout
      first_pass := true }
    disk := demo_disk
    trace := [] }

/-- Sample state at the end of the driver run from `demo_driver_world`. -/
def demo_driver_end : World := (driver demo_env demo_driver_world).world

/-- Actions of the controller between the loops: loading, freeing, console
output and the operator prompt; none of them writes a file. -/
def housekeeping_event (e : Event) : Prop :=
  controller_event e ∧ e.durable = false

/-- The state in which the passes start (lines 64-93 done): the globals after
start-up with the three mode flags as selected. -/
def selected_world (env : Env) (disk : Disk) (sel : Selection) : World :=
  (startup env disk).put { (startup env disk).mem with
    first_pass := sel.first_pass, test_mode := sel.test_mode, verbose_mode := sel.verbose_mode }

/-- The galaxy data that a pass loads: what `get_species_data`, `get_star_data`
and `get_planet_data` fill in. -/
structure Galaxy where
  data_in_memory : Int → Bool
  data_modified : Int → Bool
  spec_data : Int → species_data
  namp_data : Int → Nat → nampla_data
  ship_data : Int → Nat → List Int
  star_base : Nat → List Int
  planet_base : Nat → List Int

/-- The galaxy data held in the globals. -/
def Mem.galaxy (m : Mem) : Galaxy :=
  ⟨m.data_in_memory, m.fr.data_modified, m.fr.spec_data, m.fr.namp_data, m.fr.ship_data,
   m.fr.star_base, m.fr.planet_base⟩

/-- The galaxy data as the loaders read it from the files. -/
def fresh_load (env : Env) (disk : Disk) : Galaxy :=
  ⟨(env.get_species_data disk).data_in_memory, (env.get_species_data disk).data_modified,
   (env.get_species_data disk).spec_data, (env.get_species_data disk).namp_data,
   (env.get_species_data disk).ship_data, env.get_star_data disk, env.get_planet_data disk⟩

/-- Sample collaborators whose operator aborts at the confirmation. -/
def demo_env_abort : Env := { demo_env with gamemaster_abort_option := some 0 }

/-- Sample selection of the run `fhprod -p` over a population of three. -/
def demo_selection : Selection := ⟨[1, 2, 3], true, true, false, false⟩

/-- Sample state at the end of the first pass of the run `fhprod -p`. -/
def demo_validated : World :=
  (species_loop demo_env true [1, 2, 3]
    (start_pass demo_env (selected_world demo_env demo_disk demo_selection))).world

/-- Sample state at the head of the first pass of the run `fhprod -p`, after the
loaders have run. -/
def demo_loaded : World :=
  start_pass demo_env (selected_world demo_env demo_disk demo_selection)

/-- State in which the search loop of lines 145-186 leaves the run for species
`n`, whose data is in memory and whose order file holds `tokens`. -/
def scanned_world (env : Env) (n : Int) (tokens : List Token) (w : World) : World :=
  let w1 := w.put { w.mem with species_number := n, species_index := n - 1 }
  let w2 := w1.put { w1.mem with
    species := n - 1, nampla_base := n - 1, ship_base := n - 1,
    home_planet := (w1.mem.fr.namp_data (n - 1) 0).planet_index }
  let w3 := w2.emit (.fopen (ord_filename n) "r" true)
  let w4 := w3.put { w3.mem with end_of_file := false, just_opened_file := true }
  w4.scanned (find_start env.codes env.skip_whitespace (ord_filename n) false
    w4.mem.fr.input_line_pointer tokens)

/-- Result of the search loop for species `n` in the state `w`. -/
def scan_of (env : Env) (n : Int) (tokens : List Token) (w : World) : ScanResult :=
  find_start env.codes env.skip_whitespace (ord_filename n) false w.mem.fr.input_line_pointer tokens

/-- The console message of line 190. -/
def no_orders_message (n : Int) (name : String) : String :=
  "\nNo production orders for species #" ++ toString n ++ ", SP " ++ name ++ ".\n"

/-- Sample order script: a production block could follow, but the message that
starts the script is never terminated. -/
def demo_unterminated : List Token :=
  [⟨7, []⟩, ⟨26, []⟩, ⟨39, " PRODUCTION".toList⟩, ⟨7, []⟩]

/-- Sample game directory in which species 1 has the script `demo_unterminated`
and species 3 a production block. -/
def demo_disk_unterminated : Disk :=
  { demo_disk with
    ord := fun f =>
      if f = "sp01.ord" then some demo_unterminated
      else if f = "sp03.ord" then some [⟨39, " production".toList⟩, ⟨7, []⟩]
      else none }

/-- Sample state at the head of the only pass of `fhprod` on `demo_disk_unterminated`. -/
def demo_loaded_unterminated : World :=
  start_pass demo_env
    (selected_world demo_env demo_disk_unterminated ⟨[1, 2, 3], true, false, false, false⟩)

/-- The action is a call of the production engine. -/
def Event.is_call : Event → Bool
  | .do_production_orders _ => true
  | _ => false

/-- Species number for which the engine is called, for an engine call. -/
def Event.called_for : Event → Option Int
  | .do_production_orders m => some m.species_number
  | _ => none

/-- Lines 76-81 instrumented: the indices `k` of the stores `sp_num[num_species++] = n`
that the argument loop performs, `k0` being `num_species` when the loop reaches
the arguments `args`. -/
def sp_num_writes (galaxy_num_species : Int) : List String → Nat → List Nat
  | [], _ => []
  | arg :: rest, k0 =>
    if arg = "-p" then sp_num_writes galaxy_num_species rest k0
    else if arg = "-t" then sp_num_writes galaxy_num_species rest k0
    else if arg = "-v" then sp_num_writes galaxy_num_species rest k0
    else
      let n := atoi arg
      if n < 1 ∨ n > galaxy_num_species then []
      else k0 :: sp_num_writes galaxy_num_species rest (k0 + 1)

/-- The values of `i` for which the body of `for (i = 0; i < n; i++)` runs. -/
def loop_indices (n : Nat) : List Nat :=
  for_loop n (fun i l => l ++ [i]) []

/-- An argument list that names player 1 `k` times. -/
def repeated_player (k : Nat) : List String :=
  "fhprod" :: List.replicate k "1"

/-- Sample engine of the kind the "done" flags are meant for: it issues its order
for planet 0 (one log line) only when `production_done[0]` is FALSE, and then
sets the flag. -/
def dedup_engine (m : Mem) : CallResult :=
  if m.fr.production_done 0 then ⟨m.fr, [], none⟩
  else ⟨{ m.fr with production_done := store m.fr.production_done 0 true },
    ["order for planet 0"], none⟩

/-- Sample collaborators with the deduplicating engine. -/
def dedup_env : Env := { demo_env with do_production_orders := dedup_engine }

/-- Text that an event sends to the current log target. -/
def Event.logged : Event → Option String
  | .fprintf _ s => some s
  | _ => none

/-- Globals at the engine call, for an engine call. -/
def Event.at_call : Event → Option Mem
  | .do_production_orders m => some m
  | _ => none

/-- Globals at the `k`-th engine call of a trace (counted from 0). -/
def nth_call (trace : List Event) (k : Nat) : Mem :=
  (trace.filterMap Event.at_call).getD k Mem.zero

/-- Text that an event shows on the console or writes to a log. -/
def Event.text : Event → Option String
  | .printf s => some s
  | .eprintf s => some s
  | .fprintf _ s => some s
  | _ => none

/-- The event is a notice whose text contains the decimal number `n`. -/
def Event.names_player (e : Event) (n : Int) : Bool :=
  match e.text with
  | some s => decide ((toString n).toList <:+: s.toList)
  | none => false

/-- The console notice of line 115. -/
def skipping_message (n : Int) : String :=
  "\n    Skipping species #" ++ toString n ++ ".\n"

/-- The console notice of line 134. -/
def no_orders_file_message (n : Int) : String :=
  "\n    No orders for species #" ++ toString n ++ ".\n"

/-- Events of one process-all skip (lines 112-117 and 130-136) of player `n`
entered in state `w`: the failed open when the data is there, and the notice
under `if (first_pass)`. -/
def skip_events (n : Int) (w : World) : List Event :=
  (if w.mem.data_in_memory (n - 1) then [Event.fopen (ord_filename n) "r" false] else []) ++
  (if w.mem.first_pass then
    [Event.printf (if w.mem.data_in_memory (n - 1) then no_orders_file_message n
      else skipping_message n)]
   else [])

/-- Index handed to the resolver, for a resolver call. -/
def Event.intercept_index : Event → Option Int
  | .handle_intercept i => some i
  | _ => none

/-- Sample species data with more planets than the "done" arrays hold. -/
def crowded_store : SpeciesStore :=
  { demo_store with spec_data := fun _ => ⟨"X", 1001, fun i => 10 + (i : Int), 100, []⟩ }

/-- Sample collaborators whose species files hold `crowded_store`. -/
def crowded_env : Env := { demo_env with get_species_data := fun _ => crowded_store }

/-- Sample state at the head of the only pass of the run `fhprod` with
`crowded_env`, after the loaders have run. -/
def crowded_loaded : World :=
  start_pass crowded_env (selected_world crowded_env demo_disk ⟨[1, 2, 3], true, false, false, false⟩)

/-- The iteration of the species loop for player `n` entered in `w` completed
its production: it returned to the loop, and the engine was called in it. -/
def step_completed (env : Env) (d : Bool) (n : Int) (w : World) : Prop :=
  ∃ w1 new, species_step env d n w = .next w1 ∧ w1.trace = w.trace ++ new ∧
    ∃ m, Event.do_production_orders m ∈ new

/-- Sample species data for a population of three in which every species has
its data in memory. -/
def full_store : SpeciesStore := { demo_store with data_in_memory := fun _ => true }

/-- Sample collaborators whose species files hold `full_store`. -/
def full_env : Env := { demo_env with get_species_data := fun _ => full_store }

/-- Sample game directory: players 1 and 3 order production, player 2 has no
order file. -/
def full_disk : Disk :=
  { dat := fun _ => none
    ord := fun f =>
      if f = "sp01.ord" then some [⟨39, " production".toList⟩, ⟨7, []⟩]
      else if f = "sp03.ord" then some [⟨26, []⟩, ⟨53, []⟩, ⟨39, "PRO".toList⟩]
      else none
    log := fun _ => some [] }

/-- Sample state at the head of the only pass of the run `fhprod` over
`full_disk`, after the loaders have run. -/
def full_loaded : World :=
  start_pass full_env (selected_world full_env full_disk ⟨[1, 2, 3], true, false, false, false⟩)

/-- The operator confirmation of line 262. -/
def Event.is_prompt : Event → Bool
  | .gamemaster_abort_option => true
  | _ => false

/-- The species load at the head of a pass (line 103). -/
def Event.is_load : Event → Bool
  | .get_species_data => true
  | _ => false

/-- The first action of the persistence gate (line 277). -/
def Event.is_gate : Event → Bool
  | .save_species_data => true
  | _ => false

theorem command_not_negative (n : Nat) : ((n : Int) < 0) = False := by
  simp

theorem find_start_not_found (c : CommandCodes) (sw : List Char → List Char) (filename : String)
    (tokens : List Token) :
    ∀ (in_message : Bool) (p : List Char),
      (∀ t ∈ outside_message c in_message tokens, t.command ≠ c.START) →
      (find_start c sw filename in_message p tokens).found = false := by
  induction tokens with
  | nil => intro b p _; cases b <;> simp [find_start]
  | cons t rest ih =>
    intro b p h
    cases b
    · by_cases hm : t.command = c.MESSAGE
      · simp only [outside_message, hm, if_true] at h
        simp [find_start, command_not_negative, hm, ih true t.line h]
      · simp only [outside_message, hm, if_false, List.mem_cons, forall_eq_or_imp] at h
        simp [find_start, command_not_negative, hm, h.1, ih false t.line h.2]
    · by_cases hz : t.command = c.ZZZ
      · simp only [outside_message, hz, if_true] at h
        simp [find_start, command_not_negative, hz, ih false t.line h]
      · simp only [outside_message, hz, if_false] at h
        simp [find_start, command_not_negative, hz, ih true t.line h]

theorem find_start_first_PRO (c : CommandCodes) (sw : List Char → List Char) (filename : String)
    (t : Token) (post : List Token) (hne : c.MESSAGE ≠ c.START) (ht : is_PRO_start c sw t)
    (pre : List Token) :
    ∀ (in_message : Bool) (p : List Char),
      message_open c in_message pre = false →
      (∀ u ∈ outside_message c in_message pre, ¬ is_PRO_start c sw u) →
      find_start c sw filename in_message p (pre ++ t :: post)
        = ⟨true, post, (read_keyword sw t.line).2, []⟩ := by
  induction pre with
  | nil =>
    intro b p ho _
    simp only [message_open] at ho
    subst ho
    have h2 : ¬ c.START = c.MESSAGE := fun h => hne h.symm
    simp [find_start, command_not_negative, h2, ht.1, ht.2]
  | cons u rest ih =>
    intro b p ho hn
    cases b
    · by_cases hm : u.command = c.MESSAGE
      · simp only [message_open, hm, if_true] at ho
        simp only [outside_message, hm, if_true] at hn
        simp [find_start, command_not_negative, hm, ih true u.line ho hn]
      · simp only [message_open, hm, if_false] at ho
        simp only [outside_message, hm, if_false, List.mem_cons, forall_eq_or_imp] at hn
        by_cases hs : u.command = c.START
        · have hk : ¬ (read_keyword sw u.line).1 = ['P', 'R', 'O'] := fun hk => hn.1 ⟨hs, hk⟩
          have h2 : ¬ c.START = c.MESSAGE := fun h => hne h.symm
          simp [find_start, command_not_negative, h2, hs, hk, ih false _ ho hn.2]
        · simp [find_start, command_not_negative, hm, hs, ih false u.line ho hn.2]
    · by_cases hz : u.command = c.ZZZ
      · simp only [message_open, hz, if_true] at ho
        simp only [outside_message, hz, if_true] at hn
        simp [find_start, command_not_negative, hz, ih false u.line ho hn]
      · simp only [message_open, hz, if_false] at ho
        simp only [outside_message, hz, if_false] at hn
        simp [find_start, command_not_negative, hz, ih true u.line ho hn]

/-- C2: a script whose start markers all lie inside message blocks (terminated
by ZZZ or never terminated) makes the scanner return NOT_FOUND, whatever text
follows those markers. -/
theorem C2_scanner_ignores_message_bodies (c : CommandCodes) (skip_whitespace : List Char → List Char)
    (filename : String) (p : List Char) (tokens : List Token)
    (h : ∀ t ∈ outside_message c false tokens, t.command ≠ c.START) :
    (find_start c skip_whitespace filename false p tokens).found = false :=
  find_start_not_found c skip_whitespace filename tokens false p h

theorem C2_scanner_ignores_message_bodies_witness :
    (∃ t ∈ demo_message_only, is_PRO_start demo_codes demo_skip_whitespace t) ∧
    (find_start demo_codes demo_skip_whitespace "sp01.ord" false [] demo_message_only).found = false :=
  ⟨⟨⟨39, " PRODUCTION".toList⟩, by decide, by decide⟩,
   C2_scanner_ignores_message_bodies demo_codes demo_skip_whitespace "sp01.ord" [] demo_message_only
     (by decide)⟩

theorem first_PRO_split (c : CommandCodes) (sw : List Char → List Char) (tokens : List Token) :
    ∀ in_message : Bool,
      (∃ u ∈ outside_message c in_message tokens, is_PRO_start c sw u) →
      ∃ pre t post, tokens = pre ++ t :: post ∧ message_open c in_message pre = false ∧
        (∀ u ∈ outside_message c in_message pre, ¬ is_PRO_start c sw u) ∧ is_PRO_start c sw t := by
  induction tokens with
  | nil => intro b h; simp [outside_message] at h
  | cons x rest ih =>
    intro b h
    cases b
    · by_cases hm : x.command = c.MESSAGE
      · simp only [outside_message, hm, if_true] at h
        obtain ⟨pre, t, post, e, ho, hn, ht⟩ := ih true h
        exact ⟨x :: pre, t, post, by rw [e]; rfl, by simp [message_open, hm, ho],
          by simpa [outside_message, hm] using hn, ht⟩
      · simp only [outside_message, hm, if_false] at h
        by_cases hx : is_PRO_start c sw x
        · exact ⟨[], x, rest, rfl, rfl, by simp [outside_message], hx⟩
        · have h1 : ∃ u ∈ outside_message c false rest, is_PRO_start c sw u := by
            obtain ⟨u, hu, hp⟩ := h
            rcases List.mem_cons.mp hu with rfl | hu
            · exact absurd hp hx
            · exact ⟨u, hu, hp⟩
          obtain ⟨pre, t, post, e, ho, hn, ht⟩ := ih false h1
          refine ⟨x :: pre, t, post, by rw [e]; rfl, by simp [message_open, hm, ho], ?_, ht⟩
          intro u hu
          simp only [outside_message, hm, if_false, List.mem_cons] at hu
          rcases hu with rfl | hu
          · exact hx
          · exact hn u hu
    · by_cases hz : x.command = c.ZZZ
      · simp only [outside_message, hz, if_true] at h
        obtain ⟨pre, t, post, e, ho, hn, ht⟩ := ih false h
        exact ⟨x :: pre, t, post, by rw [e]; rfl, by simp [message_open, hz, ho],
          by simpa [outside_message, hz] using hn, ht⟩
      · simp only [outside_message, hz, if_false] at h
        obtain ⟨pre, t, post, e, ho, hn, ht⟩ := ih true h
        exact ⟨x :: pre, t, post, by rw [e]; rfl, by simp [message_open, hz, ho],
          by simpa [outside_message, hz] using hn, ht⟩

/-- C3: a script that holds real PRO start markers (start markers outside every
message block whose keyword reads PRO) splits at the first of them, `t`, into
`pre ++ t :: post`, and the scanner returns FOUND having read exactly `pre` and
`t`: the tokens of `post`, with any further PRO marker, are left unread. -/
theorem C3_scanner_stops_at_first_PRO (c : CommandCodes) (skip_whitespace : List Char → List Char)
    (filename : String) (p : List Char) (tokens : List Token)
    (hne : c.MESSAGE ≠ c.START)
    (h : ∃ u ∈ outside_message c false tokens, is_PRO_start c skip_whitespace u) :
    ∃ pre t post, tokens = pre ++ t :: post ∧
      message_open c false pre = false ∧
      (∀ u ∈ outside_message c false pre, ¬ is_PRO_start c skip_whitespace u) ∧
      is_PRO_start c skip_whitespace t ∧
      find_start c skip_whitespace filename false p tokens
        = ⟨true, post, (read_keyword skip_whitespace t.line).2, []⟩ := by
  obtain ⟨pre, t, post, e, ho, hn, ht⟩ := first_PRO_split c skip_whitespace tokens false h
  refine ⟨pre, t, post, e, ho, hn, ht, ?_⟩
  rw [e]
  exact find_start_first_PRO c skip_whitespace filename t post hne ht pre false p ho hn

theorem C3_scanner_stops_at_first_PRO_witness :
    ((outside_message demo_codes false demo_two_blocks).filter
      (fun u => decide (is_PRO_start demo_codes demo_skip_whitespace u))).length = 2 ∧
    (find_start demo_codes demo_skip_whitespace "sp01.ord" false [] demo_two_blocks).input_file
      = [⟨7, []⟩, ⟨39, " PRODUCTION".toList⟩, ⟨7, []⟩] ∧
    ∃ pre t post, demo_two_blocks = pre ++ t :: post ∧
      message_open demo_codes false pre = false ∧
      (∀ u ∈ outside_message demo_codes false pre, ¬ is_PRO_start demo_codes demo_skip_whitespace u) ∧
      is_PRO_start demo_codes demo_skip_whitespace t ∧
      find_start demo_codes demo_skip_whitespace "sp01.ord" false [] demo_two_blocks
        = ⟨true, post, (read_keyword demo_skip_whitespace t.line).2, []⟩ :=
  ⟨by decide, by decide,
   C3_scanner_stops_at_first_PRO demo_codes demo_skip_whitespace "sp01.ord" [] demo_two_blocks
     (by decide) (by decide)⟩

/-! ## The selector -/

theorem for_loop_succ {σ : Type} (n : Nat) (body : Nat → σ → σ) (s : σ) :
    for_loop (n + 1) body s = body n (for_loop n body s) := rfl

theorem all_species_eq (N : Int) :
    all_species N = (List.range N.toNat).map (fun (i : Nat) => (i : Int) + 1) := by
  unfold all_species
  induction N.toNat with
  | zero => rfl
  | succ n ih => rw [for_loop_succ, ih, List.range_succ, List.map_append]; rfl

theorem parse_args_ok (N : Int) (args : List String) :
    ∀ a : Args, (∀ arg ∈ args.filter (fun arg => !is_flag arg), in_population N (atoi arg)) →
      parse_args N args a = .ok
        ⟨a.first_pass || decide ("-p" ∈ args), a.test_mode || decide ("-t" ∈ args),
         a.verbose_mode || decide ("-v" ∈ args),
         a.sp_num ++ (args.filter (fun arg => !is_flag arg)).map atoi⟩ := by
  induction args with
  | nil => intro a _; simp [parse_args]
  | cons arg rest ih =>
    intro a h
    by_cases hp : arg = "-p"
    · subst hp
      have h1 : ∀ x ∈ rest.filter (fun arg => !is_flag arg), in_population N (atoi x) := by
        intro x hx; apply h; simpa [is_flag] using hx
      simp [parse_args, ih _ h1, is_flag]
    · by_cases ht : arg = "-t"
      · subst ht
        have h1 : ∀ x ∈ rest.filter (fun arg => !is_flag arg), in_population N (atoi x) := by
          intro x hx; apply h; simpa [is_flag] using hx
        simp [parse_args, ih _ h1, is_flag]
      · by_cases hv : arg = "-v"
        · subst hv
          have h1 : ∀ x ∈ rest.filter (fun arg => !is_flag arg), in_population N (atoi x) := by
            intro x hx; apply h; simpa [is_flag] using hx
          simp [parse_args, ih _ h1, is_flag]
        · have hf : is_flag arg = false := by simp [is_flag, hp, ht, hv]
          have h0 : in_population N (atoi arg) := by
            apply h; simp [List.filter_cons, hf]
          have h1 : ∀ x ∈ rest.filter (fun arg => !is_flag arg), in_population N (atoi x) := by
            intro x hx; apply h; simp [List.filter_cons, hf]; exact Or.inr (by simpa using hx)
          have h2 : ¬ (atoi arg < 1 ∨ atoi arg > N) := by
            unfold in_population at h0; omega
          have e1 : ("-p" = arg) = False := by simpa using fun h => hp h.symm
          have e2 : ("-t" = arg) = False := by simpa using fun h => ht h.symm
          have e3 : ("-v" = arg) = False := by simpa using fun h => hv h.symm
          simp [parse_args, hp, ht, hv, h2, ih _ h1, List.filter_cons, hf, e1, e2, e3]

theorem parse_args_error (N : Int) (args : List String) :
    ∀ a : Args, (∃ arg ∈ args.filter (fun arg => !is_flag arg), ¬ in_population N (atoi arg)) →
      ∃ bad, parse_args N args a = .error bad ∧ bad ∈ args.filter (fun arg => !is_flag arg) ∧
        ¬ in_population N (atoi bad) := by
  induction args with
  | nil => intro a h; simp at h
  | cons arg rest ih =>
    intro a h
    by_cases hf : is_flag arg = true
    · have h1 : ∃ x ∈ rest.filter (fun arg => !is_flag arg), ¬ in_population N (atoi x) := by
        simpa [List.filter_cons, hf] using h
      have hcases : arg = "-p" ∨ arg = "-t" ∨ arg = "-v" := by simpa [is_flag, or_assoc] using hf
      rcases hcases with hp | ht | hv
      · obtain ⟨bad, hb, hm, hr⟩ := ih { a with first_pass := true } h1
        exact ⟨bad, by simp [parse_args, hp, hb], by simpa [List.filter_cons, hf] using hm, hr⟩
      · obtain ⟨bad, hb, hm, hr⟩ := ih { a with test_mode := true } h1
        have : ¬ arg = "-p" := by rw [ht]; decide
        exact ⟨bad, by simp [parse_args, this, ht, hb], by simpa [List.filter_cons, hf] using hm, hr⟩
      · obtain ⟨bad, hb, hm, hr⟩ := ih { a with verbose_mode := true } h1
        have h2 : ¬ arg = "-p" := by rw [hv]; decide
        have h3 : ¬ arg = "-t" := by rw [hv]; decide
        exact ⟨bad, by simp [parse_args, h2, h3, hv, hb], by simpa [List.filter_cons, hf] using hm, hr⟩
    · have hf0 : is_flag arg = false := by simpa using hf
      have hn : ¬ arg = "-p" ∧ ¬ arg = "-t" ∧ ¬ arg = "-v" := by
        simpa [is_flag, not_or, and_assoc] using hf0
      by_cases hr : in_population N (atoi arg)
      · have h1 : ∃ x ∈ rest.filter (fun arg => !is_flag arg), ¬ in_population N (atoi x) := by
          obtain ⟨x, hx, hxr⟩ := h
          simp [List.filter_cons, hf0] at hx
          rcases hx with rfl | hx
          · exact absurd hr hxr
          · exact ⟨x, by simpa using hx, hxr⟩
        obtain ⟨bad, hb, hm, hbr⟩ := ih { a with sp_num := a.sp_num ++ [atoi arg] } h1
        have h2 : ¬ (atoi arg < 1 ∨ atoi arg > N) := by
          unfold in_population at hr; omega
        exact ⟨bad, by simp [parse_args, hn.1, hn.2.1, hn.2.2, h2, hb],
          by simp [List.filter_cons, hf0]; exact Or.inr (by simpa using hm), hbr⟩
      · have h2 : atoi arg < 1 ∨ atoi arg > N := by
          unfold in_population at hr; omega
        exact ⟨arg, by simp [parse_args, hn.1, hn.2.1, hn.2.2, h2], by simp [List.filter_cons, hf0], hr⟩

theorem select_ok (N : Int) (argv : List String)
    (h : ∀ arg ∈ positional argv, in_population N (atoi arg)) :
    select N argv = .ok
      ⟨if (positional argv).map atoi = [] then all_species N else (positional argv).map atoi,
       decide ((positional argv).map atoi = []),
       decide ("-p" ∈ argv.tail), decide ("-t" ∈ argv.tail), decide ("-v" ∈ argv.tail)⟩ := by
  unfold select
  rw [parse_args_ok N argv.tail _ h]
  by_cases he : (positional argv).map atoi = []
  · have he2 : List.map atoi (List.filter (fun arg => !is_flag arg) argv.tail) = [] := he
    simp [he, he2]
  · have he2 : ¬ List.map atoi (List.filter (fun arg => !is_flag arg) argv.tail) = [] := he
    have he3 : ¬ (List.filter (fun arg => !is_flag arg) argv.tail) = [] := by
      intro h0; apply he2; rw [h0]; rfl
    simp [he, he3]
    simp [positional]

theorem select_error (N : Int) (argv : List String)
    (h : ∃ arg ∈ positional argv, ¬ in_population N (atoi arg)) :
    ∃ bad, select N argv = .error bad ∧ bad ∈ positional argv ∧ ¬ in_population N (atoi bad) := by
  obtain ⟨bad, hb, hm, hr⟩ := parse_args_error N argv.tail ⟨false, false, false, []⟩ h
  exact ⟨bad, by simp [select, hb], hm, hr⟩

theorem atoi_of_int (s : String) (hlo : -2147483648 ≤ atoi_chars s.toList)
    (hhi : atoi_chars s.toList ≤ 2147483647) : atoi s = atoi_chars s.toList := by
  unfold atoi strtol to_int LONG_MAX LONG_MIN
  simp only []
  split_ifs <;> omega

/-- C5 (as amended): the arguments are accepted exactly when `atoi` of every
positional argument, the 32-bit `int` the C library returns, lies in `[1, N]`;
otherwise the run ends at once with exit status -1, having done nothing but load
the galaxy and transaction data and report the offending argument: no species,
star or planet data is loaded and no player is processed.  `atoi` of a text is
its decimal value (leading white space and sign allowed, trailing characters
ignored) whenever that value fits an `int`. -/
theorem C5_selector_validates_identifiers (env : Env) (argv : List String) (disk : Disk) :
    ((∃ sel, select (env.get_galaxy_data disk) argv = .ok sel) ↔
      ∀ arg ∈ positional argv, in_population (env.get_galaxy_data disk) (atoi arg)) ∧
    ((∃ arg ∈ positional argv, ¬ in_population (env.get_galaxy_data disk) (atoi arg)) →
      ∃ bad ∈ positional argv, ¬ in_population (env.get_galaxy_data disk) (atoi bad) ∧
        (main env argv disk).code = some (-1) ∧
        (main env argv disk).world.disk = disk ∧
        (main env argv disk).world.trace =
          [.get_galaxy_data, .get_transaction_data,
           .eprintf ("\n    '" ++ bad ++ "' is not a valid argument!\n")]) ∧
    (∀ arg : String, -2147483648 ≤ atoi_chars arg.toList → atoi_chars arg.toList ≤ 2147483647 →
      atoi arg = atoi_chars arg.toList) := by
  refine ⟨?_, ?_, fun arg hlo hhi => atoi_of_int arg hlo hhi⟩
  · constructor
    · rintro ⟨sel, hsel⟩
      by_contra hne
      push_neg at hne
      obtain ⟨bad, hb, _, _⟩ := select_error _ argv hne
      rw [hb] at hsel
      cases hsel
    · intro h
      exact ⟨_, select_ok _ argv h⟩
  · intro h
    obtain ⟨bad, hb, hm, hr⟩ := select_error _ argv h
    refine ⟨bad, hm, hr, ?_⟩
    have hmain : main env argv disk
        = .exit (-1) ((startup env disk).emit
            (.eprintf ("\n    '" ++ bad ++ "' is not a valid argument!\n"))) := by
      simp only [main]
      have hN : (startup env disk).mem.galaxy_num_species = env.get_galaxy_data disk := rfl
      rw [hN, hb]
    rw [hmain]
    exact ⟨rfl, rfl, rfl⟩

theorem C5_selector_validates_identifiers_witness :
    (atoi "2147483648" = -2147483648 ∧
     (main demo_env ["fhprod", "2147483648"] demo_disk).code = some (-1) ∧
     atoi " +2x" = 2) ∧
    ∃ bad ∈ positional ["fhprod", "-p", "2", "7", "x"],
      ¬ in_population (demo_env.get_galaxy_data demo_disk) (atoi bad) ∧
      (main demo_env ["fhprod", "-p", "2", "7", "x"] demo_disk).code = some (-1) ∧
      (main demo_env ["fhprod", "-p", "2", "7", "x"] demo_disk).world.disk = demo_disk ∧
      (main demo_env ["fhprod", "-p", "2", "7", "x"] demo_disk).world.trace =
        [.get_galaxy_data, .get_transaction_data,
         .eprintf ("\n    '" ++ bad ++ "' is not a valid argument!\n")] :=
  ⟨⟨by decide, by decide, by decide⟩,
   (C5_selector_validates_identifiers demo_env ["fhprod", "-p", "2", "7", "x"] demo_disk).2.1
     ⟨"7", by decide, by decide⟩⟩

/-- C5 (as stated) fails: the argument "1abc" is not an integer, yet it is
accepted as player 1 and the run completes; and the argument "4294967297" is an
integer outside `[1, 3]`, yet it is accepted as player 1 too, because `atoi`
returns a 32-bit `int`. -/
theorem C5_counterexample :
    (is_decimal_integer "1abc" = false ∧
     (select 3 ["fhprod", "1abc"]).toOption.map (fun sel => sel.sp_num) = some [1] ∧
     (main demo_env ["fhprod", "1abc"] demo_disk).code = some 0) ∧
    (is_decimal_integer "4294967297" = true ∧
     atoi_chars "4294967297".toList = 4294967297 ∧
     ¬ in_population 3 (atoi_chars "4294967297".toList) ∧
     atoi "4294967297" = 1 ∧
     (select 3 ["fhprod", "4294967297"]).toOption.map (fun sel => sel.sp_num) = some [1] ∧
     (main demo_env ["fhprod", "4294967297"] demo_disk).code = some 0) := by
  refine ⟨by decide, ?_, ?_, ?_, ?_, ?_, ?_⟩ <;> decide

/-- C6: for a valid argument list (one the selector accepts: `atoi` of every
positional argument, a 32-bit `int`, lies in `[1, N]`) the selector returns the
whole population `1 .. N` in ascending order with the process-all flag set when
there is no positional argument, and otherwise the identifiers `atoi` reads from
the positional arguments, in command-line order, with the flag clear; an
argument whose decimal value fits an `int` is output as that value, so a list of
integers in `[1, N]` is output exactly as given.  Each mode flag is set exactly
when its option occurs anywhere among the arguments. -/
theorem C6_selector_output (N : Int) (argv : List String)
    (hvalid : ∀ arg ∈ positional argv, in_population N (atoi arg)) :
    ∃ sel, select N argv = .ok sel ∧
      (positional argv = [] →
        sel.sp_num = (List.range N.toNat).map (fun (i : Nat) => (i : Int) + 1) ∧
        sel.do_all_species = true) ∧
      (positional argv ≠ [] →
        sel.sp_num = (positional argv).map atoi ∧ sel.do_all_species = false) ∧
      ((∀ arg ∈ positional argv, -2147483648 ≤ atoi_chars arg.toList ∧
          atoi_chars arg.toList ≤ 2147483647) →
        (positional argv).map atoi = (positional argv).map (fun arg => atoi_chars arg.toList)) ∧
      (sel.first_pass = true ↔ "-p" ∈ argv.tail) ∧
      (sel.test_mode = true ↔ "-t" ∈ argv.tail) ∧
      (sel.verbose_mode = true ↔ "-v" ∈ argv.tail) := by
  refine ⟨_, select_ok N argv hvalid, ?_, ?_, ?_, ?_, ?_, ?_⟩
  · intro h; simp [h, all_species_eq]
  · intro h; simp [h]
  · intro h
    apply List.map_congr_left
    intro arg harg
    exact atoi_of_int arg (h arg harg).1 (h arg harg).2
  · simp
  · simp
  · simp

theorem C6_selector_output_witness :
    ((select 3 ["fhprod", "3", "-v", "1", "-p", "3"]).toOption.map (fun sel => sel.sp_num)
      = some [3, 1, 3] ∧
     (select 3 ["fhprod", "-t"]).toOption.map (fun sel => (sel.sp_num, sel.do_all_species))
      = some ([1, 2, 3], true) ∧
     (select 3 ["fhprod", "4294967297", "2"]).toOption.map (fun sel => sel.sp_num)
      = some [1, 2]) ∧
    ∃ sel, select 3 ["fhprod", "3", "-v", "1", "-p", "3"] = .ok sel ∧
      (positional ["fhprod", "3", "-v", "1", "-p", "3"] = [] →
        sel.sp_num = (List.range (3 : Int).toNat).map (fun (i : Nat) => (i : Int) + 1) ∧
        sel.do_all_species = true) ∧
      (positional ["fhprod", "3", "-v", "1", "-p", "3"] ≠ [] →
        sel.sp_num = (positional ["fhprod", "3", "-v", "1", "-p", "3"]).map atoi ∧
        sel.do_all_species = false) ∧
      ((∀ arg ∈ positional ["fhprod", "3", "-v", "1", "-p", "3"],
          -2147483648 ≤ atoi_chars arg.toList ∧ atoi_chars arg.toList ≤ 2147483647) →
        (positional ["fhprod", "3", "-v", "1", "-p", "3"]).map atoi
          = (positional ["fhprod", "3", "-v", "1", "-p", "3"]).map
              (fun arg => atoi_chars arg.toList)) ∧
      (sel.first_pass = true ↔ "-p" ∈ ["fhprod", "3", "-v", "1", "-p", "3"].tail) ∧
      (sel.test_mode = true ↔ "-t" ∈ ["fhprod", "3", "-v", "1", "-p", "3"].tail) ∧
      (sel.verbose_mode = true ↔ "-v" ∈ ["fhprod", "3", "-v", "1", "-p", "3"].tail) :=
  ⟨by decide, C6_selector_output 3 ["fhprod", "3", "-v", "1", "-p", "3"] (by decide)⟩

/-! ## Loops of the driver in closed form -/

@[simp] theorem emit_trace (w : World) (e : Event) : (w.emit e).trace = w.trace ++ [e] := rfl

@[simp] theorem emit_mem (w : World) (e : Event) : (w.emit e).mem = w.mem := rfl

@[simp] theorem emit_disk (w : World) (e : Event) : (w.emit e).disk = w.disk := rfl

@[simp] theorem put_trace (w : World) (m : Mem) : (w.put m).trace = w.trace := rfl

@[simp] theorem put_mem (w : World) (m : Mem) : (w.put m).mem = m := rfl

@[simp] theorem put_disk (w : World) (m : Mem) : (w.put m).disk = w.disk := rfl

theorem reset_production_done_eq (m : Mem) :
    reset_production_done m = { m with fr := { m.fr with
      production_done := fun j =>
        if j < (m.fr.spec_data m.species).num_namplas.toNat then false
        else m.fr.production_done j } } := by
  unfold reset_production_done
  induction (m.fr.spec_data m.species).num_namplas.toNat with
  | zero => simp [for_loop]
  | succ n ih =>
    rw [for_loop_succ, ih]
    simp only [store]
    congr 2
    funext j
    by_cases h1 : j = n
    · simp [store, h1]
    · by_cases h2 : j < n
      · have : j < n + 1 := by omega
        simp [store, h1, h2, this]
      · have : ¬ j < n + 1 := by omega
        simp [store, h1, h2, this]

theorem reset_namplas_eq (m : Mem) :
    reset_namplas m = { m with fr := { m.fr with
      namp_data := store m.fr.namp_data m.nampla_base (fun j =>
        if j < (m.fr.spec_data m.species).num_namplas.toNat then cleared (m.fr.namp_data m.nampla_base j)
        else m.fr.namp_data m.nampla_base j) } } := by
  unfold reset_namplas
  induction (m.fr.spec_data m.species).num_namplas.toNat with
  | zero =>
    have h : store m.fr.namp_data m.nampla_base (fun j =>
        if j < 0 then cleared (m.fr.namp_data m.nampla_base j)
        else m.fr.namp_data m.nampla_base j) = m.fr.namp_data := by
      funext s j
      by_cases hs : s = m.nampla_base <;> simp [store, hs]
    rw [h]
    rfl
  | succ n ih =>
    rw [for_loop_succ, ih]
    simp only [store]
    congr 2
    funext s j
    by_cases hs : s = m.nampla_base
    · by_cases h1 : j = n
      · simp [store, hs, h1, cleared]
      · by_cases h2 : j < n
        · have : j < n + 1 := by omega
          simp [store, hs, h1, h2, this]
        · have : ¬ j < n + 1 := by omega
          simp [store, hs, h1, h2, this]
    · simp [store, hs]

theorem snapshot_tech_level_eq (m : Mem) :
    snapshot_tech_level m = { m with fr := { m.fr with
      sp_tech_level := fun j =>
        if j < 6 then (m.fr.spec_data m.species).tech_level j else m.fr.sp_tech_level j } } := by
  simp only [snapshot_tech_level, for_loop, store]
  congr 2
  funext j
  by_cases h0 : j = 0
  · simp [store, h0]
  by_cases h1 : j = 1
  · simp [store, h1]
  by_cases h2 : j = 2
  · simp [store, h2]
  by_cases h3 : j = 3
  · simp [store, h3]
  by_cases h4 : j = 4
  · simp [store, h4]
  by_cases h5 : j = 5
  · simp [store, h5]
  have : ¬ j < 6 := by omega
  simp [store, h0, h1, h2, h3, h4, h5, this]

theorem copy_back_tech_level_eq (m : Mem) :
    copy_back_tech_level m = { m with fr := { m.fr with
      spec_data := store m.fr.spec_data m.species
        { m.fr.spec_data m.species with
          tech_level := fun j =>
            if j < 6 then m.fr.sp_tech_level j else (m.fr.spec_data m.species).tech_level j } } } := by
  simp only [copy_back_tech_level, for_loop, store]
  congr 2
  funext s
  by_cases hs : s = m.species
  · simp [store, hs]
    funext j
    by_cases h0 : j = 0
    · simp [store, h0]
    by_cases h1 : j = 1
    · simp [store, h1]
    by_cases h2 : j = 2
    · simp [store, h2]
    by_cases h3 : j = 3
    · simp [store, h3]
    by_cases h4 : j = 4
    · simp [store, h4]
    by_cases h5 : j = 5
    · simp [store, h5]
    have : ¬ j < 6 := by omega
    simp [store, h0, h1, h2, h3, h4, h5, this]
  · simp [store, hs]

/-! ## Traces of the steps -/

theorem Grow.here (P : Event → Prop) (w : World) : Grow P w w :=
  ⟨[], by simp, by simp⟩

theorem Grow.andThen {P : Event → Prop} {w w1 w2 : World} (h1 : Grow P w w1) (h2 : Grow P w1 w2) :
    Grow P w w2 := by
  obtain ⟨n1, e1, p1⟩ := h1
  obtain ⟨n2, e2, p2⟩ := h2
  refine ⟨n1 ++ n2, by rw [e2, e1, List.append_assoc], ?_⟩
  intro e he
  rcases List.mem_append.mp he with h | h
  · exact p1 e h
  · exact p2 e h

theorem Grow.mono {P Q : Event → Prop} {w w1 : World} (h : Grow P w w1) (hpq : ∀ e, P e → Q e) :
    Grow Q w w1 := by
  obtain ⟨n, e, p⟩ := h
  exact ⟨n, e, fun x hx => hpq x (p x hx)⟩

theorem Grow.emit {P : Event → Prop} (w : World) (e : Event) (h : P e) : Grow P w (w.emit e) :=
  ⟨[e], rfl, by simpa using h⟩

theorem Grow.same {P : Event → Prop} {w w1 : World} (h : w1.trace = w.trace) : Grow P w w1 :=
  ⟨[], by simp [h], by simp⟩

theorem Grow.then_emit {P : Event → Prop} {w w1 : World} (h : Grow P w w1) (e : Event) (he : P e) :
    Grow P w (w1.emit e) :=
  h.andThen (Grow.emit w1 e he)

theorem log_write_spec (w : World) (s : String) :
    (w.log_write s).trace = w.trace ++ [Event.fprintf w.mem.log_file s] ∧
    (w.log_write s).mem = w.mem ∧
    ((∀ f, w.mem.log_file ≠ .file f) → (w.log_write s).disk = w.disk) := by
  unfold World.log_write
  split
  · rename_i name h
    refine ⟨by simp [h], rfl, ?_⟩
    intro hf
    exact absurd h (hf name)
  · rename_i t h
    exact ⟨rfl, rfl, fun _ => rfl⟩

theorem log_writes_spec (l : List String) :
    ∀ w : World, (w.log_writes l).trace = w.trace ++ l.map (Event.fprintf w.mem.log_file) ∧
      (w.log_writes l).mem = w.mem ∧
      ((∀ f, w.mem.log_file ≠ .file f) → (w.log_writes l).disk = w.disk) := by
  induction l with
  | nil => intro w; simp [World.log_writes]
  | cons s rest ih =>
    intro w
    obtain ⟨t1, m1, d1⟩ := log_write_spec w s
    obtain ⟨t2, m2, d2⟩ := ih (w.log_write s)
    simp only [World.log_writes]
    refine ⟨by rw [t2, t1, m1]; simp, by rw [m2, m1], ?_⟩
    intro hf
    rw [d2 (by rw [m1]; exact hf), d1 hf]

theorem returned_spec (w : World) (r : CallResult) :
    (w.returned r).world.trace = w.trace ++ r.log.map (Event.fprintf w.mem.log_file) ∧
    (w.returned r).world.mem = { w.mem with fr := r.fr } ∧
    ((∀ f, w.mem.log_file ≠ .file f) → (w.returned r).world.disk = w.disk) := by
  obtain ⟨t, m, d⟩ := log_writes_spec r.log ({ w with mem := { w.mem with fr := r.fr } } : World)
  unfold World.returned
  cases h : r.exit <;> exact ⟨t, m, d⟩

theorem log_selected_target {m : Mem} (h : log_selected m) (s : String) :
    step_event m.first_pass (Event.fprintf m.log_file s) := by
  unfold log_selected at h
  simp only [step_event]
  exact h

theorem log_selected_disk {m : Mem} (h : log_selected m) (hp : m.first_pass = true) :
    ∀ f, m.log_file ≠ .file f := by
  unfold log_selected at h
  rw [if_pos hp] at h
  intro f hf
  rw [h] at hf
  cases hf

theorem returned_grow (w : World) (r : CallResult) (h : log_selected w.mem) :
    Grow (step_event w.mem.first_pass) w (w.returned r).world := by
  obtain ⟨t, _, _⟩ := returned_spec w r
  refine ⟨_, t, ?_⟩
  intro e he
  obtain ⟨s, _, rfl⟩ := List.mem_map.mp he
  exact log_selected_target h s

theorem drain_intercepts_spec (env : Env) (fuel : Nat) :
    ∀ (i : Int) (w : World), log_selected w.mem →
      Grow (step_event w.mem.first_pass) w (drain_intercepts env fuel i w).world ∧
      (∃ fr, (drain_intercepts env fuel i w).world.mem = { w.mem with fr := fr }) ∧
      (w.mem.first_pass = true → (drain_intercepts env fuel i w).world.disk = w.disk) := by
  induction fuel with
  | zero => intro i w _; exact ⟨Grow.here _ _, ⟨w.mem.fr, rfl⟩, fun _ => rfl⟩
  | succ n ih =>
    intro i w hl
    simp only [drain_intercepts]
    split
    · have hl1 : log_selected (w.emit (.handle_intercept i)).mem := hl
      obtain ⟨t, m, d⟩ := returned_spec (w.emit (.handle_intercept i)) (env.handle_intercept i w.mem)
      have g := returned_grow (w.emit (.handle_intercept i)) (env.handle_intercept i w.mem) hl1
      have g0 : Grow (step_event w.mem.first_pass) w (w.emit (.handle_intercept i)) :=
        Grow.emit w _ (by simp [step_event])
      have g1 := g0.andThen g
      split
      · rename_i code w1 h
        rw [h] at g1 m d
        exact ⟨g1, ⟨_, m⟩, fun hp => d (log_selected_disk hl hp)⟩
      · rename_i w1 h
        rw [h] at g1 m d
        simp only [Step.world] at g1 m d
        have hl2 : log_selected w1.mem := by rw [m]; exact hl
        obtain ⟨ga, ⟨fr, ma⟩, da⟩ := ih (i + 1) w1 hl2
        have hfp : w1.mem.first_pass = w.mem.first_pass := by rw [m]; rfl
        rw [hfp] at ga da
        refine ⟨g1.andThen ga, ⟨fr, by rw [ma, m]; rfl⟩, fun hp => ?_⟩
        rw [da hp]
        exact d (log_selected_disk hl hp)
    · exact ⟨Grow.here _ _, ⟨w.mem.fr, rfl⟩, fun _ => rfl⟩

theorem same_ctl.self (m : Mem) : same_ctl m m := ⟨m.fr, rfl⟩

theorem same_ctl.join {m m1 m2 : Mem} (h1 : same_ctl m m1) (h2 : same_ctl m1 m2) : same_ctl m m2 := by
  obtain ⟨f1, e1⟩ := h1
  obtain ⟨f2, e2⟩ := h2
  exact ⟨f2, by rw [e2, e1]⟩

theorem same_ctl.pass_flag {m m1 : Mem} (h : same_ctl m m1) : m1.first_pass = m.first_pass := by
  obtain ⟨f, e⟩ := h
  rw [e]

theorem same_ctl.index {m m1 : Mem} (h : same_ctl m m1) : m1.species_index = m.species_index := by
  obtain ⟨f, e⟩ := h
  rw [e]

theorem same_ctl.pointer {m m1 : Mem} (h : same_ctl m m1) : m1.species = m.species := by
  obtain ⟨f, e⟩ := h
  rw [e]

theorem same_ctl.log_target {m m1 : Mem} (h : same_ctl m m1) (hl : log_selected m) : log_selected m1 := by
  obtain ⟨f, e⟩ := h
  rw [e]
  exact hl

theorem driver_init_eq (m : Mem) :
    driver_init m = { m with fr := { m.fr with
      production_done := fun j =>
        if j < (m.fr.spec_data m.species).num_namplas.toNat then false else m.fr.production_done j
      namp_data := store m.fr.namp_data m.nampla_base (fun j =>
        if j < (m.fr.spec_data m.species).num_namplas.toNat then cleared (m.fr.namp_data m.nampla_base j)
        else m.fr.namp_data m.nampla_base j)
      num_intercepts := 0
      sp_tech_level := fun j =>
        if j < 6 then (m.fr.spec_data m.species).tech_level j else m.fr.sp_tech_level j } } := by
  simp only [driver_init, reset_production_done_eq, reset_namplas_eq, snapshot_tech_level_eq]

theorem driver_init_same_ctl (m : Mem) : same_ctl m (driver_init m) := by
  rw [driver_init_eq]
  exact ⟨_, rfl⟩

theorem copy_back_same_ctl (m : Mem) : same_ctl m (copy_back_tech_level m) := by
  rw [copy_back_tech_level_eq]
  exact ⟨_, rfl⟩

theorem driver_init_ready (m : Mem) (h1 : m.species = m.species_index)
    (h2 : m.nampla_base = m.species_index) : driver_ready (driver_init m) := by
  rw [driver_init_eq]
  refine ⟨h1, h2, ?_, ?_, rfl⟩
  · intro i hi
    dsimp only at hi ⊢
    have hlt : i < (m.fr.spec_data m.species).num_namplas.toNat := by
      rw [h1]; omega
    simp [store, h2, hlt, cleared]
  · intro i hi
    dsimp only
    simp [hi, h1]

theorem driver_spec (env : Env) (w : World) (h1 : w.mem.species = w.mem.species_index)
    (h2 : w.mem.nampla_base = w.mem.species_index) (hl : log_selected w.mem) :
    Grow (step_event w.mem.first_pass) w (driver env w).world ∧
    (driver env w).world.mem.first_pass = w.mem.first_pass ∧
    (w.mem.first_pass = true → (driver env w).world.disk = w.disk) := by
  unfold driver
  split
  · exact ⟨Grow.emit w _ (by simp [step_event]), rfl, fun _ => rfl⟩
  · have c1 : same_ctl w.mem (driver_init w.mem) := driver_init_same_ctl w.mem
    have hr : driver_ready (driver_init w.mem) := driver_init_ready w.mem h1 h2
    have hl1 : log_selected (driver_init w.mem) := c1.log_target hl
    have g0 : Grow (step_event w.mem.first_pass) w
        ((w.put (driver_init w.mem)).emit (.do_production_orders (driver_init w.mem))) :=
      ⟨[.do_production_orders (driver_init w.mem)], rfl, by
        intro e he
        rw [List.mem_singleton.mp he]
        exact ⟨hr, c1.pass_flag⟩⟩
    obtain ⟨_, m, d⟩ := returned_spec
      ((w.put (driver_init w.mem)).emit (.do_production_orders (driver_init w.mem)))
      (env.do_production_orders (driver_init w.mem))
    have g := returned_grow
      ((w.put (driver_init w.mem)).emit (.do_production_orders (driver_init w.mem)))
      (env.do_production_orders (driver_init w.mem)) hl1
    have hfp0 : ((w.put (driver_init w.mem)).emit
        (.do_production_orders (driver_init w.mem))).mem.first_pass = w.mem.first_pass := c1.pass_flag
    rw [hfp0] at g
    have g1 := g0.andThen g
    have dd : w.mem.first_pass = true → (((w.put (driver_init w.mem)).emit
        (.do_production_orders (driver_init w.mem))).returned
          (env.do_production_orders (driver_init w.mem))).world.disk = w.disk := by
      intro hp
      exact d (log_selected_disk hl1 (hfp0.trans hp))
    simp only [put_mem]
    split
    · rename_i code w2 h
      rw [h] at g1 m dd
      have c2 : same_ctl w.mem w2.mem := c1.join ⟨_, m⟩
      exact ⟨g1, c2.pass_flag, dd⟩
    · rename_i w2 h
      rw [h] at g1 m dd
      simp only [Step.world] at g1 m dd
      have c2 : same_ctl w.mem w2.mem := c1.join ⟨_, m⟩
      have c3 : same_ctl w.mem (w2.put (copy_back_tech_level w2.mem)).mem :=
        c2.join (copy_back_same_ctl w2.mem)
      obtain ⟨gd, cd, ddr⟩ := drain_intercepts_spec env 2147483648 0
        (w2.put (copy_back_tech_level w2.mem)) (c3.log_target hl)
      rw [c3.pass_flag] at gd ddr
      have g2 : Grow (step_event w.mem.first_pass) w (w2.put (copy_back_tech_level w2.mem)) :=
        g1.andThen (Grow.same rfl)
      have g3 := g2.andThen gd
      split
      · rename_i code w4 h4
        rw [h4] at g3 cd ddr
        have c4 : same_ctl w.mem w4.mem := c3.join cd
        exact ⟨g3, c4.pass_flag, fun hp => by rw [ddr hp]; exact dd hp⟩
      · rename_i w4 h4
        rw [h4] at g3 cd ddr
        simp only [Step.world] at g3 cd ddr
        have c4 : same_ctl w.mem w4.mem := c3.join cd
        have hfin : Grow (step_event w.mem.first_pass) w4 (driver_finish w4) ∧
            (driver_finish w4).mem.first_pass = w4.mem.first_pass ∧
            (driver_finish w4).disk = w4.disk := by
          unfold driver_finish
          simp only [put_mem]
          by_cases hp : w4.mem.first_pass = true
          · simp only [hp, Bool.not_true, Bool.false_eq_true, if_false]
            exact ⟨(Grow.same rfl).then_emit _ (by simp [step_event]), rfl, rfl⟩
          · have hp0 : w4.mem.first_pass = false := by simpa using hp
            simp only [hp0, Bool.not_false, if_true]
            refine ⟨((Grow.same rfl).then_emit _ ?_).then_emit _ (by simp [step_event]), rfl, rfl⟩
            simp only [step_event]
            rw [← c4.pass_flag]
            exact hp0
        obtain ⟨gf, ff, df⟩ := hfin
        refine ⟨g3.andThen gf, ff.trans c4.pass_flag, fun hp => ?_⟩
        simp only [Step.world]
        rw [df, ddr hp]
        exact dd hp

@[simp] theorem log_write_mem (w : World) (s : String) : (w.log_write s).mem = w.mem :=
  (log_write_spec w s).2.1

theorem Grow.then_put {P : Event → Prop} {w w1 : World} (h : Grow P w w1) (m : Mem) :
    Grow P w (w1.put m) :=
  h.andThen (Grow.same rfl)

theorem Grow.then_log_write {P : Event → Prop} {w w1 : World} (h : Grow P w w1) (s : String)
    (he : P (Event.fprintf w1.mem.log_file s)) : Grow P w (w1.log_write s) :=
  h.andThen ⟨_, (log_write_spec w1 s).1, by simpa using he⟩

theorem open_log_spec (w : World) :
    Grow (step_event w.mem.first_pass) w (open_log w).world ∧
    (open_log w).world.mem.first_pass = w.mem.first_pass ∧
    (w.mem.first_pass = true → (open_log w).world.disk = w.disk) ∧
    (∀ w1, open_log w = .next w1 →
      log_selected w1.mem ∧ w1.mem.species = w.mem.species ∧
      w1.mem.nampla_base = w.mem.nampla_base ∧ w1.mem.species_index = w.mem.species_index) := by
  unfold open_log
  simp only [put_mem]
  split
  · rename_i hp
    refine ⟨Grow.same rfl, rfl, fun _ => rfl, ?_⟩
    intro w1 h1
    cases h1
    exact ⟨by simp [log_selected, hp], rfl, rfl, rfl⟩
  · rename_i hp
    have hp0 : w.mem.first_pass = false := by simpa using hp
    split
    · refine ⟨?_, rfl, fun h => absurd h hp, ?_⟩
      · simp only [Step.world]
        repeat (first | exact Grow.here _ _ | apply Grow.then_emit | apply Grow.then_put | apply Grow.then_log_write)
        all_goals simp [step_event, hp0]
      · intro w1 h1; cases h1
    · refine ⟨?_, ?_, fun h => absurd h hp, ?_⟩
      · simp only [Step.world]
        repeat (first | exact Grow.here _ _ | apply Grow.then_emit | apply Grow.then_put | apply Grow.then_log_write)
        all_goals simp [step_event, hp0]
      · simp [Step.world]
      · intro w1 h1
        cases h1
        simp [log_selected, hp0]

theorem Grow.then_scanned {P : Event → Prop} {w w1 : World} (h : Grow P w w1) (r : ScanResult)
    (hp : ∀ s, P (Event.eprintf s)) : Grow P w (w1.scanned r) :=
  h.andThen ⟨r.stderr.map Event.eprintf, rfl, by
    intro e he
    obtain ⟨s, _, rfl⟩ := List.mem_map.mp he
    exact hp s⟩

theorem production_ok (env : Env) {fp : Bool} {w W : World} (g : Grow (step_event fp) w W)
    (hfp : W.mem.first_pass = fp) (hd : fp = true → W.disk = w.disk)
    (h1 : W.mem.species = W.mem.species_index) (h2 : W.mem.nampla_base = W.mem.species_index) :
    StepOK fp w (production env W) := by
  subst hfp
  obtain ⟨go, fo, dko, no⟩ := open_log_spec W
  unfold production
  split
  · rename_i code w1 h
    rw [h] at go fo dko
    exact ⟨g.andThen go, fo, fun hp => (dko hp).trans (hd hp)⟩
  · rename_i w1 h
    rw [h] at go fo dko
    simp only [Step.world] at go fo dko
    obtain ⟨hl, e1, e2, e3⟩ := no w1 h
    obtain ⟨gd, fd, dd⟩ := driver_spec env w1 (by rw [e1, e3]; exact h1) (by rw [e2, e3]; exact h2) hl
    rw [fo] at gd fd dd
    exact ⟨(g.andThen go).andThen gd, fd, fun hp => ((dd hp).trans (dko hp)).trans (hd hp)⟩

theorem process_orders_ok (env : Env) (filename : String) (tokens : List Token) {fp : Bool}
    {w W : World} (g : Grow (step_event fp) w W)
    (hfp : W.mem.first_pass = fp) (hd : fp = true → W.disk = w.disk)
    (h1 : W.mem.species = W.mem.species_index) (h2 : W.mem.nampla_base = W.mem.species_index) :
    StepOK fp w (process_orders env filename tokens W) := by
  unfold process_orders
  simp only [put_mem]
  split
  · split
    · refine ⟨?_, hfp, hd⟩
      simp only [Step.world]
      repeat (first | exact g | apply Grow.then_emit | apply Grow.then_put | apply Grow.then_log_write | apply Grow.then_scanned)
      all_goals simp [step_event]
    · refine ⟨?_, hfp, hd⟩
      simp only [Step.world]
      repeat (first | exact g | apply Grow.then_emit | apply Grow.then_put | apply Grow.then_log_write | apply Grow.then_scanned)
      all_goals simp [step_event]
  · refine production_ok env ?_ hfp hd h1 h2
    repeat (first | exact g | apply Grow.then_emit | apply Grow.then_put | apply Grow.then_log_write | apply Grow.then_scanned)
    all_goals simp [step_event]

theorem species_step_ok (env : Env) (do_all_species : Bool) (n : Int) (w : World) :
    StepOK w.mem.first_pass w (species_step env do_all_species n w) := by
  unfold species_step
  simp only [put_mem, put_disk, emit_mem, emit_disk]
  split
  · split
    · split
      · refine ⟨?_, rfl, fun _ => rfl⟩
        simp only [Step.world]
        repeat (first | exact Grow.here _ _ | apply Grow.then_emit | apply Grow.then_put | apply Grow.then_log_write)
        all_goals simp [step_event]
      · exact ⟨Grow.same rfl, rfl, fun _ => rfl⟩
    · refine ⟨?_, rfl, fun _ => rfl⟩
      simp only [Step.world]
      repeat (first | exact Grow.here _ _ | apply Grow.then_emit | apply Grow.then_put | apply Grow.then_log_write)
      all_goals simp [step_event]
  · split
    · split
      · split
        · refine ⟨?_, rfl, fun _ => rfl⟩
          simp only [Step.world]
          repeat (first | exact Grow.here _ _ | apply Grow.then_emit | apply Grow.then_put | apply Grow.then_log_write)
          all_goals simp [step_event]
        · refine ⟨?_, rfl, fun _ => rfl⟩
          simp only [Step.world]
          repeat (first | exact Grow.here _ _ | apply Grow.then_emit | apply Grow.then_put | apply Grow.then_log_write)
          all_goals simp [step_event]
      · refine ⟨?_, rfl, fun _ => rfl⟩
        simp only [Step.world]
        repeat (first | exact Grow.here _ _ | apply Grow.then_emit | apply Grow.then_put | apply Grow.then_log_write)
        all_goals simp [step_event]
    · refine process_orders_ok env _ _ ?_ rfl (fun _ => rfl) rfl rfl
      repeat (first | exact Grow.here _ _ | apply Grow.then_emit | apply Grow.then_put | apply Grow.then_log_write)
      all_goals simp [step_event]

theorem species_loop_ok (env : Env) (do_all_species : Bool) (sp_num : List Int) :
    ∀ w : World, StepOK w.mem.first_pass w (species_loop env do_all_species sp_num w) := by
  induction sp_num with
  | nil => intro w; exact ⟨Grow.here _ _, rfl, fun _ => rfl⟩
  | cons n rest ih =>
    intro w
    obtain ⟨g, f, d⟩ := species_step_ok env do_all_species n w
    simp only [species_loop]
    split
    · rename_i code w1 h
      rw [h] at g f d
      exact ⟨g, f, d⟩
    · rename_i w1 h
      rw [h] at g f d
      simp only [Step.world] at g f d
      obtain ⟨g2, f2, d2⟩ := ih w1
      rw [f] at g2 f2 d2
      exact ⟨g.andThen g2, f2, fun hp => (d2 hp).trans (d hp)⟩

/-! ## What every step keeps -/

theorem Kept.here_kept (w : World) : Kept w w := ⟨⟨[], by simp⟩, rfl, rfl, rfl⟩

theorem Kept.comp {w w1 w2 : World} (h1 : Kept w w1) (h2 : Kept w1 w2) : Kept w w2 := by
  obtain ⟨⟨n1, e1⟩, a1, b1, c1⟩ := h1
  obtain ⟨⟨n2, e2⟩, a2, b2, c2⟩ := h2
  exact ⟨⟨n1 ++ n2, by rw [e2, e1, List.append_assoc]⟩, a2.trans a1, b2.trans b1, c2.trans c1⟩

theorem Kept.trace_mem {w w1 : World} (h : Kept w w1) {e : Event} (he : e ∈ w.trace) : e ∈ w1.trace := by
  obtain ⟨⟨n, en⟩, _⟩ := h
  rw [en]
  exact List.mem_append_left _ he

theorem Kept.keep_emit {w w1 : World} (h : Kept w w1) (e : Event) : Kept w (w1.emit e) :=
  h.comp ⟨⟨[e], rfl⟩, rfl, rfl, rfl⟩

theorem Kept.keep_put {w w1 : World} (h : Kept w w1) (m : Mem)
    (hm : m.data_in_memory = w1.mem.data_in_memory) : Kept w (w1.put m) :=
  h.comp ⟨⟨[], by simp⟩, hm, rfl, rfl⟩

theorem Kept.keep_scanned {w w1 : World} (h : Kept w w1) (r : ScanResult) : Kept w (w1.scanned r) :=
  h.comp ⟨⟨_, rfl⟩, rfl, rfl, rfl⟩

theorem log_write_kept (w : World) (s : String) : Kept w (w.log_write s) := by
  unfold World.log_write
  split
  · exact ⟨⟨_, rfl⟩, rfl, rfl, rfl⟩
  · exact ⟨⟨_, rfl⟩, rfl, rfl, rfl⟩

theorem Kept.keep_log_write {w w1 : World} (h : Kept w w1) (s : String) : Kept w (w1.log_write s) :=
  h.comp (log_write_kept w1 s)

theorem log_writes_kept (l : List String) : ∀ w : World, Kept w (w.log_writes l) := by
  induction l with
  | nil => intro w; exact Kept.here_kept w
  | cons s rest ih => intro w; exact (log_write_kept w s).comp (ih _)

theorem returned_kept (w : World) (r : CallResult) : Kept w (w.returned r).world := by
  have h := log_writes_kept r.log ({ w with mem := { w.mem with fr := r.fr } } : World)
  have h0 : Kept w ({ w with mem := { w.mem with fr := r.fr } } : World) := ⟨⟨[], by simp⟩, rfl, rfl, rfl⟩
  unfold World.returned
  cases r.exit <;> exact h0.comp h

theorem drain_intercepts_kept (env : Env) (fuel : Nat) :
    ∀ (i : Int) (w : World), Kept w (drain_intercepts env fuel i w).world := by
  induction fuel with
  | zero => intro i w; exact Kept.here_kept w
  | succ n ih =>
    intro i w
    simp only [drain_intercepts]
    split
    · have h := ((Kept.here_kept w).keep_emit (.handle_intercept i)).comp
        (returned_kept (w.emit (.handle_intercept i)) (env.handle_intercept i w.mem))
      split
      · rename_i code w1 hr
        rw [hr] at h
        exact h
      · rename_i w1 hr
        rw [hr] at h
        exact h.comp (ih (i + 1) w1)
    · exact Kept.here_kept w

theorem driver_finish_kept (w : World) : Kept w (driver_finish w) := by
  unfold driver_finish
  simp only [put_mem]
  split
  · exact ((Kept.here_kept w).keep_put _ rfl |>.keep_emit _).keep_emit _
  · exact ((Kept.here_kept w).keep_put _ rfl).keep_emit _

theorem driver_init_data_in_memory (m : Mem) : (driver_init m).data_in_memory = m.data_in_memory := by
  rw [driver_init_eq]

theorem copy_back_data_in_memory (m : Mem) :
    (copy_back_tech_level m).data_in_memory = m.data_in_memory := by
  rw [copy_back_tech_level_eq]

theorem driver_kept (env : Env) (w : World) :
    Kept w (driver env w).world ∧
    (¬ (w.mem.fr.spec_data w.mem.species).num_namplas > 1000 →
      Event.do_production_orders (driver_init w.mem) ∈ (driver env w).world.trace) := by
  unfold driver
  split
  · rename_i h
    exact ⟨(Kept.here_kept w).keep_emit _, fun hn => absurd h hn⟩
  · have k0 : Kept w ((w.put (driver_init w.mem)).emit (.do_production_orders (driver_init w.mem))) :=
      ((Kept.here_kept w).keep_put _ (driver_init_data_in_memory w.mem)).keep_emit _
    have hin : Event.do_production_orders (driver_init w.mem) ∈
        ((w.put (driver_init w.mem)).emit (.do_production_orders (driver_init w.mem))).trace := by
      simp
    have k1 := returned_kept
      ((w.put (driver_init w.mem)).emit (.do_production_orders (driver_init w.mem)))
      (env.do_production_orders (driver_init w.mem))
    simp only [put_mem]
    split
    · rename_i code w2 h
      rw [h] at k1
      exact ⟨k0.comp k1, fun _ => k1.trace_mem hin⟩
    · rename_i w2 h
      rw [h] at k1
      simp only [Step.world] at k1
      have k2 : Kept w2 (w2.put (copy_back_tech_level w2.mem)) :=
        (Kept.here_kept w2).keep_put _ (copy_back_data_in_memory w2.mem)
      have k3 := drain_intercepts_kept env 2147483648 0 (w2.put (copy_back_tech_level w2.mem))
      split
      · rename_i code w4 h4
        rw [h4] at k3
        exact ⟨((k0.comp k1).comp k2).comp k3, fun _ => ((k1.comp k2).comp k3).trace_mem hin⟩
      · rename_i w4 h4
        rw [h4] at k3
        simp only [Step.world] at k3
        have k4 := driver_finish_kept w4
        exact ⟨(((k0.comp k1).comp k2).comp k3).comp k4,
          fun _ => (((k1.comp k2).comp k3).comp k4).trace_mem hin⟩

theorem open_log_kept (w : World) :
    Kept w (open_log w).world ∧ (open_log w).world.mem.fr = w.mem.fr := by
  unfold open_log
  simp only [put_mem]
  split
  · exact ⟨(Kept.here_kept w).keep_put _ rfl |>.keep_put _ rfl, rfl⟩
  · split
    · refine ⟨?_, rfl⟩
      simp only [Step.world]
      repeat (first | exact Kept.here_kept _ | apply Kept.keep_emit | apply Kept.keep_log_write | apply Kept.keep_put)
    · refine ⟨?_, ?_⟩
      · simp only [Step.world]
        repeat (first | exact Kept.here_kept _ | apply Kept.keep_emit | apply Kept.keep_log_write | apply Kept.keep_put)
      · simp [Step.world]

theorem Kept2.both {w w1 w2 : World} (h1 : Kept w w1 ∧ flag_or_called w w1)
    (h2 : Kept w1 w2 ∧ flag_or_called w1 w2) : Kept w w2 ∧ flag_or_called w w2 := by
  refine ⟨h1.1.comp h2.1, ?_⟩
  rcases h2.2 with f2 | ⟨m, hm⟩
  · rcases h1.2 with f1 | ⟨m, hm⟩
    · exact Or.inl (f2.trans f1)
    · exact Or.inr ⟨m, h2.1.trace_mem hm⟩
  · exact Or.inr ⟨m, hm⟩

theorem production_kept (env : Env) (w : World) :
    Kept w (production env w).world ∧ flag_or_called w (production env w).world := by
  obtain ⟨ko, fo⟩ := open_log_kept w
  unfold production
  split
  · rename_i code w1 h
    rw [h] at ko fo
    exact ⟨ko, Or.inl (congrArg Frame.planet_data_modified fo)⟩
  · rename_i w1 h
    rw [h] at ko fo
    simp only [Step.world] at ko fo
    obtain ⟨kd, cd⟩ := driver_kept env w1
    refine Kept2.both ⟨ko, Or.inl (by rw [fo])⟩ ⟨kd, ?_⟩
    by_cases hov : (w1.mem.fr.spec_data w1.mem.species).num_namplas > 1000
    · left
      unfold driver
      rw [if_pos hov]
      rfl
    · exact Or.inr ⟨_, cd hov⟩

theorem process_orders_kept (env : Env) (filename : String) (tokens : List Token) (w : World) :
    Kept w (process_orders env filename tokens w).world ∧
    flag_or_called w (process_orders env filename tokens w).world := by
  unfold process_orders
  simp only [put_mem]
  split
  · split
    · refine ⟨?_, Or.inl rfl⟩
      simp only [Step.world]
      repeat (first | exact Kept.here_kept _ | apply Kept.keep_emit | apply Kept.keep_scanned | apply Kept.keep_put)
    · refine ⟨?_, Or.inl rfl⟩
      simp only [Step.world]
      repeat (first | exact Kept.here_kept _ | apply Kept.keep_emit | apply Kept.keep_scanned | apply Kept.keep_put)
  · refine Kept2.both ⟨?_, Or.inl ?_⟩ (production_kept env _)
    · repeat (first | exact Kept.here_kept _ | apply Kept.keep_emit | apply Kept.keep_scanned | apply Kept.keep_put)
    · rfl

theorem species_step_kept (env : Env) (do_all_species : Bool) (n : Int) (w : World) :
    Kept w (species_step env do_all_species n w).world ∧
    flag_or_called w (species_step env do_all_species n w).world := by
  unfold species_step
  simp only [put_mem, put_disk, emit_mem, emit_disk]
  split
  · split
    · split
      · refine ⟨?_, Or.inl rfl⟩
        simp only [Step.world]
        repeat (first | exact Kept.here_kept _ | apply Kept.keep_emit | apply Kept.keep_put)
      · refine ⟨?_, Or.inl rfl⟩
        simp only [Step.world]
        repeat (first | exact Kept.here_kept _ | apply Kept.keep_emit | apply Kept.keep_put)
    · refine ⟨?_, Or.inl rfl⟩
      simp only [Step.world]
      repeat (first | exact Kept.here_kept _ | apply Kept.keep_emit | apply Kept.keep_put)
  · split
    · split
      · split
        · refine ⟨?_, Or.inl rfl⟩
          simp only [Step.world]
          repeat (first | exact Kept.here_kept _ | apply Kept.keep_emit | apply Kept.keep_put)
        · refine ⟨?_, Or.inl rfl⟩
          simp only [Step.world]
          repeat (first | exact Kept.here_kept _ | apply Kept.keep_emit | apply Kept.keep_put)
      · refine ⟨?_, Or.inl rfl⟩
        simp only [Step.world]
        repeat (first | exact Kept.here_kept _ | apply Kept.keep_emit | apply Kept.keep_put)
    · refine Kept2.both ⟨?_, Or.inl ?_⟩ (process_orders_kept env _ _ _)
      · repeat (first | exact Kept.here_kept _ | apply Kept.keep_emit | apply Kept.keep_put)
      · rfl

theorem species_loop_kept (env : Env) (do_all_species : Bool) (sp_num : List Int) :
    ∀ w : World, Kept w (species_loop env do_all_species sp_num w).world ∧
      flag_or_called w (species_loop env do_all_species sp_num w).world := by
  induction sp_num with
  | nil => intro w; exact ⟨Kept.here_kept w, Or.inl rfl⟩
  | cons n rest ih =>
    intro w
    have h := species_step_kept env do_all_species n w
    simp only [species_loop]
    split
    · rename_i code w1 hs
      rw [hs] at h
      exact h
    · rename_i w1 hs
      rw [hs] at h
      exact Kept2.both h (ih w1)

/-! ## The whole run -/

theorem step_event_run (fp : Bool) (e : Event) (h : step_event fp e) : run_event e := by
  cases fp
  · exact Or.inr (Or.inr h)
  · exact Or.inr (Or.inl h)

theorem start_pass_grow (env : Env) (w : World) :
    Grow housekeeping_event w (start_pass env w) := by
  unfold start_pass
  simp only [put_mem, emit_mem]
  split
  · repeat (first | exact Grow.here _ _ | apply Grow.then_emit | apply Grow.then_put)
    all_goals simp [housekeeping_event, controller_event, Event.durable]
  · repeat (first | exact Grow.here _ _ | apply Grow.then_emit | apply Grow.then_put)
    all_goals simp [housekeeping_event, controller_event, Event.durable]

theorem start_pass_first_pass (env : Env) (w : World) :
    (start_pass env w).mem.first_pass = w.mem.first_pass := by
  unfold start_pass
  simp only [put_mem, emit_mem]
  split <;> rfl

theorem start_pass_disk (env : Env) (w : World) : (start_pass env w).disk = w.disk := by
  unfold start_pass
  simp only [put_mem, emit_mem]
  split <;> rfl

theorem persist_grow (env : Env) (w : World) : Grow controller_event w (persist env w) := by
  unfold persist
  simp only [emit_mem]
  split
  · refine ⟨[.save_species_data, .free_species_data, .save_planet_data, .free_planet_base,
      .save_transaction_data], by simp [World.emit], ?_⟩
    intro e he
    simp at he
    rcases he with rfl | rfl | rfl | rfl | rfl <;> simp [controller_event]
  · refine ⟨[.save_species_data, .free_species_data, .free_planet_base,
      .save_transaction_data], by simp [World.emit], ?_⟩
    intro e he
    simp at he
    rcases he with rfl | rfl | rfl | rfl <;> simp [controller_event]

theorem commit_pass_grow (env : Env) (do_all_species : Bool) (sp_num : List Int) (w : World) :
    Grow run_event w (commit_pass env do_all_species sp_num w).world := by
  have g0 : Grow run_event w (start_pass env w) :=
    (start_pass_grow env w).mono (fun e h => Or.inl h.1)
  obtain ⟨g1, _, _⟩ := species_loop_ok env do_all_species sp_num (start_pass env w)
  have g1 := g1.mono (step_event_run _)
  unfold commit_pass
  split
  · rename_i code w1 h
    rw [h] at g1
    exact g0.andThen g1
  · rename_i w1 h
    rw [h] at g1
    exact (g0.andThen g1).andThen ((persist_grow env w1).mono (fun e h => Or.inl h))

theorem abort_gate_grow (env : Env) (w : World) :
    Grow housekeeping_event w (abort_gate env w).world := by
  unfold abort_gate
  simp only [put_mem, emit_mem]
  split
  · simp only [Step.world]
    repeat (first | exact Grow.here _ _ | apply Grow.then_emit | apply Grow.then_put)
    all_goals simp [housekeeping_event, controller_event, Event.durable]
  · simp only [Step.world]
    repeat (first | exact Grow.here _ _ | apply Grow.then_emit | apply Grow.then_put)
    all_goals simp [housekeeping_event, controller_event, Event.durable]

theorem passes_grow (env : Env) (do_all_species : Bool) (sp_num : List Int) (w : World) :
    Grow run_event w (passes env do_all_species sp_num w).world := by
  unfold passes
  split
  · have g0 : Grow run_event w (start_pass env w) :=
      (start_pass_grow env w).mono (fun e h => Or.inl h.1)
    obtain ⟨g1, _, _⟩ := species_loop_ok env do_all_species sp_num (start_pass env w)
    have g1 := g1.mono (step_event_run _)
    split
    · rename_i code w1 h
      rw [h] at g1
      exact g0.andThen g1
    · rename_i w1 h
      rw [h] at g1
      have g2 := (abort_gate_grow env w1).mono (fun e h => (Or.inl h.1 : run_event e))
      split
      · rename_i code w2 h2
        rw [h2] at g2
        exact (g0.andThen g1).andThen g2
      · rename_i w2 h2
        rw [h2] at g2
        exact ((g0.andThen g1).andThen g2).andThen (commit_pass_grow env do_all_species sp_num w2)
  · exact commit_pass_grow env do_all_species sp_num w

theorem main_events (env : Env) (argv : List String) (disk : Disk) :
    ∀ e ∈ (main env argv disk).world.trace, run_event e := by
  have h0 : ∀ e ∈ (startup env disk).trace, run_event e := by
    intro e he
    simp [startup] at he
    rcases he with rfl | rfl <;> exact Or.inl (by simp [controller_event])
  unfold main
  simp only []
  split
  · intro e he
    simp [Step.world] at he
    rcases he with he | rfl
    · exact h0 e he
    · exact Or.inl (by simp [controller_event])
  · rename_i sel hsel
    obtain ⟨new, hn, hp⟩ := passes_grow env sel.do_all_species sel.sp_num
      ((startup env disk).put { (startup env disk).mem with
        first_pass := sel.first_pass, test_mode := sel.test_mode, verbose_mode := sel.verbose_mode })
    intro e he
    rw [hn] at he
    rcases List.mem_append.mp he with h | h
    · exact h0 e h
    · exact hp e h

theorem engine_calls_ready (env : Env) (argv : List String) (disk : Disk) (m : Mem)
    (h : Event.do_production_orders m ∈ (main env argv disk).world.trace) : driver_ready m := by
  rcases main_events env argv disk _ h with h1 | h1 | h1
  · simp [controller_event] at h1
  · exact h1.1
  · exact h1.1

/-- C8: whenever the production engine is invoked in a run, in either pass, every
planet `i` in `[0, num_namplas)` of the current species has its four accumulators
at zero and its "done" flag FALSE, whatever was there before. -/
theorem C8_driver_resets_before_engine (env : Env) (argv : List String) (disk : Disk) (m : Mem)
    (h : Event.do_production_orders m ∈ (main env argv disk).world.trace) :
    m.nampla_base = m.species_index ∧
    ∀ i : Nat, (i : Int) < (m.fr.spec_data m.species_index).num_namplas →
      (m.fr.namp_data m.species_index i).auto_IUs = 0 ∧
      (m.fr.namp_data m.species_index i).auto_AUs = 0 ∧
      (m.fr.namp_data m.species_index i).IUs_needed = 0 ∧
      (m.fr.namp_data m.species_index i).AUs_needed = 0 ∧
      m.fr.production_done i = false := by
  obtain ⟨_, h2, h3, _, _⟩ := engine_calls_ready env argv disk m h
  refine ⟨h2, fun i hi => ?_⟩
  obtain ⟨a, b, c, d, e⟩ := h3 i hi
  exact ⟨b, c, d, e, a⟩

theorem first_call_mem (trace : List Event)
    (h : trace.find? (fun e => match e with | .do_production_orders _ => true | _ => false)
      = some (.do_production_orders (first_call trace))) :
    Event.do_production_orders (first_call trace) ∈ trace :=
  List.mem_of_find?_eq_some h

theorem C8_driver_resets_before_engine_witness :
    Event.do_production_orders (first_call demo_run.world.trace) ∈ demo_run.world.trace ∧
    ((first_call demo_run.world.trace).fr.spec_data
      (first_call demo_run.world.trace).species_index).num_namplas = 2 ∧
    (demo_store.namp_data 0 1).auto_IUs = 5 ∧
    ((first_call demo_run.world.trace).nampla_base = (first_call demo_run.world.trace).species_index ∧
    ∀ i : Nat, (i : Int) < ((first_call demo_run.world.trace).fr.spec_data
        (first_call demo_run.world.trace).species_index).num_namplas →
      ((first_call demo_run.world.trace).fr.namp_data
        (first_call demo_run.world.trace).species_index i).auto_IUs = 0 ∧
      ((first_call demo_run.world.trace).fr.namp_data
        (first_call demo_run.world.trace).species_index i).auto_AUs = 0 ∧
      ((first_call demo_run.world.trace).fr.namp_data
        (first_call demo_run.world.trace).species_index i).IUs_needed = 0 ∧
      ((first_call demo_run.world.trace).fr.namp_data
        (first_call demo_run.world.trace).species_index i).AUs_needed = 0 ∧
      (first_call demo_run.world.trace).fr.production_done i = false) :=
  ⟨first_call_mem _ rfl, rfl, rfl,
   C8_driver_resets_before_engine demo_env ["fhprod", "-p"] demo_disk _ (first_call_mem _ rfl)⟩

theorem returned_next_mem {w w1 : World} {r : CallResult} (h : w.returned r = .next w1) :
    w1.mem = { w.mem with fr := r.fr } ∧ r.exit = none := by
  have hm := (returned_spec w r).2.1
  rw [h] at hm
  refine ⟨hm, ?_⟩
  unfold World.returned at h
  cases he : r.exit
  · rfl
  · rw [he] at h
    cases h

theorem drain_intercepts_spec_data (env : Env)
    (hres : ∀ i m, (env.handle_intercept i m).fr.spec_data = m.fr.spec_data) (fuel : Nat) :
    ∀ (i : Int) (w : World),
      (drain_intercepts env fuel i w).world.mem.fr.spec_data = w.mem.fr.spec_data := by
  induction fuel with
  | zero => intro i w; rfl
  | succ n ih =>
    intro i w
    simp only [drain_intercepts]
    split
    · have hm := (returned_spec (w.emit (.handle_intercept i)) (env.handle_intercept i w.mem)).2.1
      split
      · rename_i code w1 h
        rw [h] at hm
        simp only [Step.world] at hm ⊢
        rw [hm]
        exact hres i w.mem
      · rename_i w1 h
        rw [h] at hm
        simp only [Step.world] at hm
        rw [ih (i + 1) w1, hm]
        exact hres i w.mem
    · rfl

/-- C9: when the driver runs to its end for the species `species`, the engine
was invoked on a state whose six working tech levels equal the stored ones, the
stored record having been left alone until then; afterwards each stored level
`i < 6` holds what the engine left in `sp_tech_level[i]`; and an engine that
leaves the working levels and the stored records alone leaves the stored records
as they were.  (The intercept resolver is taken not to write species records.) -/
theorem C9_tech_level_snapshot_and_copy_back (env : Env) (w w1 : World)
    (hres : ∀ i m, (env.handle_intercept i m).fr.spec_data = m.fr.spec_data)
    (hrun : driver env w = .next w1) :
    Event.do_production_orders (driver_init w.mem) ∈ w1.trace ∧
    (driver_init w.mem).fr.spec_data = w.mem.fr.spec_data ∧
    (∀ i : Nat, i < 6 →
      (driver_init w.mem).fr.sp_tech_level i = (w.mem.fr.spec_data w.mem.species).tech_level i) ∧
    (∀ i : Nat, i < 6 →
      (w1.mem.fr.spec_data w.mem.species).tech_level i
        = (env.do_production_orders (driver_init w.mem)).fr.sp_tech_level i) ∧
    ((∀ i : Nat, i < 6 → (env.do_production_orders (driver_init w.mem)).fr.sp_tech_level i
        = (driver_init w.mem).fr.sp_tech_level i) →
      (env.do_production_orders (driver_init w.mem)).fr.spec_data = (driver_init w.mem).fr.spec_data →
      w1.mem.fr.spec_data = w.mem.fr.spec_data) := by
  have hov : ¬ (w.mem.fr.spec_data w.mem.species).num_namplas > 1000 := by
    intro hov
    unfold driver at hrun
    rw [if_pos hov] at hrun
    cases hrun
  have hcall := (driver_kept env w).2 hov
  rw [hrun] at hcall
  have hinit : (driver_init w.mem).fr.spec_data = w.mem.fr.spec_data := by rw [driver_init_eq]
  have hsnap : ∀ i : Nat, i < 6 →
      (driver_init w.mem).fr.sp_tech_level i = (w.mem.fr.spec_data w.mem.species).tech_level i := by
    intro i hi
    rw [driver_init_eq]
    simp [hi]
  have hsp : (driver_init w.mem).species = w.mem.species := (driver_init_same_ctl w.mem).pointer
  -- the state the driver ends in
  have hfinal : w1.mem.fr.spec_data =
      store (env.do_production_orders (driver_init w.mem)).fr.spec_data w.mem.species
        { (env.do_production_orders (driver_init w.mem)).fr.spec_data w.mem.species with
          tech_level := fun j =>
            if j < 6 then (env.do_production_orders (driver_init w.mem)).fr.sp_tech_level j
            else ((env.do_production_orders (driver_init w.mem)).fr.spec_data w.mem.species).tech_level j } := by
    unfold driver at hrun
    rw [if_neg hov] at hrun
    simp only [put_mem] at hrun
    split at hrun
    · cases hrun
    · rename_i w2 h2
      obtain ⟨hm2, _⟩ := returned_next_mem h2
      have hd := drain_intercepts_spec_data env hres 2147483648 0 (w2.put (copy_back_tech_level w2.mem))
      split at hrun
      · cases hrun
      · rename_i w4 h4
        rw [h4] at hd
        simp only [Step.world, put_mem] at hd
        cases hrun
        have h5 : (driver_finish w4).mem.fr.spec_data = w4.mem.fr.spec_data := by
          unfold driver_finish
          simp only [put_mem]
          split <;> rfl
        rw [h5, hd, copy_back_tech_level_eq, hm2]
        simp only [emit_mem, put_mem]
        rw [hsp]
  refine ⟨hcall, hinit, hsnap, ?_, ?_⟩
  · intro i hi
    rw [hfinal]
    simp [store, hi]
  · intro hw hs
    rw [hfinal, hs, hinit]
    funext s
    by_cases hss : s = w.mem.species
    · subst hss
      simp only [store, if_true]
      have : (fun j => if j < 6 then (env.do_production_orders (driver_init w.mem)).fr.sp_tech_level j
          else (w.mem.fr.spec_data w.mem.species).tech_level j) = (w.mem.fr.spec_data w.mem.species).tech_level := by
        funext j
        by_cases hj : j < 6
        · simp only [hj, if_true]
          rw [hw j hj, hsnap j hj]
        · simp only [hj, if_false]
      rw [this]
    · simp [store, hss]

theorem main_of_select_ok (env : Env) (argv : List String) (disk : Disk) (sel : Selection)
    (h : select (env.get_galaxy_data disk) argv = .ok sel) :
    main env argv disk = passes env sel.do_all_species sel.sp_num (selected_world env disk sel) := by
  simp only [main]
  have hN : (startup env disk).mem.galaxy_num_species = env.get_galaxy_data disk := rfl
  rw [hN, h]
  rfl

theorem main_of_select_error (env : Env) (argv : List String) (disk : Disk) (bad : String)
    (h : select (env.get_galaxy_data disk) argv = .error bad) :
    main env argv disk = .exit (-1) ((startup env disk).emit
      (.eprintf ("\n    '" ++ bad ++ "' is not a valid argument!\n"))) := by
  simp only [main]
  have hN : (startup env disk).mem.galaxy_num_species = env.get_galaxy_data disk := rfl
  rw [hN, h]

theorem select_flags (N : Int) (argv : List String) (sel : Selection) (h : select N argv = .ok sel) :
    sel.first_pass = decide ("-p" ∈ argv.tail) ∧
    sel.do_all_species = decide ((positional argv).map atoi = []) ∧
    sel.sp_num = (if (positional argv).map atoi = [] then all_species N else (positional argv).map atoi) ∧
    ∀ arg ∈ positional argv, in_population N (atoi arg) := by
  by_cases hv : ∀ arg ∈ positional argv, in_population N (atoi arg)
  · rw [select_ok N argv hv] at h
    cases h
    exact ⟨rfl, rfl, rfl, hv⟩
  · push_neg at hv
    obtain ⟨bad, hb, _, _⟩ := select_error N argv hv
    rw [hb] at h
    cases h

theorem abort_gate_next (env : Env) (w w2 : World) (h : abort_gate env w = .next w2) :
    env.gamemaster_abort_option = none ∧
    w2.trace = w.trace ++ [.printf "\nFinal chance to abort safely!\n", .gamemaster_abort_option,
      .free_species_data, .free_star_base, .free_planet_base, .printf "\nStarting second pass...\n\n"] ∧
    w2.disk = w.disk ∧ w2.mem = { w.mem with first_pass := false } := by
  unfold abort_gate at h
  simp only [put_mem, emit_mem] at h
  split at h
  · cases h
  · rename_i hn
    cases h
    exact ⟨hn, by simp [World.emit, World.put], rfl, rfl⟩

theorem abort_gate_exit (env : Env) (w w2 : World) (code : Int) (h : abort_gate env w = .exit code w2) :
    env.gamemaster_abort_option = some code ∧
    w2.trace = w.trace ++ [.printf "\nFinal chance to abort safely!\n", .gamemaster_abort_option] ∧
    w2.disk = w.disk := by
  unfold abort_gate at h
  simp only [put_mem, emit_mem] at h
  split at h
  · rename_i c hc
    cases h
    exact ⟨hc, by simp [World.emit], rfl⟩
  · cases h

theorem step_event_quiet (e : Event) (h : step_event true e) : e.durable = false := by
  cases e <;> simp_all [step_event, Event.durable]

theorem step_event_not_save (fp : Bool) (e : Event) (h : step_event fp e) : e.is_save = false := by
  cases e <;> simp_all [step_event, Event.is_save]

theorem save_is_durable (e : Event) (h : e.durable = false) : e.is_save = false := by
  cases e <;> simp_all [Event.durable, Event.is_save]

theorem Grow.forall {P : Event → Prop} {Q : Event → Prop} {w w1 : World} (h : Grow P w w1)
    (hw : ∀ e ∈ w.trace, Q e) (hpq : ∀ e, P e → Q e) : ∀ e ∈ w1.trace, Q e := by
  obtain ⟨new, hn, hp⟩ := h
  intro e he
  rw [hn] at he
  rcases List.mem_append.mp he with h1 | h1
  · exact hw e h1
  · exact hpq e (hp e h1)

/-- What the first pass leaves: nothing durable has been done, the files are as
they were and the pass flag is still set. -/
theorem validate_quiet (env : Env) (do_all_species : Bool) (sp_num : List Int) (w : World)
    (hp : w.mem.first_pass = true) (hq : ∀ e ∈ w.trace, e.durable = false) :
    (∀ e ∈ (species_loop env do_all_species sp_num (start_pass env w)).world.trace, e.durable = false) ∧
    (species_loop env do_all_species sp_num (start_pass env w)).world.disk = w.disk ∧
    (species_loop env do_all_species sp_num (start_pass env w)).world.mem.first_pass = true := by
  have g0 := start_pass_grow env w
  have f0 : (start_pass env w).mem.first_pass = true := (start_pass_first_pass env w).trans hp
  obtain ⟨g1, f1, d1⟩ := species_loop_ok env do_all_species sp_num (start_pass env w)
  rw [f0] at g1 f1 d1
  refine ⟨?_, (d1 rfl).trans (start_pass_disk env w), f1⟩
  exact g1.forall (g0.forall hq (fun e h => h.2)) step_event_quiet

theorem startup_quiet (env : Env) (disk : Disk) (sel : Selection) :
    ∀ e ∈ (selected_world env disk sel).trace, e.durable = false := by
  intro e he
  simp [selected_world, startup] at he
  rcases he with rfl | rfl <;> rfl

theorem guarded_append (a b : List Event) (ha : ∀ e ∈ a, e.durable = false) :
    ∀ (pre : List Event) (e : Event) (post : List Event),
      a ++ Event.gamemaster_abort_option :: b = pre ++ e :: post → e.durable = true →
      Event.gamemaster_abort_option ∈ pre := by
  induction a with
  | nil =>
    intro pre e post h hd
    cases pre with
    | nil =>
      simp at h
      rw [← h.1] at hd
      simp [Event.durable] at hd
    | cons x pre1 =>
      simp at h
      simp [h.1]
  | cons y a1 ih =>
    intro pre e post h hd
    cases pre with
    | nil =>
      simp at h
      have := ha y (by simp)
      rw [h.1] at this
      rw [this] at hd
      cases hd
    | cons x pre1 =>
      simp at h
      have := ih (fun e he => ha e (by simp [he])) pre1 e post h.2 hd
      simp [this]

theorem guarded_quiet (t : List Event) (ht : ∀ e ∈ t, e.durable = false) :
    ∀ (pre : List Event) (e : Event) (post : List Event),
      t = pre ++ e :: post → e.durable = true → Event.gamemaster_abort_option ∈ pre := by
  intro pre e post h hd
  have := ht e (by rw [h]; simp)
  rw [this] at hd
  cases hd

/-- C1: in a run invoked with -p every durable write (a save, an open of a log
file for appending, text sent to a log file) comes after the operator
confirmation; and when the operator aborts there, the run ends without any
durable write and with the files as they were. -/
theorem C1_no_write_before_confirmation (env : Env) (argv : List String) (disk : Disk)
    (hp : "-p" ∈ argv.tail) :
    (∀ (pre : List Event) (e : Event) (post : List Event),
      (main env argv disk).world.trace = pre ++ e :: post → e.durable = true →
      Event.gamemaster_abort_option ∈ pre) ∧
    (∀ code, env.gamemaster_abort_option = some code →
      (∀ e ∈ (main env argv disk).world.trace, e.durable = false) ∧
      (main env argv disk).world.disk = disk) := by
  cases hsel : select (env.get_galaxy_data disk) argv with
  | error bad =>
    rw [main_of_select_error env argv disk bad hsel]
    have hq : ∀ e ∈ ((startup env disk).emit
        (.eprintf ("\n    '" ++ bad ++ "' is not a valid argument!\n"))).trace, e.durable = false := by
      intro e he
      simp [startup] at he
      rcases he with rfl | rfl | rfl <;> rfl
    exact ⟨guarded_quiet _ hq, fun _ _ => ⟨hq, rfl⟩⟩
  | ok sel =>
    rw [main_of_select_ok env argv disk sel hsel]
    have hfp : (selected_world env disk sel).mem.first_pass = true := by
      have := (select_flags _ argv sel hsel).1
      simp [selected_world, this, hp]
    obtain ⟨q1, d1, f1⟩ := validate_quiet env sel.do_all_species sel.sp_num
      (selected_world env disk sel) hfp (startup_quiet env disk sel)
    have hd0 : (selected_world env disk sel).disk = disk := rfl
    unfold passes
    rw [if_pos hfp]
    split
    · rename_i code w1 h
      rw [h] at q1 d1
      exact ⟨guarded_quiet _ q1, fun _ _ => ⟨q1, d1.trans hd0⟩⟩
    · rename_i w1 h
      rw [h] at q1 d1
      simp only [Step.world] at q1 d1
      split
      · rename_i code w2 h2
        obtain ⟨_, t2, d2⟩ := abort_gate_exit env w1 w2 code h2
        have q2 : ∀ e ∈ w2.trace, e.durable = false := by
          intro e he
          rw [t2] at he
          simp at he
          rcases he with he | rfl | rfl
          · exact q1 e he
          · rfl
          · rfl
        exact ⟨guarded_quiet _ q2, fun _ _ => ⟨q2, (d2.trans d1).trans hd0⟩⟩
      · rename_i w2 h2
        obtain ⟨hnone, t2, _, _⟩ := abort_gate_next env w1 w2 h2
        obtain ⟨new, hn, _⟩ := commit_pass_grow env sel.do_all_species sel.sp_num w2
        refine ⟨?_, fun code hc => ?_⟩
        · rw [hn, t2]
          simp only [List.append_assoc, List.cons_append, List.nil_append]
          have := guarded_append (w1.trace ++ [.printf "\nFinal chance to abort safely!\n"])
            ([.free_species_data, .free_star_base, .free_planet_base,
              .printf "\nStarting second pass...\n\n"] ++ new) (by
              intro e he
              simp at he
              rcases he with he | rfl
              · exact q1 e he
              · rfl)
          simpa using this
        · rw [hnone] at hc
          cases hc

theorem C1_no_write_before_confirmation_witness :
    (demo_run.world.trace.any Event.durable = true ∧
     (main demo_env_abort ["fhprod", "-p"] demo_disk).code = some 0) ∧
    ((∀ (pre : List Event) (e : Event) (post : List Event),
      (main demo_env_abort ["fhprod", "-p"] demo_disk).world.trace = pre ++ e :: post →
      e.durable = true → Event.gamemaster_abort_option ∈ pre) ∧
    (∀ code, demo_env_abort.gamemaster_abort_option = some code →
      (∀ e ∈ (main demo_env_abort ["fhprod", "-p"] demo_disk).world.trace, e.durable = false) ∧
      (main demo_env_abort ["fhprod", "-p"] demo_disk).world.disk = demo_disk)) :=
  ⟨by decide, C1_no_write_before_confirmation demo_env_abort ["fhprod", "-p"] demo_disk (by decide)⟩

theorem start_pass_galaxy (env : Env) (w : World) :
    (start_pass env w).mem.galaxy = fresh_load env w.disk := by
  unfold start_pass
  simp only [put_mem, emit_mem]
  split <;> rfl

theorem start_pass_flag (env : Env) (w : World) :
    (start_pass env w).mem.fr.planet_data_modified = w.mem.fr.planet_data_modified := by
  unfold start_pass
  simp only [put_mem, emit_mem]
  split <;> rfl

theorem Grow.mem_trace {P : Event → Prop} {w w1 : World} (h : Grow P w w1) {e : Event}
    (he : e ∈ w.trace) : e ∈ w1.trace := by
  obtain ⟨n, en, _⟩ := h
  rw [en]
  exact List.mem_append_left _ he

theorem flag_or_called.step {w w1 w2 : World} (h1 : flag_or_called w w1) (h2 : flag_or_called w1 w2)
    (hext : ∀ e ∈ w1.trace, e ∈ w2.trace) : flag_or_called w w2 := by
  rcases h2 with f2 | ⟨m, hm⟩
  · rcases h1 with f1 | ⟨m, hm⟩
    · exact Or.inl (f2.trans f1)
    · exact Or.inr ⟨m, hext _ hm⟩
  · exact Or.inr ⟨m, hm⟩

theorem persist_trace (env : Env) (w : World) :
    (persist env w).trace = w.trace ++ (.save_species_data :: .free_species_data ::
      ((if w.mem.fr.planet_data_modified then [Event.save_planet_data] else []) ++
        [.free_planet_base, .save_transaction_data])) := by
  unfold persist
  simp only [emit_mem]
  split
  · rename_i h
    simp [World.emit, h]
  · rename_i h
    simp [World.emit, h]

theorem persist_saves (env : Env) (w : World) (hq : ∀ e ∈ w.trace, e.is_save = false) :
    (persist env w).trace.filter Event.is_save = .save_species_data ::
      ((if w.mem.fr.planet_data_modified then [Event.save_planet_data] else []) ++
        [.save_transaction_data]) := by
  rw [persist_trace, List.filter_append]
  have h0 : w.trace.filter Event.is_save = [] := by
    rw [List.filter_eq_nil_iff]
    intro e he
    simp [hq e he]
  rw [h0]
  split <;> simp [List.filter, Event.is_save]

/-- The pass that commits either ends inside its species loop, without a save,
or reaches the persistence gate in the state `wg` its loop ended in. -/
theorem commit_pass_gate (env : Env) (do_all_species : Bool) (sp_num : List Int) (w : World)
    (hq : ∀ e ∈ w.trace, e.is_save = false) :
    (∀ e ∈ (commit_pass env do_all_species sp_num w).world.trace, e.is_save = false) ∨
    ∃ wg, species_loop env do_all_species sp_num (start_pass env w) = .next wg ∧
      commit_pass env do_all_species sp_num w = .exit 0 (persist env wg) ∧
      (∀ e ∈ wg.trace, e.is_save = false) ∧ flag_or_called w wg ∧
      (∀ e ∈ w.trace, e ∈ wg.trace) := by
  have g0 := start_pass_grow env w
  obtain ⟨g1, _, _⟩ := species_loop_ok env do_all_species sp_num (start_pass env w)
  obtain ⟨k1, c1⟩ := species_loop_kept env do_all_species sp_num (start_pass env w)
  have q1 := g1.forall (g0.forall hq (fun e h => save_is_durable e h.2)) (step_event_not_save _)
  unfold commit_pass
  split
  · rename_i code w1 h
    rw [h] at q1
    exact Or.inl q1
  · rename_i w1 h
    rw [h] at q1 c1 g1
    refine Or.inr ⟨w1, h, rfl, q1, ?_, fun e he => g1.mem_trace (g0.mem_trace he)⟩
    exact flag_or_called.step (Or.inl (start_pass_flag env w)) c1 (fun e he => g1.mem_trace he)

/-- A run either performs no save at all, or its last species loop, started from
files equal to those of the start, completed and the persistence gate ran in the
state `wg` that loop ended in. -/
theorem passes_gate (env : Env) (do_all_species : Bool) (sp_num : List Int) (w : World)
    (hq : ∀ e ∈ w.trace, e.durable = false) :
    (∀ e ∈ (passes env do_all_species sp_num w).world.trace, e.is_save = false) ∨
    ∃ w2 wg, w2.disk = w.disk ∧
      species_loop env do_all_species sp_num (start_pass env w2) = .next wg ∧
      passes env do_all_species sp_num w = .exit 0 (persist env wg) ∧
      (∀ e ∈ wg.trace, e.is_save = false) ∧ flag_or_called w wg := by
  unfold passes
  split
  · rename_i hfp
    obtain ⟨q1, d1, _⟩ := validate_quiet env do_all_species sp_num w hfp hq
    obtain ⟨k1, c1⟩ := species_loop_kept env do_all_species sp_num (start_pass env w)
    split
    · rename_i code w1 h
      rw [h] at q1
      exact Or.inl (fun e he => save_is_durable e (q1 e he))
    · rename_i w1 h
      rw [h] at q1 d1 c1 k1
      simp only [Step.world] at q1 d1 c1 k1
      have c1 : flag_or_called w w1 :=
        flag_or_called.step (Or.inl (start_pass_flag env w)) c1 (fun e he => k1.trace_mem he)
      split
      · rename_i code w2 h2
        obtain ⟨_, t2, _⟩ := abort_gate_exit env w1 w2 code h2
        left
        intro e he
        simp only [Step.world] at he
        rw [t2] at he
        simp at he
        rcases he with he | rfl | rfl
        · exact save_is_durable e (q1 e he)
        · rfl
        · rfl
      · rename_i w2 h2
        obtain ⟨_, t2, d2, m2⟩ := abort_gate_next env w1 w2 h2
        have q2 : ∀ e ∈ w2.trace, e.is_save = false := by
          intro e he
          rw [t2] at he
          simp at he
          rcases he with he | rfl | rfl | rfl | rfl | rfl | rfl
          · exact save_is_durable e (q1 e he)
          all_goals rfl
        rcases commit_pass_gate env do_all_species sp_num w2 q2 with hno | ⟨wg, hl, hc, hqg, hfc, hsub⟩
        · exact Or.inl hno
        · refine Or.inr ⟨w2, wg, d2.trans d1, hl, hc, hqg, ?_⟩
          have c2 : flag_or_called w1 w2 := Or.inl (by rw [m2])
          refine flag_or_called.step (flag_or_called.step c1 c2 ?_) hfc hsub
          intro e he
          rw [t2]
          exact List.mem_append_left _ he
  · rcases commit_pass_gate env do_all_species sp_num w
      (fun e he => save_is_durable e (hq e he)) with hno | ⟨wg, hl, hc, hqg, hfc, _⟩
    · exact Or.inl hno
    · exact Or.inr ⟨w, wg, rfl, hl, hc, hqg, hfc⟩

/-- C7: a run either never reaches the persistence gate and performs no save, or
reaches it in a state `wg` and then performs, in this order, exactly one
`save_species_data`, one `save_planet_data` if and only if `planet_data_modified`
is set in `wg`, and exactly one `save_transaction_data`; and when the engine was
never invoked in the run the flag is clear, so no planet data is saved. -/
theorem C7_persistence_gate (env : Env) (argv : List String) (disk : Disk) :
    (main env argv disk).world.trace.filter Event.is_save = [] ∨
    ∃ wg, main env argv disk = .exit 0 (persist env wg) ∧
      (main env argv disk).world.trace.filter Event.is_save =
        .save_species_data ::
          ((if wg.mem.fr.planet_data_modified then [Event.save_planet_data] else []) ++
            [.save_transaction_data]) ∧
      ((∀ m, Event.do_production_orders m ∉ (main env argv disk).world.trace) →
        wg.mem.fr.planet_data_modified = false ∧
        (main env argv disk).world.trace.filter Event.is_save
          = [.save_species_data, .save_transaction_data]) := by
  cases hsel : select (env.get_galaxy_data disk) argv with
  | error bad =>
    left
    rw [main_of_select_error env argv disk bad hsel]
    simp [Step.world, startup, List.filter, Event.is_save]
  | ok sel =>
    rw [main_of_select_ok env argv disk sel hsel]
    rcases passes_gate env sel.do_all_species sel.sp_num (selected_world env disk sel)
      (startup_quiet env disk sel) with hno | ⟨w2, wg, _, _, hc, hqg, hfc⟩
    · left
      rw [List.filter_eq_nil_iff]
      intro e he
      simp [hno e he]
    · right
      refine ⟨wg, hc, ?_, ?_⟩
      · rw [hc]
        exact persist_saves env wg hqg
      · intro hnc
        have hflag : wg.mem.fr.planet_data_modified = false := by
          rcases hfc with hf | ⟨m, hm⟩
          · rw [hf]
            rfl
          · exfalso
            apply hnc m
            rw [hc]
            simp only [Step.world, persist_trace]
            exact List.mem_append_left _ hm
        refine ⟨hflag, ?_⟩
        rw [hc]
        simp only [Step.world]
        rw [persist_saves env wg hqg, hflag]
        rfl

theorem C7_persistence_gate_witness :
    ((demo_run.world.trace.filter Event.is_save).length = 3 ∧
     ((main demo_env ["fhprod", "3"] demo_disk).world.trace.filter Event.is_save).length = 2) ∧
    ((main demo_env ["fhprod", "3"] demo_disk).world.trace.filter Event.is_save = [] ∨
    ∃ wg, main demo_env ["fhprod", "3"] demo_disk = .exit 0 (persist demo_env wg) ∧
      (main demo_env ["fhprod", "3"] demo_disk).world.trace.filter Event.is_save =
        .save_species_data ::
          ((if wg.mem.fr.planet_data_modified then [Event.save_planet_data] else []) ++
            [.save_transaction_data]) ∧
      ((∀ m, Event.do_production_orders m ∉ (main demo_env ["fhprod", "3"] demo_disk).world.trace) →
        wg.mem.fr.planet_data_modified = false ∧
        (main demo_env ["fhprod", "3"] demo_disk).world.trace.filter Event.is_save
          = [.save_species_data, .save_transaction_data])) :=
  ⟨by decide, C7_persistence_gate demo_env ["fhprod", "3"] demo_disk⟩

theorem species_step_missing (env : Env) (n : Int) (w : World)
    (hmiss : w.mem.data_in_memory (n - 1) = false ∨ w.disk.ord (ord_filename n) = none) :
    (∃ w1, species_step env true n w = .next w1 ∧ w1.mem.fr = w.mem.fr ∧ w1.disk = w.disk) ∧
    (∃ w1, species_step env false n w = .exit (-1) w1 ∧ w1.mem.fr = w.mem.fr ∧ w1.disk = w.disk) := by
  by_cases hd : w.mem.data_in_memory (n - 1) = false
  · constructor
    · unfold species_step
      simp only [put_mem, hd, Bool.not_false, if_true]
      by_cases hf : w.mem.first_pass = true
      · simp only [hf, if_true]
        exact ⟨_, rfl, rfl, rfl⟩
      · simp only [hf, if_false]
        exact ⟨_, rfl, rfl, rfl⟩
    · unfold species_step
      simp only [put_mem, hd, Bool.not_false, if_true]
      exact ⟨_, rfl, rfl, rfl⟩
  · have hd1 : w.mem.data_in_memory (n - 1) = true := by simpa using hd
    have ho : w.disk.ord (ord_filename n) = none := by
      rcases hmiss with h | h
      · exact absurd h hd
      · exact h
    constructor
    · unfold species_step
      simp only [put_mem, put_disk, hd1, Bool.not_true, Bool.false_eq_true, if_false, ho, emit_mem]
      by_cases hf : w.mem.first_pass = true
      · simp only [hf, if_true]
        exact ⟨_, rfl, rfl, rfl⟩
      · simp only [hf, if_false]
        exact ⟨_, rfl, rfl, rfl⟩
    · unfold species_step
      simp only [put_mem, put_disk, hd1, Bool.not_true, Bool.false_eq_true, if_false, ho]
      exact ⟨_, rfl, rfl, rfl⟩

theorem species_loop_explicit_exit (env : Env) (sp_num : List Int) :
    ∀ w : World,
      (∃ p ∈ sp_num, w.mem.data_in_memory (p - 1) = false ∨ w.disk.ord (ord_filename p) = none) →
      ∃ code w1, species_loop env false sp_num w = .exit code w1 := by
  induction sp_num with
  | nil => intro w h; simp at h
  | cons n rest ih =>
    intro w h
    simp only [species_loop]
    obtain ⟨k, _⟩ := species_step_kept env false n w
    split
    · exact ⟨_, _, rfl⟩
    · rename_i w1 hs
      rw [hs] at k
      obtain ⟨_, kd, ko, _⟩ := k
      obtain ⟨p, hp, hpm⟩ := h
      rcases List.mem_cons.mp hp with rfl | hrest
      · obtain ⟨w2, h2, _⟩ := (species_step_missing env p w hpm).2
        rw [h2] at hs
        cases hs
      · apply ih w1
        refine ⟨p, hrest, ?_⟩
        simp only [Step.world] at kd ko
        rw [kd, ko]
        exact hpm

/-- C4: when the loop reaches a selected player `n` that has no data in memory
or whose order file cannot be opened, then in process-all mode the player is
skipped with the records and files untouched and the loop goes on with the next
player, while in explicit-selection mode the run ends there with exit status -1;
and a run in explicit-selection mode that names such a player calls none of
`save_species_data`, `save_planet_data`, `save_transaction_data`. -/
theorem C4_missing_data_or_order_file (env : Env) (n : Int) (rest : List Int) (w : World)
    (hmiss : w.mem.data_in_memory (n - 1) = false ∨ w.disk.ord (ord_filename n) = none) :
    (∃ w1, species_step env true n w = .next w1 ∧ w1.mem.fr = w.mem.fr ∧ w1.disk = w.disk ∧
      species_loop env true (n :: rest) w = species_loop env true rest w1) ∧
    (∃ w1, species_step env false n w = .exit (-1) w1 ∧ w1.mem.fr = w.mem.fr ∧ w1.disk = w.disk ∧
      species_loop env false (n :: rest) w = .exit (-1) w1) ∧
    (∀ (argv : List String) (disk : Disk) (sel : Selection),
      select (env.get_galaxy_data disk) argv = .ok sel → sel.do_all_species = false →
      (∃ p ∈ sel.sp_num, (env.get_species_data disk).data_in_memory (p - 1) = false ∨
        disk.ord (ord_filename p) = none) →
      ∀ e ∈ (main env argv disk).world.trace, e.is_save = false) := by
  obtain ⟨⟨wa, ha, fa, da⟩, ⟨wb, hb, fb, db⟩⟩ := species_step_missing env n w hmiss
  refine ⟨⟨wa, ha, fa, da, by simp only [species_loop, ha]⟩,
    ⟨wb, hb, fb, db, by simp only [species_loop, hb]⟩, ?_⟩
  intro argv disk sel hsel hexp hbad
  rw [main_of_select_ok env argv disk sel hsel]
  rcases passes_gate env sel.do_all_species sel.sp_num (selected_world env disk sel)
    (startup_quiet env disk sel) with hno | ⟨w2, wg, hd2, hl, _, _, _⟩
  · exact hno
  · exfalso
    rw [hexp] at hl
    have hdisk : (start_pass env w2).disk = disk := (start_pass_disk env w2).trans hd2
    have hgal := start_pass_galaxy env w2
    have hdim : (start_pass env w2).mem.data_in_memory = (env.get_species_data disk).data_in_memory := by
      have := congrArg Galaxy.data_in_memory hgal
      rw [hd2] at this
      exact this
    obtain ⟨code, w3, h3⟩ := species_loop_explicit_exit env sel.sp_num (start_pass env w2) (by
      obtain ⟨p, hp, hpm⟩ := hbad
      exact ⟨p, hp, by rw [hdim, hdisk]; exact hpm⟩)
    rw [h3] at hl
    cases hl

theorem C4_missing_data_or_order_file_witness :
    (demo_run.code = some 0 ∧ (main demo_env ["fhprod", "-p", "1", "2"] demo_disk).code = some (-1)) ∧
    ((∃ w1, species_step demo_env true 2 demo_loaded = .next w1 ∧ w1.mem.fr = demo_loaded.mem.fr ∧
      w1.disk = demo_loaded.disk ∧
      species_loop demo_env true (2 :: [3]) demo_loaded = species_loop demo_env true [3] w1) ∧
    (∃ w1, species_step demo_env false 2 demo_loaded = .exit (-1) w1 ∧
      w1.mem.fr = demo_loaded.mem.fr ∧ w1.disk = demo_loaded.disk ∧
      species_loop demo_env false (2 :: [3]) demo_loaded = .exit (-1) w1) ∧
    (∀ (argv : List String) (disk : Disk) (sel : Selection),
      select (demo_env.get_galaxy_data disk) argv = .ok sel → sel.do_all_species = false →
      (∃ p ∈ sel.sp_num, (demo_env.get_species_data disk).data_in_memory (p - 1) = false ∨
        disk.ord (ord_filename p) = none) →
      ∀ e ∈ (main demo_env argv disk).world.trace, e.is_save = false)) :=
  ⟨by decide, C4_missing_data_or_order_file demo_env 2 [3] demo_loaded (Or.inl (by decide))⟩

theorem C9_tech_level_snapshot_and_copy_back_witness :
    (driver demo_env demo_driver_world = .next demo_driver_end ∧
     (demo_driver_world.mem.fr.spec_data 0).tech_level 0 = 10 ∧
     demo_driver_world.mem.fr.sp_tech_level 0 = 99 ∧
     (demo_driver_end.mem.fr.spec_data 0).tech_level 0 = 11) ∧
    (Event.do_production_orders (driver_init demo_driver_world.mem) ∈ demo_driver_end.trace ∧
    (driver_init demo_driver_world.mem).fr.spec_data = demo_driver_world.mem.fr.spec_data ∧
    (∀ i : Nat, i < 6 →
      (driver_init demo_driver_world.mem).fr.sp_tech_level i
        = (demo_driver_world.mem.fr.spec_data demo_driver_world.mem.species).tech_level i) ∧
    (∀ i : Nat, i < 6 →
      (demo_driver_end.mem.fr.spec_data demo_driver_world.mem.species).tech_level i
        = (demo_env.do_production_orders (driver_init demo_driver_world.mem)).fr.sp_tech_level i) ∧
    ((∀ i : Nat, i < 6 →
        (demo_env.do_production_orders (driver_init demo_driver_world.mem)).fr.sp_tech_level i
        = (driver_init demo_driver_world.mem).fr.sp_tech_level i) →
      (demo_env.do_production_orders (driver_init demo_driver_world.mem)).fr.spec_data
        = (driver_init demo_driver_world.mem).fr.spec_data →
      demo_driver_end.mem.fr.spec_data = demo_driver_world.mem.fr.spec_data)) :=
  ⟨⟨rfl, by decide, by decide, by decide⟩,
   C9_tech_level_snapshot_and_copy_back demo_env demo_driver_world demo_driver_end
     (fun _ _ => rfl) rfl⟩

/-! ## Paths through one iteration -/

theorem species_step_scanned (env : Env) (d : Bool) (n : Int) (tokens : List Token) (w : World)
    (hd : w.mem.data_in_memory (n - 1) = true) (ho : w.disk.ord (ord_filename n) = some tokens) :
    species_step env d n w =
      if !(scan_of env n tokens w).found then
        .next ((if w.mem.first_pass then
          (scanned_world env n tokens w).emit
            (.printf (no_orders_message n (w.mem.fr.spec_data (n - 1)).name))
          else scanned_world env n tokens w).emit .fclose_input_file)
      else production env (scanned_world env n tokens w) := by
  unfold species_step
  simp only [put_mem, put_disk, hd, Bool.not_true, Bool.false_eq_true, if_false, ho]
  rfl

theorem scanned_world_trace (env : Env) (n : Int) (tokens : List Token) (w : World) :
    (scanned_world env n tokens w).trace =
      w.trace ++ (Event.fopen (ord_filename n) "r" true ::
        (scan_of env n tokens w).stderr.map Event.eprintf) := by
  simp [scanned_world, World.scanned, scan_of, World.emit, World.put]

theorem scanned_world_mem (env : Env) (n : Int) (tokens : List Token) (w : World) :
    (scanned_world env n tokens w).mem = { w.mem with
      fr := { w.mem.fr with
        input_file := (scan_of env n tokens w).input_file
        input_line_pointer := (scan_of env n tokens w).input_line_pointer }
      species_number := n, species_index := n - 1, species := n - 1, nampla_base := n - 1,
      ship_base := n - 1, home_planet := (w.mem.fr.namp_data (n - 1) 0).planet_index,
      end_of_file := false, just_opened_file := true } := rfl

theorem scanned_world_disk (env : Env) (n : Int) (tokens : List Token) (w : World) :
    (scanned_world env n tokens w).disk = w.disk := rfl

/-! ## More on the order scanner -/

theorem find_start_skip_pre (c : CommandCodes) (sw : List Char → List Char) (filename : String)
    (rest : List Token) (pre : List Token) :
    ∀ (in_message : Bool) (p : List Char),
      message_open c in_message pre = false →
      (∀ u ∈ outside_message c in_message pre, ¬ is_PRO_start c sw u) →
      ∃ p1, find_start c sw filename in_message p (pre ++ rest)
        = find_start c sw filename false p1 rest := by
  induction pre with
  | nil =>
    intro b p ho _
    simp only [message_open] at ho
    subst ho
    exact ⟨p, rfl⟩
  | cons u pre1 ih =>
    intro b p ho hn
    cases b
    · by_cases hm : u.command = c.MESSAGE
      · simp only [message_open, hm, if_true] at ho
        simp only [outside_message, hm, if_true] at hn
        obtain ⟨p1, h1⟩ := ih true u.line ho hn
        exact ⟨p1, by simp [find_start, command_not_negative, hm, h1]⟩
      · simp only [message_open, hm, if_false] at ho
        simp only [outside_message, hm, if_false, List.mem_cons, forall_eq_or_imp] at hn
        by_cases hs : u.command = c.START
        · have hk : ¬ (read_keyword sw u.line).1 = ['P', 'R', 'O'] := fun hk => hn.1 ⟨hs, hk⟩
          obtain ⟨p1, h1⟩ := ih false (read_keyword sw u.line).2 ho hn.2
          have h2 : ¬ c.START = c.MESSAGE := by rw [← hs]; exact hm
          exact ⟨p1, by simp [find_start, command_not_negative, h2, hs, hk, h1]⟩
        · obtain ⟨p1, h1⟩ := ih false u.line ho hn.2
          exact ⟨p1, by simp [find_start, command_not_negative, hm, hs, h1]⟩
    · by_cases hz : u.command = c.ZZZ
      · simp only [message_open, hz, if_true] at ho
        simp only [outside_message, hz, if_true] at hn
        obtain ⟨p1, h1⟩ := ih false u.line ho hn
        exact ⟨p1, by simp [find_start, command_not_negative, hz, h1]⟩
      · simp only [message_open, hz, if_false] at ho
        simp only [outside_message, hz, if_false] at hn
        obtain ⟨p1, h1⟩ := ih true u.line ho hn
        exact ⟨p1, by simp [find_start, command_not_negative, hz, h1]⟩

theorem find_start_unterminated (c : CommandCodes) (sw : List Char → List Char) (filename : String)
    (post : List Token) :
    ∀ p : List Char, (∀ u ∈ post, u.command ≠ c.ZZZ) →
      ∃ p1, find_start c sw filename true p post
        = ⟨false, [], p1, [unterminated_warning filename]⟩ := by
  induction post with
  | nil => intro p _; exact ⟨p, by simp [find_start]⟩
  | cons u rest ih =>
    intro p h
    have hu : ¬ u.command = c.ZZZ := h u (by simp)
    obtain ⟨p1, h1⟩ := ih u.line (fun v hv => h v (by simp [hv]))
    exact ⟨p1, by simp [find_start, command_not_negative, hu, h1]⟩

theorem species_step_not_found (env : Env) (d : Bool) (n : Int) (tokens : List Token) (w : World)
    (hd : w.mem.data_in_memory (n - 1) = true) (ho : w.disk.ord (ord_filename n) = some tokens)
    (hf : (scan_of env n tokens w).found = false) :
    ∃ w1, species_step env d n w = .next w1 ∧
      w1.trace = w.trace ++ (Event.fopen (ord_filename n) "r" true ::
        ((scan_of env n tokens w).stderr.map Event.eprintf ++
          ((if w.mem.first_pass then
              [Event.printf (no_orders_message n (w.mem.fr.spec_data (n - 1)).name)] else []) ++
            [Event.fclose_input_file]))) ∧
      w1.disk = w.disk ∧ w1.mem.galaxy = w.mem.galaxy ∧
      w1.mem.fr.transaction = w.mem.fr.transaction ∧
      w1.mem.fr.planet_data_modified = w.mem.fr.planet_data_modified ∧
      w1.mem.first_pass = w.mem.first_pass := by
  rw [species_step_scanned env d n tokens w hd ho]
  simp only [hf, Bool.not_false, if_true]
  by_cases hp : w.mem.first_pass = true
  · simp only [hp, if_true]
    exact ⟨_, rfl, by simp [scanned_world_trace], rfl, rfl, rfl, rfl, hp⟩
  · have hp0 : w.mem.first_pass = false := by simpa using hp
    simp only [hp0, Bool.false_eq_true, if_false]
    exact ⟨_, rfl, by simp [scanned_world_trace], rfl, rfl, rfl, rfl, hp0⟩

theorem not_found_skip (env : Env) (n : Int) (rest : List Int) (tokens : List Token)
    (w : World) (hd : w.mem.data_in_memory (n - 1) = true)
    (ho : w.disk.ord (ord_filename n) = some tokens)
    (hf : (scan_of env n tokens w).found = false) :
    ∃ w1, (∀ d : Bool, species_step env d n w = .next w1) ∧
      (∀ d : Bool, species_loop env d (n :: rest) w = species_loop env d rest w1) ∧
      w1.trace = w.trace ++ (Event.fopen (ord_filename n) "r" true ::
        ((scan_of env n tokens w).stderr.map Event.eprintf ++
          ((if w.mem.first_pass then
              [Event.printf (no_orders_message n (w.mem.fr.spec_data (n - 1)).name)] else []) ++
            [Event.fclose_input_file]))) ∧
      w1.disk = w.disk ∧ w1.mem.galaxy = w.mem.galaxy ∧
      w1.mem.fr.transaction = w.mem.fr.transaction ∧
      w1.mem.fr.planet_data_modified = w.mem.fr.planet_data_modified := by
  obtain ⟨w1, h1, t1, d1, g1, tr1, f1, _⟩ := species_step_not_found env true n tokens w hd ho hf
  obtain ⟨w2, h2, _⟩ := species_step_not_found env false n tokens w hd ho hf
  have h12 : species_step env false n w = .next w1 := by
    rw [species_step_scanned env false n tokens w hd ho]
    rw [species_step_scanned env true n tokens w hd ho] at h1
    exact h1
  have hall : ∀ d : Bool, species_step env d n w = .next w1 := by
    intro d
    cases d
    · exact h12
    · exact h1
  exact ⟨w1, hall, fun d => by simp only [species_loop, hall d], t1, d1, g1, tr1, f1⟩

/-- C15: when the scanner returns NOT_FOUND for a player whose data and order
file are there, the iteration ends in the same state in explicit-selection mode
as in process-all mode, without an exit: the actions are the opening of the
order file, the scanner's warnings, the console message on the first pass only,
and the closing of the order file (no engine call, no log file); the galaxy
records and flags are as before and the loop goes on with the next player. -/
theorem C15_not_found_is_a_skip (env : Env) (n : Int) (rest : List Int) (tokens : List Token)
    (w : World) (hd : w.mem.data_in_memory (n - 1) = true)
    (ho : w.disk.ord (ord_filename n) = some tokens)
    (hf : (scan_of env n tokens w).found = false) :
    ∃ w1, (∀ d : Bool, species_step env d n w = .next w1) ∧
      (∀ d : Bool, species_loop env d (n :: rest) w = species_loop env d rest w1) ∧
      w1.trace = w.trace ++ (Event.fopen (ord_filename n) "r" true ::
        ((scan_of env n tokens w).stderr.map Event.eprintf ++
          ((if w.mem.first_pass then
              [Event.printf (no_orders_message n (w.mem.fr.spec_data (n - 1)).name)] else []) ++
            [Event.fclose_input_file]))) ∧
      w1.disk = w.disk ∧ w1.mem.galaxy = w.mem.galaxy ∧
      w1.mem.fr.transaction = w.mem.fr.transaction ∧
      w1.mem.fr.planet_data_modified = w.mem.fr.planet_data_modified :=
  not_found_skip env n rest tokens w hd ho hf

theorem C15_not_found_is_a_skip_witness :
    ∃ w1, (∀ d : Bool, species_step demo_env d 3 demo_loaded = .next w1) ∧
      (∀ d : Bool, species_loop demo_env d (3 :: []) demo_loaded = species_loop demo_env d [] w1) ∧
      w1.trace = demo_loaded.trace ++ (Event.fopen (ord_filename 3) "r" true ::
        ((scan_of demo_env 3 [⟨26, []⟩, ⟨39, "PRO".toList⟩] demo_loaded).stderr.map Event.eprintf ++
          ((if demo_loaded.mem.first_pass then
              [Event.printf (no_orders_message 3 (demo_loaded.mem.fr.spec_data (3 - 1)).name)]
            else []) ++
            [Event.fclose_input_file]))) ∧
      w1.disk = demo_loaded.disk ∧ w1.mem.galaxy = demo_loaded.mem.galaxy ∧
      w1.mem.fr.transaction = demo_loaded.mem.fr.transaction ∧
      w1.mem.fr.planet_data_modified = demo_loaded.mem.fr.planet_data_modified :=
  C15_not_found_is_a_skip demo_env 3 [] [⟨26, []⟩, ⟨39, "PRO".toList⟩] demo_loaded
    (by decide) (by decide) (by decide)

/-- C14: when the scanner, still searching, meets a MESSAGE token `m` after which
no ZZZ follows before the script ends, it returns NOT_FOUND with the
unterminated-message warning as its only output; the iteration does not exit in
either mode: its actions are the opening of the order file, that one warning,
the console message on the first pass and the closing of the order file, and
the loop goes on with the next player from unchanged galaxy data and files. -/
theorem C14_unterminated_message_warns_once (env : Env) (n : Int) (rest : List Int)
    (pre post : List Token) (m : Token) (w : World)
    (hd : w.mem.data_in_memory (n - 1) = true)
    (ho : w.disk.ord (ord_filename n) = some (pre ++ m :: post))
    (hsearching : message_open env.codes false pre = false)
    (hnone : ∀ u ∈ outside_message env.codes false pre,
      ¬ is_PRO_start env.codes env.skip_whitespace u)
    (hm : m.command = env.codes.MESSAGE)
    (hpost : ∀ u ∈ post, u.command ≠ env.codes.ZZZ) :
    (scan_of env n (pre ++ m :: post) w).found = false ∧
    (scan_of env n (pre ++ m :: post) w).stderr = [unterminated_warning (ord_filename n)] ∧
    ∃ w1, (∀ d : Bool, species_step env d n w = .next w1) ∧
      (∀ d : Bool, species_loop env d (n :: rest) w = species_loop env d rest w1) ∧
      w1.trace = w.trace ++ (Event.fopen (ord_filename n) "r" true ::
        Event.eprintf (unterminated_warning (ord_filename n)) ::
          ((if w.mem.first_pass then
              [Event.printf (no_orders_message n (w.mem.fr.spec_data (n - 1)).name)] else []) ++
            [Event.fclose_input_file])) ∧
      w1.disk = w.disk ∧ w1.mem.galaxy = w.mem.galaxy := by
  have hscan : ∃ p1, scan_of env n (pre ++ m :: post) w
      = ⟨false, [], p1, [unterminated_warning (ord_filename n)]⟩ := by
    unfold scan_of
    obtain ⟨p1, h1⟩ := find_start_skip_pre env.codes env.skip_whitespace (ord_filename n)
      (m :: post) pre false w.mem.fr.input_line_pointer hsearching hnone
    obtain ⟨p2, h2⟩ := find_start_unterminated env.codes env.skip_whitespace (ord_filename n)
      post m.line hpost
    refine ⟨p2, ?_⟩
    rw [h1]
    simp only [find_start, hm, if_true, Bool.false_eq_true, if_false]
    exact h2
  obtain ⟨p1, hs⟩ := hscan
  have hf : (scan_of env n (pre ++ m :: post) w).found = false := by rw [hs]
  have he : (scan_of env n (pre ++ m :: post) w).stderr = [unterminated_warning (ord_filename n)] := by
    rw [hs]
  obtain ⟨w1, hstep, hloop, ht, hdisk, hg, _, _⟩ :=
    not_found_skip env n rest (pre ++ m :: post) w hd ho hf
  refine ⟨hf, he, w1, hstep, hloop, ?_, hdisk, hg⟩
  rw [ht, he]
  rfl

theorem C14_unterminated_message_warns_once_witness :
    ((main demo_env ["fhprod"] demo_disk_unterminated).code = some 0 ∧
     (main demo_env ["fhprod"] demo_disk_unterminated).world.trace.filterMap Event.called_for
       = [3]) ∧
    ((scan_of demo_env 1 ([⟨7, []⟩] ++ ⟨26, []⟩ :: [⟨39, " PRODUCTION".toList⟩, ⟨7, []⟩])
        demo_loaded_unterminated).found = false ∧
    (scan_of demo_env 1 ([⟨7, []⟩] ++ ⟨26, []⟩ :: [⟨39, " PRODUCTION".toList⟩, ⟨7, []⟩])
        demo_loaded_unterminated).stderr = [unterminated_warning (ord_filename 1)] ∧
    ∃ w1, (∀ d : Bool, species_step demo_env d 1 demo_loaded_unterminated = .next w1) ∧
      (∀ d : Bool, species_loop demo_env d (1 :: [2, 3]) demo_loaded_unterminated
        = species_loop demo_env d [2, 3] w1) ∧
      w1.trace = demo_loaded_unterminated.trace ++ (Event.fopen (ord_filename 1) "r" true ::
        Event.eprintf (unterminated_warning (ord_filename 1)) ::
          ((if demo_loaded_unterminated.mem.first_pass then
              [Event.printf (no_orders_message 1
                (demo_loaded_unterminated.mem.fr.spec_data (1 - 1)).name)] else []) ++
            [Event.fclose_input_file])) ∧
      w1.disk = demo_loaded_unterminated.disk ∧
      w1.mem.galaxy = demo_loaded_unterminated.mem.galaxy) :=
  ⟨by decide,
   C14_unterminated_message_warns_once demo_env 1 [2, 3] [⟨7, []⟩]
     [⟨39, " PRODUCTION".toList⟩, ⟨7, []⟩] ⟨26, []⟩ demo_loaded_unterminated
     (by decide) (by decide) (by decide) (by decide) (by decide) (by decide)⟩

theorem toupper_cases (X x : Char) (hx : x.toNat = X.toNat + 32) (hlo : 65 ≤ X.toNat)
    (hhi : X.toNat ≤ 90) (a : Char) : toupper a = X ↔ a = x ∨ a = X := by
  have hX : Char.ofNat X.toNat = X := Char.ofNat_toNat X
  have hxx : Char.ofNat x.toNat = x := Char.ofNat_toNat x
  have ha : Char.ofNat a.toNat = a := Char.ofNat_toNat a
  unfold toupper Char.toUpper
  simp only
  constructor
  · intro h
    split at h
    · rename_i hr
      left
      have h1 : (Char.ofNat (a.toNat - 32)).toNat = X.toNat := by rw [h]
      have h2 : (Char.ofNat (a.toNat - 32)).toNat = a.toNat - 32 := by
        have hv : (a.toNat - 32).isValidChar := by
          left
          omega
        unfold Char.ofNat
        rw [dif_pos hv]
        rfl
      rw [h2] at h1
      have h3 : a.toNat = x.toNat := by omega
      rw [← ha, h3, hxx]
    · right
      exact h
  · rintro (rfl | rfl)
    · have hr : a.toNat ≥ 97 ∧ a.toNat ≤ 122 := by omega
      rw [if_pos hr]
      have : a.toNat - 32 = X.toNat := by omega
      rw [this, hX]
    · have hr : ¬ (a.toNat ≥ 97 ∧ a.toNat ≤ 122) := by omega
      rw [if_neg hr]

theorem keyword_is_PRO_iff (q : List Char) :
    [toupper (deref q), toupper (deref (q.drop 1)), toupper (deref ((q.drop 1).drop 1))]
      = ['P', 'R', 'O'] ↔
    ∃ a b d tail, q = a :: b :: d :: tail ∧ (a = 'p' ∨ a = 'P') ∧ (b = 'r' ∨ b = 'R') ∧
      (d = 'o' ∨ d = 'O') := by
  have hP := toupper_cases 'P' 'p' (by decide) (by decide) (by decide)
  have hR := toupper_cases 'R' 'r' (by decide) (by decide) (by decide)
  have hO := toupper_cases 'O' 'o' (by decide) (by decide) (by decide)
  have hnul : ∀ X x : Char, x ≠ Char.ofNat 0 → X ≠ Char.ofNat 0 →
      ¬ (Char.ofNat 0 = x ∨ Char.ofNat 0 = X) := by
    intro X x h1 h2 h
    rcases h with h | h
    · exact h1 h.symm
    · exact h2 h.symm
  constructor
  · intro h
    simp only [List.cons.injEq, and_true] at h
    obtain ⟨h1, h2, h3⟩ := h
    rw [hP] at h1
    rw [hR] at h2
    rw [hO] at h3
    cases q with
    | nil => exact absurd h1 (hnul 'P' 'p' (by decide) (by decide))
    | cons a q1 =>
      cases q1 with
      | nil => exact absurd h2 (hnul 'R' 'r' (by decide) (by decide))
      | cons b q2 =>
        cases q2 with
        | nil => exact absurd h3 (hnul 'O' 'o' (by decide) (by decide))
        | cons d tail => exact ⟨a, b, d, tail, rfl, h1, h2, h3⟩
  · rintro ⟨a, b, d, tail, rfl, h1, h2, h3⟩
    have e1 : toupper (deref (a :: b :: d :: tail)) = 'P' := (hP a).mpr h1
    have e2 : toupper (deref ((a :: b :: d :: tail).drop 1)) = 'R' := (hR b).mpr h2
    have e3 : toupper (deref (((a :: b :: d :: tail).drop 1).drop 1)) = 'O' := (hO d).mpr h3
    rw [e1, e2, e3]

/-- C19: on a start marker `t` met outside a message block the scanner reads the
three characters at the line pointer (after `skip_whitespace ()`), in upper case:
it returns FOUND there exactly when they are P, R, O in either letter case,
whatever follows them, and otherwise goes on searching with the next token. -/
theorem C19_keyword_decides_found (c : CommandCodes) (skip_whitespace : List Char → List Char)
    (filename : String) (p : List Char) (t : Token) (rest : List Token)
    (hne : c.MESSAGE ≠ c.START) (hs : t.command = c.START) :
    (find_start c skip_whitespace filename false p (t :: rest) =
      if (read_keyword skip_whitespace t.line).1 = ['P', 'R', 'O'] then
        ⟨true, rest, (read_keyword skip_whitespace t.line).2, []⟩
      else find_start c skip_whitespace filename false (read_keyword skip_whitespace t.line).2 rest) ∧
    ((read_keyword skip_whitespace t.line).1 = ['P', 'R', 'O'] ↔
      ∃ a b d tail, skip_whitespace t.line = a :: b :: d :: tail ∧
        (a = 'p' ∨ a = 'P') ∧ (b = 'r' ∨ b = 'R') ∧ (d = 'o' ∨ d = 'O')) := by
  have h2 : ¬ c.START = c.MESSAGE := fun h => hne h.symm
  constructor
  · simp [find_start, command_not_negative, hs, h2]
  · exact keyword_is_PRO_iff (skip_whitespace t.line)

theorem C19_keyword_decides_found_witness :
    ((find_start demo_codes demo_skip_whitespace "sp01.ord" false []
        [⟨39, " pro".toList⟩, ⟨7, []⟩]).found = true ∧
     (find_start demo_codes demo_skip_whitespace "sp01.ord" false []
        [⟨39, " Production".toList⟩, ⟨7, []⟩]).found = true ∧
     (find_start demo_codes demo_skip_whitespace "sp01.ord" false []
        [⟨39, " PROxyz".toList⟩, ⟨7, []⟩]).found = true ∧
     (find_start demo_codes demo_skip_whitespace "sp01.ord" false []
        [⟨39, " PR".toList⟩, ⟨39, " COMBAT".toList⟩, ⟨39, " pRo".toList⟩, ⟨7, []⟩]).input_file
          = [⟨7, []⟩]) ∧
    ((find_start demo_codes demo_skip_whitespace "sp01.ord" false []
        (⟨39, " PROxyz".toList⟩ :: [⟨7, []⟩]) =
      if (read_keyword demo_skip_whitespace " PROxyz".toList).1 = ['P', 'R', 'O'] then
        ⟨true, [⟨7, []⟩], (read_keyword demo_skip_whitespace " PROxyz".toList).2, []⟩
      else find_start demo_codes demo_skip_whitespace "sp01.ord" false
        (read_keyword demo_skip_whitespace " PROxyz".toList).2 [⟨7, []⟩]) ∧
    ((read_keyword demo_skip_whitespace " PROxyz".toList).1 = ['P', 'R', 'O'] ↔
      ∃ a b d tail, demo_skip_whitespace " PROxyz".toList = a :: b :: d :: tail ∧
        (a = 'p' ∨ a = 'P') ∧ (b = 'r' ∨ b = 'R') ∧ (d = 'o' ∨ d = 'O'))) :=
  ⟨by decide,
   C19_keyword_decides_found demo_codes demo_skip_whitespace "sp01.ord" []
     ⟨39, " PROxyz".toList⟩ [⟨7, []⟩] (by decide) (by decide)⟩

/-! ## The capacity of the selection array -/

theorem positional_repeated (k : Nat) : positional (repeated_player k) = List.replicate k "1" := by
  unfold positional repeated_player
  simp only [List.tail_cons]
  induction k with
  | zero => rfl
  | succ j ih =>
    rw [List.replicate_succ, List.filter_cons]
    have : (!is_flag "1") = true := by decide
    rw [if_pos this, ih]

theorem sp_num_writes_repeated (N : Int) (hN : 1 ≤ N) (k : Nat) :
    ∀ k0 : Nat, sp_num_writes N (List.replicate k "1") k0 = List.range' k0 k := by
  induction k with
  | zero => intro k0; rfl
  | succ j ih =>
    intro k0
    have h1 : ¬ ("1" = "-p") := by decide
    have h2 : ¬ ("1" = "-t") := by decide
    have h3 : ¬ ("1" = "-v") := by decide
    have h4 : atoi "1" = 1 := by decide
    have h5 : ¬ ((1 : Int) < 1 ∨ (1 : Int) > N) := by omega
    rw [List.replicate_succ]
    simp only [sp_num_writes, h1, h2, h3, h4, h5, if_false, ih (k0 + 1)]
    rfl

theorem loop_indices_eq (n : Nat) : loop_indices n = List.range n := by
  unfold loop_indices
  induction n with
  | zero => rfl
  | succ j ih => rw [for_loop_succ, ih, List.range_succ]

/-- C20 (defect): the argument loop stores one entry per positional argument
without looking at the capacity: whatever `MAX_SPECIES` is, the accepted argument
list that names player 1 `MAX_SPECIES + 1` times makes the loop store
`MAX_SPECIES + 1` identifiers, the last of them at index `MAX_SPECIES`, outside
`sp_num[MAX_SPECIES]`.  In process-all mode the stores are at `0 .. N - 1`. -/
theorem C20_selection_array_overflow (MAX_SPECIES : Nat) (N : Int) (hN : 1 ≤ N)
    (hcap : N ≤ (MAX_SPECIES : Int)) :
    (∃ sel, select N (repeated_player (MAX_SPECIES + 1)) = .ok sel ∧
      sel.do_all_species = false ∧ sel.sp_num = List.replicate (MAX_SPECIES + 1) 1 ∧
      sel.sp_num.length = MAX_SPECIES + 1) ∧
    MAX_SPECIES ∈ sp_num_writes N (repeated_player (MAX_SPECIES + 1)).tail 0 ∧
    ¬ (∀ k ∈ sp_num_writes N (repeated_player (MAX_SPECIES + 1)).tail 0, k < MAX_SPECIES) ∧
    (∀ i ∈ loop_indices N.toNat, i < MAX_SPECIES) := by
  have hv : ∀ arg ∈ positional (repeated_player (MAX_SPECIES + 1)), in_population N (atoi arg) := by
    intro arg ha
    rw [positional_repeated] at ha
    have : arg = "1" := List.eq_of_mem_replicate ha
    subst this
    have h4 : atoi "1" = 1 := by decide
    rw [h4]
    exact ⟨le_refl 1, hN⟩
  have hmap : (positional (repeated_player (MAX_SPECIES + 1))).map atoi
      = List.replicate (MAX_SPECIES + 1) 1 := by
    rw [positional_repeated, List.map_replicate]
    have h4 : atoi "1" = 1 := by decide
    rw [h4]
  have hne : ¬ (List.replicate (MAX_SPECIES + 1) (1 : Int) = []) := by
    rw [List.replicate_succ]
    exact List.cons_ne_nil _ _
  have hw : sp_num_writes N (repeated_player (MAX_SPECIES + 1)).tail 0
      = List.range' 0 (MAX_SPECIES + 1) := sp_num_writes_repeated N hN (MAX_SPECIES + 1) 0
  have hin : MAX_SPECIES ∈ sp_num_writes N (repeated_player (MAX_SPECIES + 1)).tail 0 := by
    rw [hw]
    simp [List.mem_range']
  refine ⟨⟨_, select_ok N _ hv, ?_, ?_, ?_⟩, hin, ?_, ?_⟩
  · simp [hmap, hne]
  · simp [hmap, hne]
  · simp [hmap, hne]
  · intro h
    exact absurd (h MAX_SPECIES hin) (lt_irrefl _)
  · intro i hi
    rw [loop_indices_eq, List.mem_range] at hi
    omega

theorem C20_selection_array_overflow_witness :
    (∃ sel, select 3 (repeated_player (3 + 1)) = .ok sel ∧
      sel.do_all_species = false ∧ sel.sp_num = List.replicate (3 + 1) 1 ∧
      sel.sp_num.length = 3 + 1) ∧
    3 ∈ sp_num_writes 3 (repeated_player (3 + 1)).tail 0 ∧
    ¬ (∀ k ∈ sp_num_writes 3 (repeated_player (3 + 1)).tail 0, k < 3) ∧
    (∀ i ∈ loop_indices (3 : Int).toNat, i < 3) :=
  C20_selection_array_overflow 3 3 (by decide) (by decide)

/-! ## A player named twice -/

/-- C16 (defect): the run `fhprod 1 1` is accepted and visits player 1 twice in
its single pass.  With an engine that orders for planet 0 only while
`production_done[0]` is FALSE and then sets it, the flag set during the first
visit is FALSE again at the second engine call, and planet 0 receives the order
twice; the run `fhprod 1` gives it once. -/
theorem C16_duplicate_player_is_ordered_twice :
    (main dedup_env ["fhprod", "1", "1"] demo_disk).code = some 0 ∧
    (main dedup_env ["fhprod", "1", "1"] demo_disk).world.trace.filterMap Event.called_for
      = [1, 1] ∧
    (nth_call (main dedup_env ["fhprod", "1", "1"] demo_disk).world.trace 0).first_pass = false ∧
    (nth_call (main dedup_env ["fhprod", "1", "1"] demo_disk).world.trace 1).first_pass = false ∧
    (dedup_engine (nth_call (main dedup_env ["fhprod", "1", "1"] demo_disk).world.trace 0)
      ).fr.production_done 0 = true ∧
    (nth_call (main dedup_env ["fhprod", "1", "1"] demo_disk).world.trace 1
      ).fr.production_done 0 = false ∧
    ((main dedup_env ["fhprod", "1", "1"] demo_disk).world.trace.filterMap Event.logged).count
      "order for planet 0" = 2 ∧
    ((main dedup_env ["fhprod", "1"] demo_disk).world.trace.filterMap Event.logged).count
      "order for planet 0" = 1 := by
  refine ⟨?_, ?_, ?_, ?_, ?_, ?_, ?_, ?_⟩ <;> decide

/-! ## Skipped players -/

theorem species_step_skip (env : Env) (n : Int) (w : World)
    (hmiss : w.mem.data_in_memory (n - 1) = false ∨ w.disk.ord (ord_filename n) = none) :
    ∃ w1, species_step env true n w = .next w1 ∧ w1.mem.fr = w.mem.fr ∧ w1.disk = w.disk ∧
      w1.mem.first_pass = w.mem.first_pass ∧ w1.trace = w.trace ++ skip_events n w := by
  by_cases hd : w.mem.data_in_memory (n - 1) = false
  · unfold species_step skip_events
    simp only [put_mem, hd, Bool.not_false, if_true]
    by_cases hf : w.mem.first_pass = true
    · simp only [hf, if_true]
      exact ⟨_, rfl, rfl, rfl, rfl, by simp [skipping_message, no_orders_file_message]⟩
    · simp only [hf, if_false]
      exact ⟨_, rfl, rfl, rfl, rfl, by simp [skipping_message, no_orders_file_message]⟩
  · have hd1 : w.mem.data_in_memory (n - 1) = true := by simpa using hd
    have ho : w.disk.ord (ord_filename n) = none := by
      rcases hmiss with h | h
      · exact absurd h hd
      · exact h
    unfold species_step skip_events
    simp only [put_mem, put_disk, hd1, Bool.not_true, Bool.false_eq_true, if_false, ho, emit_mem]
    by_cases hf : w.mem.first_pass = true
    · simp only [hf, if_true]
      exact ⟨_, rfl, rfl, rfl, rfl, by simp [skipping_message, no_orders_file_message]⟩
    · simp only [hf, if_false]
      exact ⟨_, rfl, rfl, rfl, rfl, by simp [skipping_message, no_orders_file_message]⟩

theorem skip_events_no_call (n : Int) (w : World) :
    ∀ e ∈ skip_events n w, e.is_call = false := by
  intro e he
  unfold skip_events at he
  rw [List.mem_append] at he
  rcases he with he | he
  · split at he
    · rw [List.mem_singleton] at he; subst he; rfl
    · simp at he
  · split at he
    · rw [List.mem_singleton] at he; subst he; rfl
    · simp at he

theorem skipping_message_names (n : Int) :
    (Event.printf (skipping_message n)).names_player n = true := by
  simp only [Event.names_player, Event.text, skipping_message, decide_eq_true_eq]
  exact ⟨"\n    Skipping species #".toList, ".\n".toList, by simp [String.toList, String.data_append]⟩

theorem no_orders_file_message_names (n : Int) :
    (Event.printf (no_orders_file_message n)).names_player n = true := by
  simp only [Event.names_player, Event.text, no_orders_file_message, decide_eq_true_eq]
  exact ⟨"\n    No orders for species #".toList, ".\n".toList, by simp [String.toList, String.data_append]⟩

/-- C12 (counterexample): the process-all run `fhprod` (no `-p`) over the sample
directory skips player 2, whose data is missing, completes with exit 0, and no
text it prints or logs contains the number 2. -/
theorem C12_counterexample :
    select 3 ["fhprod"] = .ok ⟨[1, 2, 3], true, false, false, false⟩ ∧
    demo_store.data_in_memory (2 - 1) = false ∧
    (main demo_env ["fhprod"] demo_disk).code = some 0 ∧
    ((main demo_env ["fhprod"] demo_disk).world.trace.any (fun e => e.names_player 2)) = false := by
  refine ⟨rfl, ?_, ?_, ?_⟩ <;> decide

/-- C12 (amended): in process-all mode a player without data or without an order
file never ends the run: the step returns to the loop, which goes on with the
next player.  The notice naming the player is printed on the console exactly
when the skip happens on the first pass of a run with `-p`; on the commit pass,
and so in every run without `-p`, the skip prints and logs nothing. -/
theorem C12_skip_notice_on_first_pass_only (env : Env) (n : Int) (w : World)
    (hmiss : w.mem.data_in_memory (n - 1) = false ∨ w.disk.ord (ord_filename n) = none) :
    ∃ w1, species_step env true n w = .next w1 ∧
      (∀ rest, species_loop env true (n :: rest) w = species_loop env true rest w1) ∧
      w1.trace = w.trace ++ skip_events n w ∧
      (w.mem.first_pass = true →
        ∃ s, Event.printf s ∈ skip_events n w ∧ (Event.printf s).names_player n = true) ∧
      (w.mem.first_pass = false → ∀ e ∈ skip_events n w, e.text = none) := by
  obtain ⟨w1, h1, _, _, _, h5⟩ := species_step_skip env n w hmiss
  refine ⟨w1, h1, ?_, h5, ?_, ?_⟩
  · intro rest
    simp only [species_loop, h1]
  · intro hf
    by_cases hd : w.mem.data_in_memory (n - 1) = true
    · exact ⟨no_orders_file_message n, by simp [skip_events, hf, hd], no_orders_file_message_names n⟩
    · exact ⟨skipping_message n, by simp [skip_events, hf, hd], skipping_message_names n⟩
  · intro hf e he
    unfold skip_events at he
    simp only [hf, Bool.false_eq_true, if_false, List.append_nil] at he
    split at he
    · rw [List.mem_singleton] at he; subst he; rfl
    · simp at he

theorem C12_skip_notice_on_first_pass_only_witness :
    (demo_loaded.mem.data_in_memory (2 - 1) = false ∨ demo_loaded.disk.ord (ord_filename 2) = none) ∧
    demo_loaded.mem.first_pass = true ∧
    (main demo_env ["fhprod", "-p"] demo_disk).code = some 0 ∧
    ((main demo_env ["fhprod", "-p"] demo_disk).world.trace.any (fun e => e.names_player 2)) = true ∧
    ∃ w1, species_step demo_env true 2 demo_loaded = .next w1 ∧
      (∀ rest, species_loop demo_env true (2 :: rest) demo_loaded = species_loop demo_env true rest w1) ∧
      w1.trace = demo_loaded.trace ++ skip_events 2 demo_loaded ∧
      (demo_loaded.mem.first_pass = true →
        ∃ s, Event.printf s ∈ skip_events 2 demo_loaded ∧ (Event.printf s).names_player 2 = true) ∧
      (demo_loaded.mem.first_pass = false → ∀ e ∈ skip_events 2 demo_loaded, e.text = none) :=
  ⟨Or.inl (by decide), by decide, by decide, by decide,
    C12_skip_notice_on_first_pass_only demo_env 2 demo_loaded (Or.inl (by decide))⟩

/-! ## Anatomy of the driver -/

theorem drain_intercepts_frame {α : Type} (f : Frame → α) (env : Env)
    (hres : ∀ i m, f (env.handle_intercept i m).fr = f m.fr) (fuel : Nat) :
    ∀ (i : Int) (w : World), f (drain_intercepts env fuel i w).world.mem.fr = f w.mem.fr := by
  induction fuel with
  | zero => intro i w; rfl
  | succ k ih =>
    intro i w
    simp only [drain_intercepts]
    split
    · have hm := (returned_spec (w.emit (.handle_intercept i)) (env.handle_intercept i w.mem)).2.1
      split
      · rename_i code w1 hs
        rw [hs] at hm
        simp only [Step.world] at hm ⊢
        rw [hm]
        exact hres i w.mem
      · rename_i w1 hs
        rw [hs] at hm
        simp only [Step.world] at hm
        rw [ih (i + 1) w1, hm]
        exact hres i w.mem
    · rfl

theorem filterMap_fprintf_index (t : LogTarget) (l : List String) :
    (l.map (Event.fprintf t)).filterMap Event.intercept_index = [] := by
  induction l with
  | nil => rfl
  | cons s rest ih => simp [List.filterMap_cons, Event.intercept_index, ih]

theorem drain_intercepts_indices (env : Env)
    (hres : ∀ i m, (env.handle_intercept i m).fr.num_intercepts = m.fr.num_intercepts)
    (fuel : Nat) :
    ∀ (i : Int) (w w1 : World), drain_intercepts env fuel i w = .next w1 →
      (w.mem.fr.num_intercepts - i).toNat ≤ fuel →
      ∃ new, w1.trace = w.trace ++ new ∧ (∀ e ∈ new, e.is_call = false) ∧
        new.filterMap Event.intercept_index =
          (List.range (w.mem.fr.num_intercepts - i).toNat).map (fun (j : Nat) => i + (j : Int)) := by
  induction fuel with
  | zero =>
    intro i w w1 h hk
    simp only [drain_intercepts] at h
    cases h
    have h0 : (w.mem.fr.num_intercepts - i).toNat = 0 := by omega
    exact ⟨[], by simp, by simp, by simp [h0]⟩
  | succ k ih =>
    intro i w w1 h hk
    simp only [drain_intercepts] at h
    split at h
    · rename_i hlt
      have hsp := returned_spec (w.emit (.handle_intercept i)) (env.handle_intercept i w.mem)
      split at h
      · cases h
      · rename_i w2 hs
        rw [hs] at hsp
        simp only [Step.world, emit_trace, emit_mem] at hsp
        obtain ⟨ht, hm, _⟩ := hsp
        have hn : w2.mem.fr.num_intercepts = w.mem.fr.num_intercepts := by
          rw [hm]; exact hres i w.mem
        have hk2 : (w2.mem.fr.num_intercepts - (i + 1)).toNat ≤ k := by rw [hn]; omega
        obtain ⟨new, hnew, hcall, hidx⟩ := ih (i + 1) w2 w1 h hk2
        refine ⟨Event.handle_intercept i ::
          ((env.handle_intercept i w.mem).log.map (Event.fprintf w.mem.log_file) ++ new), ?_, ?_, ?_⟩
        · rw [hnew, ht]; simp
        · intro e he
          rw [List.mem_cons, List.mem_append] at he
          rcases he with he | he | he
          · subst he; rfl
          · rw [List.mem_map] at he
            obtain ⟨s, _, hs2⟩ := he
            subst hs2; rfl
          · exact hcall e he
        · have hsucc : (w.mem.fr.num_intercepts - i).toNat
              = (w.mem.fr.num_intercepts - (i + 1)).toNat + 1 := by omega
          rw [List.filterMap_cons, List.filterMap_append, filterMap_fprintf_index, hidx, hn, hsucc,
            List.range_succ_eq_map]
          simp only [Event.intercept_index, List.nil_append, List.map_cons, List.map_map,
            Nat.cast_zero, add_zero]
          congr 1
          apply List.map_congr_left
          intro j _
          simp only [Function.comp, Nat.cast_succ]
          ring
    · cases h
      rename_i hge
      have h0 : (w.mem.fr.num_intercepts - i).toNat = 0 := by omega
      exact ⟨[], by simp, by simp, by simp [h0]⟩

theorem driver_next (env : Env) (w w1 : World) (h : driver env w = .next w1) :
    ¬ (w.mem.fr.spec_data w.mem.species).num_namplas > 1000 ∧
    ∃ w2 w4,
      ((w.put (driver_init w.mem)).emit (.do_production_orders (driver_init w.mem))).returned
        (env.do_production_orders (driver_init w.mem)) = .next w2 ∧
      drain_intercepts env 2147483648 0 (w2.put (copy_back_tech_level w2.mem)) = .next w4 ∧
      w1 = driver_finish w4 := by
  unfold driver at h
  split at h
  · cases h
  · rename_i hov
    refine ⟨hov, ?_⟩
    simp only [put_mem] at h
    split at h
    · cases h
    · rename_i w2 hs
      split at h
      · cases h
      · rename_i w4 hd
        cases h
        exact ⟨w2, w4, hs, hd, rfl⟩

theorem driver_finish_spec (w : World) :
    (driver_finish w).mem = { w.mem with fr := { w.mem.fr with
      data_modified := store w.mem.fr.data_modified w.mem.species_index true } } ∧
    (driver_finish w).disk = w.disk ∧
    (driver_finish w).trace = w.trace ++
      ((if w.mem.first_pass then [] else [Event.fclose_log_file]) ++ [Event.fclose_input_file]) := by
  unfold driver_finish
  by_cases hf : w.mem.first_pass = true
  · simp [hf]
  · simp [hf]

/-! ## The intercept queue -/

/-- C18: the driver hands the engine an empty intercept queue (`num_intercepts = 0`,
in every engine call of every run), whatever an earlier player or pass left in it.
When the engine returns with `k` entries queued and the resolver leaves
`num_intercepts` alone, a driver run that completes has called `handle_intercept`
for exactly the indices `0, 1, ..., k - 1`, in this order, all of them before
`data_modified[species_index]` is set; the closing actions call it no more. -/
theorem C18_intercepts_drained_in_order (env : Env) (w w1 : World)
    (hres : ∀ i m, (env.handle_intercept i m).fr.num_intercepts = m.fr.num_intercepts)
    (hint : (env.do_production_orders (driver_init w.mem)).fr.num_intercepts ≤ 2147483647)
    (h : driver env w = .next w1) :
    (driver_init w.mem).fr.num_intercepts = 0 ∧
    (∀ argv disk m, Event.do_production_orders m ∈ (main env argv disk).world.trace →
      m.fr.num_intercepts = 0) ∧
    ∃ w4 new closing, w1 = driver_finish w4 ∧
      w4.trace = w.trace ++ Event.do_production_orders (driver_init w.mem) :: new ∧
      new.filterMap Event.intercept_index =
        (List.range (env.do_production_orders (driver_init w.mem)).fr.num_intercepts.toNat).map
          (fun (j : Nat) => (j : Int)) ∧
      (∀ e ∈ new, e.is_call = false) ∧
      w1.mem.fr.data_modified = store w4.mem.fr.data_modified w4.mem.species_index true ∧
      w1.trace = w4.trace ++ closing ∧ closing.filterMap Event.intercept_index = [] := by
  refine ⟨by rw [driver_init_eq], fun argv disk m hm => (engine_calls_ready env argv disk m hm).2.2.2.2, ?_⟩
  obtain ⟨_, w2, w4, h2, h4, h1⟩ := driver_next env w w1 h
  have hsp := returned_spec ((w.put (driver_init w.mem)).emit (.do_production_orders (driver_init w.mem)))
    (env.do_production_orders (driver_init w.mem))
  rw [h2] at hsp
  simp only [Step.world, emit_trace, emit_mem, put_trace, put_mem] at hsp
  obtain ⟨ht2, hm2, _⟩ := hsp
  obtain ⟨fr3, hfr3⟩ := copy_back_same_ctl w2.mem
  have hk3 : (w2.put (copy_back_tech_level w2.mem)).mem.fr.num_intercepts
      = (env.do_production_orders (driver_init w.mem)).fr.num_intercepts := by
    rw [put_mem, copy_back_tech_level_eq, hm2]
  have hfuel : ((w2.put (copy_back_tech_level w2.mem)).mem.fr.num_intercepts - 0).toNat
      ≤ 2147483648 := by
    rw [hk3]; omega
  obtain ⟨new, hnew, hcall, hidx⟩ := drain_intercepts_indices env hres 2147483648 0 _ w4 h4 hfuel
  rw [hk3] at hidx
  simp only [put_trace] at hnew
  have hfin := driver_finish_spec w4
  refine ⟨w4, (env.do_production_orders (driver_init w.mem)).log.map
      (Event.fprintf (driver_init w.mem).log_file) ++ new,
    (if w4.mem.first_pass then [] else [Event.fclose_log_file]) ++ [Event.fclose_input_file],
    h1, ?_, ?_, ?_, ?_, ?_, ?_⟩
  · rw [hnew, ht2]; simp
  · rw [List.filterMap_append, filterMap_fprintf_index, hidx]
    simp
  · intro e he
    rw [List.mem_append] at he
    rcases he with he | he
    · rw [List.mem_map] at he
      obtain ⟨s, _, hs2⟩ := he
      subst hs2; rfl
    · exact hcall e he
  · rw [h1, hfin.1]
  · rw [h1, hfin.2.2]
  · by_cases hf : w4.mem.first_pass = true
    · simp [hf, Event.intercept_index]
    · simp [hf, Event.intercept_index]

theorem C18_intercepts_drained_in_order_witness :
    demo_driver_world.mem.fr.num_intercepts = 7 ∧
    (demo_env.do_production_orders (driver_init demo_driver_world.mem)).fr.num_intercepts = 2 ∧
    demo_driver_end.trace.filterMap Event.intercept_index = [0, 1] ∧
    ((driver_init demo_driver_world.mem).fr.num_intercepts = 0 ∧
    (∀ argv disk m, Event.do_production_orders m ∈ (main demo_env argv disk).world.trace →
      m.fr.num_intercepts = 0) ∧
    ∃ w4 new closing, demo_driver_end = driver_finish w4 ∧
      w4.trace = demo_driver_world.trace ++
        Event.do_production_orders (driver_init demo_driver_world.mem) :: new ∧
      new.filterMap Event.intercept_index =
        (List.range (demo_env.do_production_orders
          (driver_init demo_driver_world.mem)).fr.num_intercepts.toNat).map
          (fun (j : Nat) => (j : Int)) ∧
      (∀ e ∈ new, e.is_call = false) ∧
      demo_driver_end.mem.fr.data_modified = store w4.mem.fr.data_modified w4.mem.species_index true ∧
      demo_driver_end.trace = w4.trace ++ closing ∧ closing.filterMap Event.intercept_index = []) :=
  ⟨by decide, by decide, by decide,
    C18_intercepts_drained_in_order demo_env demo_driver_world demo_driver_end
      (fun _ _ => rfl) (by decide) rfl⟩

/-! ## The bound of the "done" arrays -/

theorem open_log_anatomy (w : World) :
    Grow (fun e => e.is_call = false) w (open_log w).world ∧
    (∀ c w1, open_log w = .exit c w1 → c = -1) := by
  unfold open_log
  simp only [put_mem]
  split
  · refine ⟨?_, fun c w1 h => by cases h⟩
    simp only [Step.world]
    repeat (first | exact Grow.here _ _ | apply Grow.then_emit | apply Grow.then_put | apply Grow.then_log_write)
  · split
    · refine ⟨?_, fun c w1 h => by cases h; rfl⟩
      simp only [Step.world]
      repeat (first | exact Grow.here _ _ | apply Grow.then_emit | apply Grow.then_put | apply Grow.then_log_write)
      all_goals rfl
    · refine ⟨?_, fun c w1 h => by cases h⟩
      simp only [Step.world]
      repeat (first | exact Grow.here _ _ | apply Grow.then_emit | apply Grow.then_put | apply Grow.then_log_write)
      all_goals rfl

theorem for_loop_eq_foldl {σ : Type} (body : Nat → σ → σ) (s : σ) (n : Nat) :
    for_loop n body s = (loop_indices n).foldl (fun s i => body i s) s := by
  induction n with
  | zero => rfl
  | succ k ih => rw [for_loop_succ, ih, loop_indices_eq, loop_indices_eq, List.range_succ, List.foldl_append]; rfl

theorem passes_loop_exit (env : Env) (d : Bool) (l : List Int) (w w1 : World) (c : Int)
    (h : species_loop env d l (start_pass env w) = .exit c w1) : passes env d l w = .exit c w1 := by
  unfold passes commit_pass
  rw [h]
  simp

theorem main_failed_no_save (env : Env) (argv : List String) (disk : Disk)
    (h : (main env argv disk).code ≠ some 0) :
    ∀ e ∈ (main env argv disk).world.trace, e.is_save = false := by
  cases hsel : select (env.get_galaxy_data disk) argv with
  | error bad =>
    rw [main_of_select_error env argv disk bad hsel]
    simp [Step.world, startup, Event.is_save]
  | ok sel =>
    rw [main_of_select_ok env argv disk sel hsel] at h ⊢
    rcases passes_gate env sel.do_all_species sel.sp_num (selected_world env disk sel)
      (startup_quiet env disk sel) with hno | ⟨w2, wg, _, _, hc, _, _⟩
    · exact hno
    · rw [hc] at h
      exact absurd rfl h

/-- C17: for a player whose production block was found, (a) when `num_namplas`
exceeds 1000 the step ends the run with exit code -1: the species loop and the
passes stop there, nothing was added to the trace but non-engine events, and the
"done" flags, the planet entries and the modified flags are as they were; (b) a
run that ends with a non-zero code never performs a save; (c) when
`num_namplas <= 1000`, the reset loop of lines 218-220 writes exactly the indices
`0 .. num_namplas - 1`, all below 1000, and leaves every entry from 1000 on
untouched. -/
theorem C17_done_array_bound (env : Env) (d : Bool) (n : Int) (tokens : List Token) (w : World)
    (hd : w.mem.data_in_memory (n - 1) = true) (ho : w.disk.ord (ord_filename n) = some tokens)
    (hfound : (scan_of env n tokens w).found = true) :
    ((w.mem.fr.spec_data (n - 1)).num_namplas > 1000 →
      ∃ w1 new, species_step env d n w = .exit (-1) w1 ∧
        (∀ rest, species_loop env d (n :: rest) w = .exit (-1) w1) ∧
        (∀ w0 before rest, species_loop env d before (start_pass env w0) = .next w →
          passes env d (before ++ n :: rest) w0 = .exit (-1) w1) ∧
        w1.trace = w.trace ++ new ∧ (∀ e ∈ new, e.is_call = false) ∧
        w1.mem.fr.production_done = w.mem.fr.production_done ∧
        w1.mem.fr.namp_data = w.mem.fr.namp_data ∧
        w1.mem.fr.data_modified = w.mem.fr.data_modified) ∧
    (∀ argv disk, (main env argv disk).code ≠ some 0 →
      ∀ e ∈ (main env argv disk).world.trace, e.is_save = false) ∧
    (∀ m : Mem, (m.fr.spec_data m.species).num_namplas ≤ 1000 →
      reset_production_done m = (loop_indices (m.fr.spec_data m.species).num_namplas.toNat).foldl
        (fun m i => { m with fr := { m.fr with
          production_done := store m.fr.production_done i false } }) m ∧
      (∀ i ∈ loop_indices (m.fr.spec_data m.species).num_namplas.toNat,
        (i : Int) < (m.fr.spec_data m.species).num_namplas ∧ i < 1000) ∧
      (∀ j, 1000 ≤ j → (reset_production_done m).fr.production_done j = m.fr.production_done j) ∧
      (∀ j, 1000 ≤ j → (driver_init m).fr.production_done j = m.fr.production_done j)) := by
  refine ⟨?_, fun argv disk h => main_failed_no_save env argv disk h, ?_⟩
  · intro hov
    have hstep := species_step_scanned env d n tokens w hd ho
    simp only [hfound, Bool.not_true, Bool.false_eq_true, if_false] at hstep
    obtain ⟨⟨newo, hto, hco⟩, hex⟩ := open_log_anatomy (scanned_world env n tokens w)
    obtain ⟨_, hfo⟩ := open_log_kept (scanned_world env n tokens w)
    have key : ∃ w1 new, species_step env d n w = .exit (-1) w1 ∧
        w1.trace = w.trace ++ new ∧ (∀ e ∈ new, e.is_call = false) ∧ w1.mem.fr.production_done = w.mem.fr.production_done ∧
        w1.mem.fr.namp_data = w.mem.fr.namp_data ∧
        w1.mem.fr.data_modified = w.mem.fr.data_modified := by
      rw [hstep]
      unfold production
      cases hop : open_log (scanned_world env n tokens w) with
      | exit c w1 =>
        rw [hop] at hto hfo
        simp only [Step.world] at hto hfo
        have hc : c = -1 := hex c w1 hop
        subst hc
        refine ⟨w1, Event.fopen (ord_filename n) "r" true ::
          ((scan_of env n tokens w).stderr.map Event.eprintf ++ newo), rfl, ?_, ?_, ?_, ?_, ?_⟩
        · rw [hto, scanned_world_trace]; simp
        · intro e he
          rw [List.mem_cons, List.mem_append] at he
          rcases he with he | he | he
          · subst he; rfl
          · rw [List.mem_map] at he
            obtain ⟨s, _, hs2⟩ := he
            subst hs2; rfl
          · exact hco e he
        · rw [hfo, scanned_world_mem]
        · rw [hfo, scanned_world_mem]
        · rw [hfo, scanned_world_mem]
      | next w1 =>
        rw [hop] at hto hfo
        simp only [Step.world] at hto hfo
        have hsp := ((open_log_spec (scanned_world env n tokens w)).2.2.2 w1 hop).2.1
        have hov1 : (w1.mem.fr.spec_data w1.mem.species).num_namplas > 1000 := by
          rw [hsp, hfo, scanned_world_mem]
          exact hov
        simp only []
        unfold driver
        rw [if_pos hov1]
        refine ⟨_, Event.fopen (ord_filename n) "r" true ::
          ((scan_of env n tokens w).stderr.map Event.eprintf ++ (newo ++
            [Event.eprintf "\n\n\tInternal error. xxx_done array overflow!/n/n"])), rfl, ?_, ?_, ?_, ?_, ?_⟩
        · rw [emit_trace, hto, scanned_world_trace]; simp
        · intro e he
          rw [List.mem_cons, List.mem_append, List.mem_append] at he
          rcases he with he | he | he | he
          · subst he; rfl
          · rw [List.mem_map] at he
            obtain ⟨s, _, hs2⟩ := he
            subst hs2; rfl
          · exact hco e he
          · rw [List.mem_singleton] at he; subst he; rfl
        · rw [emit_mem, hfo, scanned_world_mem]
        · rw [emit_mem, hfo, scanned_world_mem]
        · rw [emit_mem, hfo, scanned_world_mem]
    obtain ⟨w1, new, h1, h2, h3, h4, h5, h6⟩ := key
    refine ⟨w1, new, h1, ?_, ?_, h2, h3, h4, h5, h6⟩
    · intro rest
      simp only [species_loop, h1]
    · intro w0 before rest hb
      apply passes_loop_exit
      have happ : ∀ (l : List Int) (u v : World), species_loop env d l u = .next v →
          species_loop env d (l ++ n :: rest) u = species_loop env d (n :: rest) v := by
        intro l
        induction l with
        | nil => intro u v h; simp only [species_loop] at h; cases h; rfl
        | cons a l ih =>
          intro u v h
          simp only [species_loop, List.cons_append] at h ⊢
          cases hs : species_step env d a u with
          | exit c x => rw [hs] at h; cases h
          | next x => rw [hs] at h; simp only []; exact ih x v h
      rw [happ before _ w hb]
      simp only [species_loop, h1]
  · intro m hle
    refine ⟨for_loop_eq_foldl _ _ _, ?_, ?_, ?_⟩
    · intro i hi
      rw [loop_indices_eq, List.mem_range] at hi
      omega
    · intro j hj
      rw [reset_production_done_eq]
      have : ¬ j < (m.fr.spec_data m.species).num_namplas.toNat := by omega
      simp [this]
    · intro j hj
      rw [driver_init_eq]
      have : ¬ j < (m.fr.spec_data m.species).num_namplas.toNat := by omega
      simp [this]

theorem C17_done_array_bound_witness :
    (crowded_loaded.mem.fr.spec_data (1 - 1)).num_namplas = 1001 ∧
    (main crowded_env ["fhprod"] demo_disk).code = some (-1) ∧
    ((main crowded_env ["fhprod"] demo_disk).world.trace.any Event.is_call) = false ∧
    ((main crowded_env ["fhprod"] demo_disk).world.trace.any Event.is_save) = false ∧
    (main demo_env ["fhprod"] demo_disk).code = some 0 ∧
    (((crowded_loaded.mem.fr.spec_data (1 - 1)).num_namplas > 1000 →
      ∃ w1 new, species_step crowded_env true 1 crowded_loaded = .exit (-1) w1 ∧
        (∀ rest, species_loop crowded_env true (1 :: rest) crowded_loaded = .exit (-1) w1) ∧
        (∀ w0 before rest,
          species_loop crowded_env true before (start_pass crowded_env w0) = .next crowded_loaded →
          passes crowded_env true (before ++ 1 :: rest) w0 = .exit (-1) w1) ∧
        w1.trace = crowded_loaded.trace ++ new ∧ (∀ e ∈ new, e.is_call = false) ∧
        w1.mem.fr.production_done = crowded_loaded.mem.fr.production_done ∧
        w1.mem.fr.namp_data = crowded_loaded.mem.fr.namp_data ∧
        w1.mem.fr.data_modified = crowded_loaded.mem.fr.data_modified) ∧
    (∀ argv disk, (main crowded_env argv disk).code ≠ some 0 →
      ∀ e ∈ (main crowded_env argv disk).world.trace, e.is_save = false) ∧
    (∀ m : Mem, (m.fr.spec_data m.species).num_namplas ≤ 1000 →
      reset_production_done m = (loop_indices (m.fr.spec_data m.species).num_namplas.toNat).foldl
        (fun m i => { m with fr := { m.fr with
          production_done := store m.fr.production_done i false } }) m ∧
      (∀ i ∈ loop_indices (m.fr.spec_data m.species).num_namplas.toNat,
        (i : Int) < (m.fr.spec_data m.species).num_namplas ∧ i < 1000) ∧
      (∀ j, 1000 ≤ j → (reset_production_done m).fr.production_done j = m.fr.production_done j) ∧
      (∀ j, 1000 ≤ j → (driver_init m).fr.production_done j = m.fr.production_done j))) :=
  ⟨by decide, by decide, by decide, by decide, by decide,
    C17_done_array_bound crowded_env true 1 [⟨39, " production".toList⟩, ⟨7, []⟩] crowded_loaded
      (by decide) (by decide) (by decide)⟩

/-! ## The modified flag -/

theorem drain_intercepts_same_ctl (env : Env) (fuel : Nat) :
    ∀ (i : Int) (w : World), same_ctl w.mem (drain_intercepts env fuel i w).world.mem := by
  induction fuel with
  | zero => intro i w; exact same_ctl.self _
  | succ k ih =>
    intro i w
    simp only [drain_intercepts]
    split
    · have hm := (returned_spec (w.emit (.handle_intercept i)) (env.handle_intercept i w.mem)).2.1
      split
      · rename_i code w1 hs
        rw [hs] at hm
        exact ⟨_, hm⟩
      · rename_i w1 hs
        rw [hs] at hm
        simp only [Step.world] at hm
        exact same_ctl.join ⟨_, hm⟩ (ih (i + 1) w1)
    · exact same_ctl.self _

theorem driver_outcome (env : Env) (w : World)
    (he : ∀ m, (env.do_production_orders m).fr.data_modified = m.fr.data_modified)
    (hr : ∀ i m, (env.handle_intercept i m).fr.data_modified = m.fr.data_modified) :
    (∀ w1, driver env w = .next w1 →
      (∃ new m, w1.trace = w.trace ++ new ∧ Event.do_production_orders m ∈ new) ∧
      w1.mem.fr.data_modified = store w.mem.fr.data_modified w.mem.species_index true) ∧
    (∀ c w1, driver env w = .exit c w1 →
      w1.mem.fr.data_modified = w.mem.fr.data_modified) := by
  have hsp := returned_spec ((w.put (driver_init w.mem)).emit (.do_production_orders (driver_init w.mem)))
    (env.do_production_orders (driver_init w.mem))
  simp only [emit_trace, emit_mem, put_trace, put_mem] at hsp
  obtain ⟨ht2, hm2, _⟩ := hsp
  have hinit : (driver_init w.mem).fr.data_modified = w.mem.fr.data_modified := by
    rw [driver_init_eq]
  constructor
  · intro w1 h
    obtain ⟨_, w2, w4, h2, h4, h1⟩ := driver_next env w w1 h
    rw [h2] at ht2 hm2
    simp only [Step.world] at ht2 hm2
    have hfr := drain_intercepts_frame Frame.data_modified env hr 2147483648 0
      (w2.put (copy_back_tech_level w2.mem))
    have hctl := drain_intercepts_same_ctl env 2147483648 0 (w2.put (copy_back_tech_level w2.mem))
    obtain ⟨⟨newd, hnd⟩, _⟩ := drain_intercepts_kept env 2147483648 0
      (w2.put (copy_back_tech_level w2.mem))
    rw [h4] at hfr hctl hnd
    simp only [Step.world, put_mem, put_trace] at hfr hctl hnd
    have hfin := driver_finish_spec w4
    constructor
    · refine ⟨Event.do_production_orders (driver_init w.mem) ::
        ((env.do_production_orders (driver_init w.mem)).log.map
          (Event.fprintf (driver_init w.mem).log_file) ++ (newd ++
          ((if w4.mem.first_pass then [] else [Event.fclose_log_file]) ++ [Event.fclose_input_file]))),
        driver_init w.mem, ?_, List.mem_cons_self _ _⟩
      rw [h1, hfin.2.2, hnd, ht2]
      simp
    · have hidx : w4.mem.species_index = w.mem.species_index := by
        rw [hctl.index, (copy_back_same_ctl w2.mem).index, hm2]
        exact (driver_init_same_ctl w.mem).index
      have hdm : w4.mem.fr.data_modified = w.mem.fr.data_modified := by
        rw [hfr, copy_back_tech_level_eq, hm2]
        simp only []
        rw [he, hinit]
      rw [h1, hfin.1]
      simp only []
      rw [hdm, hidx]
  · intro c w1 h
    unfold driver at h
    split at h
    · cases h; rfl
    · simp only [put_mem] at h
      split at h
      · rename_i c2 w2 hs
        cases h
        rw [hs] at hm2
        simp only [Step.world] at hm2
        rw [hm2]
        simp only []
        rw [he, hinit]
      · rename_i w2 hs
        rw [hs] at hm2
        simp only [Step.world] at hm2
        have hfr := drain_intercepts_frame Frame.data_modified env hr 2147483648 0
          (w2.put (copy_back_tech_level w2.mem))
        split at h
        · rename_i c4 w4 hd4
          cases h
          rw [hd4] at hfr
          simp only [Step.world, put_mem] at hfr
          rw [hfr, copy_back_tech_level_eq, hm2]
          simp only []
          rw [he, hinit]
        · cases h

theorem production_outcome (env : Env) (w : World)
    (he : ∀ m, (env.do_production_orders m).fr.data_modified = m.fr.data_modified)
    (hr : ∀ i m, (env.handle_intercept i m).fr.data_modified = m.fr.data_modified) :
    (∀ w1, production env w = .next w1 →
      (∃ new m, w1.trace = w.trace ++ new ∧ Event.do_production_orders m ∈ new) ∧
      w1.mem.fr.data_modified = store w.mem.fr.data_modified w.mem.species_index true) ∧
    (∀ c w1, production env w = .exit c w1 →
      w1.mem.fr.data_modified = w.mem.fr.data_modified) := by
  obtain ⟨⟨⟨newo, hto⟩, _⟩, hfo⟩ := open_log_kept w
  have hspec := (open_log_spec w).2.2.2
  unfold production
  cases hop : open_log w with
  | exit c0 w0 =>
    rw [hop] at hfo
    simp only [Step.world] at hfo
    refine ⟨fun w1 h => (by cases h), fun c w1 h => ?_⟩
    cases h
    rw [hfo]
  | next w0 =>
    rw [hop] at hfo hto
    simp only [Step.world] at hfo hto
    obtain ⟨hn, hx⟩ := driver_outcome env w0 he hr
    have hidx : w0.mem.species_index = w.mem.species_index := (hspec w0 hop).2.2.2
    refine ⟨fun w1 h => ?_, fun c w1 h => ?_⟩
    · obtain ⟨⟨new, m, ht, hm⟩, hdm⟩ := hn w1 h
      refine ⟨⟨newo ++ new, m, ?_, List.mem_append_right _ hm⟩, ?_⟩
      · rw [ht, hto, List.append_assoc]
      · rw [hdm, hfo, hidx]
    · rw [hx c w1 h, hfo]

/-- C11: provided the engine and the resolver leave `data_modified` alone, one
iteration of the species loop for player `n` (a) completes its production (the
engine was called and the step returned to the loop) exactly when the player's
data is in memory, its order file opens, the scanner reports FOUND and the step
returns to the loop; (b) then ends with `data_modified[n - 1]` set and every
other flag as it was; (c) otherwise, skipped or ended by an exit, leaves every
flag as it was. -/
theorem C11_modified_flag_marks_completed_production (env : Env) (d : Bool) (n : Int) (w : World)
    (he : ∀ m, (env.do_production_orders m).fr.data_modified = m.fr.data_modified)
    (hr : ∀ i m, (env.handle_intercept i m).fr.data_modified = m.fr.data_modified) :
    (step_completed env d n w ↔
      w.mem.data_in_memory (n - 1) = true ∧
      ∃ tokens, w.disk.ord (ord_filename n) = some tokens ∧
        (scan_of env n tokens w).found = true ∧ ∃ w1, species_step env d n w = .next w1) ∧
    (step_completed env d n w →
      (species_step env d n w).world.mem.fr.data_modified
        = store w.mem.fr.data_modified (n - 1) true) ∧
    (¬ step_completed env d n w →
      (species_step env d n w).world.mem.fr.data_modified = w.mem.fr.data_modified) := by
  by_cases hd : w.mem.data_in_memory (n - 1) = true
  swap
  · -- no data in memory
    have hd0 : w.mem.data_in_memory (n - 1) = false := by simpa using hd
    have hnc : ¬ step_completed env d n w := by
      rintro ⟨w1, new, h1, h2, m, hm⟩
      cases d with
      | true =>
        obtain ⟨w2, e1, _, _, _, e5⟩ := species_step_skip env n w (Or.inl hd0)
        rw [e1] at h1
        cases h1
        rw [e5] at h2
        have := skip_events_no_call n w _ (by rw [List.append_cancel_left h2]; exact hm)
        simp [Event.is_call] at this
      | false =>
        obtain ⟨w2, e1, _⟩ := (species_step_missing env n w (Or.inl hd0)).2
        rw [e1] at h1
        cases h1
    refine ⟨⟨fun h => absurd h hnc, fun h => absurd h.1 hd⟩, fun h => absurd h hnc, fun _ => ?_⟩
    cases d with
    | true =>
      obtain ⟨w2, e1, e2, _⟩ := (species_step_missing env n w (Or.inl hd0)).1
      rw [e1]; exact congrArg Frame.data_modified e2
    | false =>
      obtain ⟨w2, e1, e2, _⟩ := (species_step_missing env n w (Or.inl hd0)).2
      rw [e1]; exact congrArg Frame.data_modified e2
  · cases ho : w.disk.ord (ord_filename n) with
    | none =>
      have hnc : ¬ step_completed env d n w := by
        rintro ⟨w1, new, h1, h2, m, hm⟩
        cases d with
        | true =>
          obtain ⟨w2, e1, _, _, _, e5⟩ := species_step_skip env n w (Or.inr ho)
          rw [e1] at h1
          cases h1
          rw [e5] at h2
          have := skip_events_no_call n w _ (by rw [List.append_cancel_left h2]; exact hm)
          simp [Event.is_call] at this
        | false =>
          obtain ⟨w2, e1, _⟩ := (species_step_missing env n w (Or.inr ho)).2
          rw [e1] at h1
          cases h1
      refine ⟨⟨fun h => absurd h hnc, fun h => ?_⟩, fun h => absurd h hnc, fun _ => ?_⟩
      · obtain ⟨_, tokens, h2, _⟩ := h
        cases h2
      · cases d with
        | true =>
          obtain ⟨w2, e1, e2, _⟩ := (species_step_missing env n w (Or.inr ho)).1
          rw [e1]; exact congrArg Frame.data_modified e2
        | false =>
          obtain ⟨w2, e1, e2, _⟩ := (species_step_missing env n w (Or.inr ho)).2
          rw [e1]; exact congrArg Frame.data_modified e2
    | some tokens =>
      cases hf : (scan_of env n tokens w).found with
      | false =>
        obtain ⟨w2, e1, e2, _, e4, _⟩ := species_step_not_found env d n tokens w hd ho hf
        have hnc : ¬ step_completed env d n w := by
          rintro ⟨w1, new, h1, h2, m, hm⟩
          rw [e1] at h1
          cases h1
          rw [e2] at h2
          have hnew := List.append_cancel_left h2
          rw [← hnew] at hm
          simp at hm
        refine ⟨⟨fun h => absurd h hnc, fun h => ?_⟩, fun h => absurd h hnc, fun _ => ?_⟩
        · obtain ⟨_, t2, h2, h3, _⟩ := h
          cases h2
          rw [hf] at h3
          cases h3
        · rw [e1]
          exact congrArg Galaxy.data_modified e4
      | true =>
        have hstep := species_step_scanned env d n tokens w hd ho
        simp only [hf, Bool.not_true, Bool.false_eq_true, if_false] at hstep
        obtain ⟨hn, hx⟩ := production_outcome env (scanned_world env n tokens w) he hr
        have hdm0 : (scanned_world env n tokens w).mem.fr.data_modified = w.mem.fr.data_modified := by
          rw [scanned_world_mem]
        have hidx0 : (scanned_world env n tokens w).mem.species_index = n - 1 := by
          rw [scanned_world_mem]
        have hnext : ∀ w1, species_step env d n w = .next w1 → step_completed env d n w := by
          intro w1 h1
          obtain ⟨⟨new, m, ht, hm⟩, _⟩ := hn w1 (hstep ▸ h1)
          refine ⟨w1, Event.fopen (ord_filename n) "r" true ::
            ((scan_of env n tokens w).stderr.map Event.eprintf ++ new), h1, ?_, m, ?_⟩
          · rw [ht, scanned_world_trace]; simp
          · exact List.mem_cons_of_mem _ (List.mem_append_right _ hm)
        refine ⟨⟨fun h => ?_, fun h => ?_⟩, fun h => ?_, fun h => ?_⟩
        · obtain ⟨w1, new, h1, _⟩ := h
          exact ⟨hd, tokens, rfl, hf, w1, h1⟩
        · obtain ⟨_, _, _, _, w1, h1⟩ := h
          exact hnext w1 h1
        · obtain ⟨w1, new, h1, _⟩ := h
          rw [h1]
          simp only [Step.world]
          rw [(hn w1 (hstep ▸ h1)).2, hdm0, hidx0]
        · cases hs : species_step env d n w with
          | next w1 => exact absurd (hnext w1 hs) h
          | exit c w1 =>
            simp only [Step.world]
            rw [hx c w1 (hstep ▸ hs), hdm0]

theorem C11_modified_flag_marks_completed_production_witness :
    (main full_env ["fhprod"] full_disk).code = some 0 ∧
    (main full_env ["fhprod"] full_disk).world.trace.filterMap Event.called_for = [1, 3] ∧
    (main full_env ["fhprod"] full_disk).world.mem.fr.data_modified (1 - 1) = true ∧
    (main full_env ["fhprod"] full_disk).world.mem.fr.data_modified (2 - 1) = false ∧
    (main full_env ["fhprod"] full_disk).world.mem.fr.data_modified (3 - 1) = true ∧
    full_loaded.mem.fr.data_modified (1 - 1) = false ∧
    (species_step full_env true 1 full_loaded).world.mem.fr.data_modified (1 - 1) = true ∧
    ((step_completed full_env true 1 full_loaded ↔
      full_loaded.mem.data_in_memory (1 - 1) = true ∧
      ∃ tokens, full_loaded.disk.ord (ord_filename 1) = some tokens ∧
        (scan_of full_env 1 tokens full_loaded).found = true ∧
        ∃ w1, species_step full_env true 1 full_loaded = .next w1) ∧
    (step_completed full_env true 1 full_loaded →
      (species_step full_env true 1 full_loaded).world.mem.fr.data_modified
        = store full_loaded.mem.fr.data_modified (1 - 1) true) ∧
    (¬ step_completed full_env true 1 full_loaded →
      (species_step full_env true 1 full_loaded).world.mem.fr.data_modified
        = full_loaded.mem.fr.data_modified)) :=
  ⟨by decide, by decide, by decide, by decide, by decide, by decide, by decide,
    C11_modified_flag_marks_completed_production full_env true 1 full_loaded
      (fun _ => rfl) (fun _ _ => rfl)⟩

/-! ## The two passes -/

theorem start_pass_trace (env : Env) (w : World) :
    (start_pass env w).trace = w.trace ++
      ((if w.mem.first_pass then [Event.printf "\nStarting first pass...\n\n"] else []) ++
        [.get_species_data, .get_star_data, .get_planet_data]) := by
  unfold start_pass
  by_cases hf : w.mem.first_pass = true
  · simp [hf, World.emit, World.put]
  · simp [hf, World.emit, World.put]

theorem Grow.count_same {P : Event → Prop} {w w1 : World} (h : Grow P w w1) (f : Event → Bool)
    (hf : ∀ e, P e → f e = false) : w1.trace.countP f = w.trace.countP f := by
  obtain ⟨new, hn, hp⟩ := h
  rw [hn, List.countP_append]
  have : new.countP f = 0 := by
    rw [List.countP_eq_zero]
    intro e he
    simp [hf e (hp e he)]
  omega

theorem step_event_plain (fp : Bool) (e : Event) (h : step_event fp e) :
    e.is_prompt = false ∧ e.is_load = false ∧ e.is_gate = false := by
  cases e <;> simp_all [step_event, Event.is_prompt, Event.is_load, Event.is_gate]

theorem species_loop_counts (env : Env) (d : Bool) (l : List Int) (w : World) :
    Grow (step_event w.mem.first_pass) w (species_loop env d l w).world ∧
    (species_loop env d l w).world.trace.countP Event.is_prompt = w.trace.countP Event.is_prompt ∧
    (species_loop env d l w).world.trace.countP Event.is_load = w.trace.countP Event.is_load ∧
    (species_loop env d l w).world.trace.countP Event.is_gate = w.trace.countP Event.is_gate := by
  have g := (species_loop_ok env d l w).1
  exact ⟨g, g.count_same _ (fun e h => (step_event_plain _ e h).1),
    g.count_same _ (fun e h => (step_event_plain _ e h).2.1),
    g.count_same _ (fun e h => (step_event_plain _ e h).2.2)⟩

theorem start_pass_counts (env : Env) (w : World) :
    (start_pass env w).trace.countP Event.is_prompt = w.trace.countP Event.is_prompt ∧
    (start_pass env w).trace.countP Event.is_load = w.trace.countP Event.is_load + 1 ∧
    (start_pass env w).trace.countP Event.is_gate = w.trace.countP Event.is_gate := by
  rw [start_pass_trace]
  by_cases hf : w.mem.first_pass = true
  · simp [hf, List.countP_append, List.countP_cons, Event.is_prompt, Event.is_load, Event.is_gate]
  · simp [hf, List.countP_append, List.countP_cons, Event.is_prompt, Event.is_load, Event.is_gate]

theorem persist_counts (env : Env) (w : World) :
    (persist env w).trace.countP Event.is_prompt = w.trace.countP Event.is_prompt ∧
    (persist env w).trace.countP Event.is_load = w.trace.countP Event.is_load ∧
    (persist env w).trace.countP Event.is_gate = w.trace.countP Event.is_gate + 1 := by
  rw [persist_trace]
  by_cases hf : w.mem.fr.planet_data_modified = true
  · simp [hf, List.countP_append, List.countP_cons, Event.is_prompt, Event.is_load, Event.is_gate]
  · simp [hf, List.countP_append, List.countP_cons, Event.is_prompt, Event.is_load, Event.is_gate]

theorem commit_pass_counts (env : Env) (d : Bool) (l : List Int) (w : World)
    (hfp : w.mem.first_pass = false) :
    (start_pass env w).mem.first_pass = false ∧
    Grow (step_event false) (start_pass env w) (species_loop env d l (start_pass env w)).world ∧
    (commit_pass env d l w).world.trace.countP Event.is_prompt = w.trace.countP Event.is_prompt ∧
    (commit_pass env d l w).world.trace.countP Event.is_load = w.trace.countP Event.is_load + 1 ∧
    (∀ wg, species_loop env d l (start_pass env w) = .next wg →
      commit_pass env d l w = .exit 0 (persist env wg) ∧
      wg.trace.countP Event.is_gate = w.trace.countP Event.is_gate ∧
      (commit_pass env d l w).world.trace.countP Event.is_gate = w.trace.countP Event.is_gate + 1) := by
  have hf2 : (start_pass env w).mem.first_pass = false := by rw [start_pass_first_pass, hfp]
  obtain ⟨g, c1, c2, c3⟩ := species_loop_counts env d l (start_pass env w)
  obtain ⟨s1, s2, s3⟩ := start_pass_counts env w
  rw [hf2] at g
  refine ⟨hf2, g, ?_, ?_, ?_⟩
  · unfold commit_pass
    cases hl : species_loop env d l (start_pass env w) with
    | exit c w1 => rw [hl] at c1; simp only [Step.world] at c1 ⊢; rw [c1, s1]
    | next w1 =>
      rw [hl] at c1; simp only [Step.world] at c1 ⊢
      rw [(persist_counts env w1).1, c1, s1]
  · unfold commit_pass
    cases hl : species_loop env d l (start_pass env w) with
    | exit c w1 => rw [hl] at c2; simp only [Step.world] at c2 ⊢; rw [c2, s2]
    | next w1 =>
      rw [hl] at c2; simp only [Step.world] at c2 ⊢
      rw [(persist_counts env w1).2.1, c2, s2]
  · intro wg hl
    rw [hl] at c3
    simp only [Step.world] at c3
    have hc : commit_pass env d l w = .exit 0 (persist env wg) := by
      unfold commit_pass
      rw [hl]
    refine ⟨hc, by rw [c3, s3], ?_⟩
    rw [hc]
    simp only [Step.world]
    rw [(persist_counts env wg).2.2, c3, s3]

/-- C13: a run whose arguments are accepted and contain no `-p` is one commit
pass: the loop runs once with `first_pass` FALSE (log text goes to the log
files), the operator is never asked, and when the loop completes the persistence
gate follows, once.  With `-p`, when the first loop completes and the operator
proceeds, the run is the first loop with `first_pass` TRUE (log text goes to the
console, nothing durable), then the confirmation, once, then one commit pass over
the same selection: two loads, one confirmation between them, and the gate once,
after the second loop. -/
theorem C13_one_or_two_passes (env : Env) (argv : List String) (disk : Disk) (sel : Selection)
    (hsel : select (env.get_galaxy_data disk) argv = .ok sel) :
    (sel.first_pass = false →
      main env argv disk
        = commit_pass env sel.do_all_species sel.sp_num (selected_world env disk sel) ∧
      (start_pass env (selected_world env disk sel)).mem.first_pass = false ∧
      Grow (step_event false) (start_pass env (selected_world env disk sel))
        (species_loop env sel.do_all_species sel.sp_num
          (start_pass env (selected_world env disk sel))).world ∧
      (main env argv disk).world.trace.countP Event.is_prompt = 0 ∧
      (main env argv disk).world.trace.countP Event.is_load = 1 ∧
      (∀ wg, species_loop env sel.do_all_species sel.sp_num
          (start_pass env (selected_world env disk sel)) = .next wg →
        main env argv disk = .exit 0 (persist env wg) ∧
        wg.trace.countP Event.is_gate = 0 ∧
        (main env argv disk).world.trace.countP Event.is_gate = 1)) ∧
    (sel.first_pass = true →
      ∀ w1, species_loop env sel.do_all_species sel.sp_num
          (start_pass env (selected_world env disk sel)) = .next w1 →
        env.gamemaster_abort_option = none →
        ∃ w2, abort_gate env w1 = .next w2 ∧ w2.mem = { w1.mem with first_pass := false } ∧
          main env argv disk = commit_pass env sel.do_all_species sel.sp_num w2 ∧
          (start_pass env (selected_world env disk sel)).mem.first_pass = true ∧
          Grow (step_event true) (start_pass env (selected_world env disk sel)) w1 ∧
          (∀ e ∈ w1.trace, e.durable = false) ∧
          (start_pass env w2).mem.first_pass = false ∧
          Grow (step_event false) (start_pass env w2)
            (species_loop env sel.do_all_species sel.sp_num (start_pass env w2)).world ∧
          w1.trace.countP Event.is_prompt = 0 ∧ w1.trace.countP Event.is_load = 1 ∧
          w1.trace.countP Event.is_gate = 0 ∧
          w2.trace.countP Event.is_prompt = 1 ∧ w2.trace.countP Event.is_load = 1 ∧
          (main env argv disk).world.trace.countP Event.is_prompt = 1 ∧
          (main env argv disk).world.trace.countP Event.is_load = 2 ∧
          (∀ wg, species_loop env sel.do_all_species sel.sp_num (start_pass env w2) = .next wg →
            main env argv disk = .exit 0 (persist env wg) ∧
            wg.trace.countP Event.is_gate = 0 ∧
            (main env argv disk).world.trace.countP Event.is_gate = 1)) := by
  have hmain := main_of_select_ok env argv disk sel hsel
  have hW : (selected_world env disk sel).mem.first_pass = sel.first_pass := rfl
  have h0 : (selected_world env disk sel).trace.countP Event.is_prompt = 0 ∧
      (selected_world env disk sel).trace.countP Event.is_load = 0 ∧
      (selected_world env disk sel).trace.countP Event.is_gate = 0 := by
    refine ⟨?_, ?_, ?_⟩ <;> rfl
  constructor
  · intro hp
    have hfp : (selected_world env disk sel).mem.first_pass = false := by rw [hW, hp]
    have hm : main env argv disk
        = commit_pass env sel.do_all_species sel.sp_num (selected_world env disk sel) := by
      rw [hmain]
      unfold passes
      simp [hfp]
    obtain ⟨a1, a2, a3, a4, a5⟩ :=
      commit_pass_counts env sel.do_all_species sel.sp_num (selected_world env disk sel) hfp
    refine ⟨hm, a1, a2, ?_, ?_, ?_⟩
    · rw [hm, a3, h0.1]
    · rw [hm, a4, h0.2.1]
    · intro wg hl
      obtain ⟨b1, b2, b3⟩ := a5 wg hl
      exact ⟨by rw [hm, b1], by rw [b2, h0.2.2], by rw [hm, b3, h0.2.2]⟩
  · intro hp w1 hl hgo
    have hfp : (selected_world env disk sel).mem.first_pass = true := by rw [hW, hp]
    have hf1 : (start_pass env (selected_world env disk sel)).mem.first_pass = true := by
      rw [start_pass_first_pass, hfp]
    obtain ⟨g, c1, c2, c3⟩ := species_loop_counts env sel.do_all_species sel.sp_num
      (start_pass env (selected_world env disk sel))
    obtain ⟨s1, s2, s3⟩ := start_pass_counts env (selected_world env disk sel)
    have hq := (validate_quiet env sel.do_all_species sel.sp_num (selected_world env disk sel) hfp
      (startup_quiet env disk sel)).1
    rw [hl] at g c1 c2 c3 hq
    rw [hf1] at g
    simp only [Step.world] at g c1 c2 c3 hq
    have hgate : ∃ w2, abort_gate env w1 = .next w2 := by
      unfold abort_gate
      rw [hgo]
      exact ⟨_, rfl⟩
    obtain ⟨w2, hw2⟩ := hgate
    obtain ⟨_, ht2, _, hm2⟩ := abort_gate_next env w1 w2 hw2
    have hfp2 : w2.mem.first_pass = false := by rw [hm2]
    have hm : main env argv disk = commit_pass env sel.do_all_species sel.sp_num w2 := by
      rw [hmain]
      unfold passes
      rw [if_pos hfp, hl]
      simp only []
      rw [hw2]
    obtain ⟨a1, a2, a3, a4, a5⟩ := commit_pass_counts env sel.do_all_species sel.sp_num w2 hfp2
    have p1 : w1.trace.countP Event.is_prompt = 0 := by rw [c1, s1, h0.1]
    have l1 : w1.trace.countP Event.is_load = 1 := by rw [c2, s2, h0.2.1]
    have g1 : w1.trace.countP Event.is_gate = 0 := by rw [c3, s3, h0.2.2]
    have p2 : w2.trace.countP Event.is_prompt = 1 := by
      rw [ht2, List.countP_append, p1]
      simp [List.countP_cons, Event.is_prompt]
    have l2 : w2.trace.countP Event.is_load = 1 := by
      rw [ht2, List.countP_append, l1]
      simp [List.countP_cons, Event.is_load]
    have g2 : w2.trace.countP Event.is_gate = 0 := by
      rw [ht2, List.countP_append, g1]
      simp [List.countP_cons, Event.is_gate]
    refine ⟨w2, hw2, hm2, hm, hf1, g, hq, a1, a2, p1, l1, g1, p2, l2, ?_, ?_, ?_⟩
    · rw [hm, a3, p2]
    · rw [hm, a4, l2]
    · intro wg hl2
      obtain ⟨b1, b2, b3⟩ := a5 wg hl2
      exact ⟨by rw [hm, b1], by rw [b2, g2], by rw [hm, b3, g2]⟩

theorem C13_one_or_two_passes_witness :
    (species_loop demo_env true [1, 2, 3] demo_loaded = .next demo_validated ∧
     demo_env.gamemaster_abort_option = none ∧
     (main demo_env ["fhprod", "-p"] demo_disk).code = some 0 ∧
     (main demo_env ["fhprod", "-p"] demo_disk).world.trace.countP Event.is_load = 2 ∧
     (main demo_env ["fhprod", "-p"] demo_disk).world.trace.countP Event.is_prompt = 1 ∧
     (main demo_env ["fhprod", "-p"] demo_disk).world.trace.countP Event.is_gate = 1 ∧
     (main demo_env ["fhprod"] demo_disk).world.trace.countP Event.is_load = 1 ∧
     (main demo_env ["fhprod"] demo_disk).world.trace.countP Event.is_prompt = 0 ∧
     (main demo_env ["fhprod"] demo_disk).world.trace.countP Event.is_gate = 1) ∧
    ((demo_selection.first_pass = false →
      main demo_env ["fhprod", "-p"] demo_disk
        = commit_pass demo_env demo_selection.do_all_species demo_selection.sp_num
            (selected_world demo_env demo_disk demo_selection) ∧
      (start_pass demo_env (selected_world demo_env demo_disk demo_selection)).mem.first_pass = false ∧
      Grow (step_event false) (start_pass demo_env (selected_world demo_env demo_disk demo_selection))
        (species_loop demo_env demo_selection.do_all_species demo_selection.sp_num
          (start_pass demo_env (selected_world demo_env demo_disk demo_selection))).world ∧
      (main demo_env ["fhprod", "-p"] demo_disk).world.trace.countP Event.is_prompt = 0 ∧
      (main demo_env ["fhprod", "-p"] demo_disk).world.trace.countP Event.is_load = 1 ∧
      (∀ wg, species_loop demo_env demo_selection.do_all_species demo_selection.sp_num
          (start_pass demo_env (selected_world demo_env demo_disk demo_selection)) = .next wg →
        main demo_env ["fhprod", "-p"] demo_disk = .exit 0 (persist demo_env wg) ∧
        wg.trace.countP Event.is_gate = 0 ∧
        (main demo_env ["fhprod", "-p"] demo_disk).world.trace.countP Event.is_gate = 1)) ∧
    (demo_selection.first_pass = true →
      ∀ w1, species_loop demo_env demo_selection.do_all_species demo_selection.sp_num
          (start_pass demo_env (selected_world demo_env demo_disk demo_selection)) = .next w1 →
        demo_env.gamemaster_abort_option = none →
        ∃ w2, abort_gate demo_env w1 = .next w2 ∧ w2.mem = { w1.mem with first_pass := false } ∧
          main demo_env ["fhprod", "-p"] demo_disk
            = commit_pass demo_env demo_selection.do_all_species demo_selection.sp_num w2 ∧
          (start_pass demo_env (selected_world demo_env demo_disk demo_selection)).mem.first_pass = true ∧
          Grow (step_event true) (start_pass demo_env (selected_world demo_env demo_disk demo_selection)) w1 ∧
          (∀ e ∈ w1.trace, e.durable = false) ∧
          (start_pass demo_env w2).mem.first_pass = false ∧
          Grow (step_event false) (start_pass demo_env w2)
            (species_loop demo_env demo_selection.do_all_species demo_selection.sp_num
              (start_pass demo_env w2)).world ∧
          w1.trace.countP Event.is_prompt = 0 ∧ w1.trace.countP Event.is_load = 1 ∧
          w1.trace.countP Event.is_gate = 0 ∧
          w2.trace.countP Event.is_prompt = 1 ∧ w2.trace.countP Event.is_load = 1 ∧
          (main demo_env ["fhprod", "-p"] demo_disk).world.trace.countP Event.is_prompt = 1 ∧
          (main demo_env ["fhprod", "-p"] demo_disk).world.trace.countP Event.is_load = 2 ∧
          (∀ wg, species_loop demo_env demo_selection.do_all_species demo_selection.sp_num
              (start_pass demo_env w2) = .next wg →
            main demo_env ["fhprod", "-p"] demo_disk = .exit 0 (persist demo_env wg) ∧
            wg.trace.countP Event.is_gate = 0 ∧
            (main demo_env ["fhprod", "-p"] demo_disk).world.trace.countP Event.is_gate = 1))) :=
  ⟨⟨rfl, rfl, by decide, by decide, by decide, by decide, by decide, by decide, by decide⟩,
    C13_one_or_two_passes demo_env ["fhprod", "-p"] demo_disk demo_selection rfl⟩

end FarHorizons
